import Mathlib

/-!
# Special Stage UFO (src/objects/ufo.c): a shallow embedding

The game objects (`mobj_t`) live in a heap `Nat → mobj_t`; a C pointer to a
game object is an `Option Nat` (`none` is `NULL`).  Signed 32-bit quantities
(`fixed_t`, `INT32`) are `Int`, signed overflow being undefined behaviour in C;
unsigned quantities (`UINT8`, `UINT32`) are reduced modulo `2 ^ w` explicitly
where the C code converts to them.  Everything that ufo.c takes from other
translation units (fixed-point primitives, flag and damage constants, the
waypoint graph, the player physics) is a field of `Env`.  Sound, screen quake,
linedef execution and decorative particle spawns act on state that is not
tracked here and are left out.
-/

namespace RingRacers

/-! ## Data model -/

/-- Object kinds `mobjtype_t` (info.h): the kinds ufo.c names, and all the others. -/
inductive mobjtype_t where
  | MT_JAWZ_SHIELD
  | MT_ORBINAUT_SHIELD
  | MT_JAWZ
  | MT_ORBINAUT
  | MT_SPB
  | MT_BANANA
  | MT_PLAYER
  | MT_SPECIAL_UFO
  | MT_SPECIAL_UFO_PIECE
  | MT_OTHER (n : Nat)
  deriving DecidableEq, Repr

/-- Ways a run of the C code can fail to produce a result. -/
inductive Fault where
  | nullDeref
  | outOfFuel
  deriving DecidableEq, Repr

/-- The fields of `mobj_t` that ufo.c reads or writes. `removed` is `P_MobjWasRemoved`. -/
structure mobj_t where
  type : mobjtype_t
  removed : Bool
  health : Int
  flags : Nat
  eflags : Nat
  hitlag : Int
  tics : Int
  x : Int
  y : Int
  z : Int
  momx : Int
  momy : Int
  momz : Int
  angle : Int
  scale : Int
  height : Int
  shadowscale : Int
  watertop : Int
  extravalue1 : Int
  extravalue2 : Int
  threshold : Int
  sprzoff : Int
  hnext : Option Nat
  hprev : Option Nat
  target : Option Nat
  player : Option Nat

/-- The fields of `player_t` that ufo.c reads or writes; `exiting` records `P_DoPlayerExit`. -/
structure player_t where
  spectator : Bool
  mo : Option Nat
  distancetofinish : Nat
  rmomx : Int
  rmomy : Int
  numsneakers : Nat
  sneakertimer : Int
  flashing : Int
  pflags : Nat
  exiting : Bool

/-- A waypoint (k_waypoint.h): its identity and the heap address of its map object. -/
structure waypoint_t where
  id : Nat
  mobj : Nat
  deriving DecidableEq, Repr

/-- A path found by the pathfinder: the waypoints of its nodes and its total length. -/
structure path_t where
  array : List waypoint_t
  totaldist : Nat
  deriving DecidableEq, Repr

/-- The mutable game state: object heap, `players[]`, `playeringame[]`, `specialstageinfo`. -/
structure World where
  mobjs : Nat → mobj_t
  players : Nat → player_t
  playeringame : Nat → Bool
  specialstageValid : Bool
  specialstageUfo : Option Nat

/-- Everything ufo.c uses that is defined in other files of the game. -/
structure Env where
  FRACBITS : Nat
  FixedMul : Int → Int → Int
  FixedDiv : Int → Int → Int
  P_AproxDistance : Int → Int → Int
  R_PointToDist2 : Int → Int → Int → Int → Int
  K_GetKartSpeed : player_t → Bool → Bool → Int
  gameSpeedScalar : Int
  mapobjectscale : Int
  MAXPLAYERS : Nat
  TICRATE : Int
  spawnhealth : Int
  DMG_NORMAL : Nat
  DMG_WIPEOUT : Nat
  DMG_EXPLODE : Nat
  DMG_TUMBLE : Nat
  DMG_STING : Nat
  DMG_VOLTAGE : Nat
  DMG_TYPEMASK : Nat
  MF_SPECIAL : Nat
  MF_SHOOTABLE : Nat
  MF_NOGRAVITY : Nat
  MF_PICKUPFROMBELOW : Nat
  MFE_DAMAGEHITLAG : Nat
  PF_NOCONTEST : Nat
  hitlagPulse : mobj_t → Int → Bool → Int × Nat
  thrust : mobj_t → Int → Int → Int × Int
  objectMomZ : mobj_t → Int → Bool → Int
  FixedAngle : Int → Int
  P_RandomRange : Int → Int → Int
  K_MomentumAngle : mobj_t → Int
  emeraldBob : Int → Int
  AngleDeltaSigned : Int → Int → Int
  ironmanSkin : Nat → player_t → Bool
  SetRandomFakePlayerSkin : player_t → Bool → player_t
  K_GetWaypointFromIndex : Nat → Option waypoint_t
  K_GetFinishLineWaypoint : Option waypoint_t
  K_GetWaypointHeapIndex : waypoint_t → Nat
  K_PathfindToWaypoint : waypoint_t → waypoint_t → Bool → Bool → Option path_t
  sizeBits : Nat

/-- Value of a C conversion to `UINT8`. -/
def toUINT8 (x : Int) : Nat := (x % 256).toNat

/-- Value of a C conversion to `UINT32`. -/
def toUINT32 (x : Int) : Nat := (x % 4294967296).toNat

/-- Value of a C conversion to `INT32` (two's complement wrap). -/
def toINT32 (x : Int) : Int := (x + 2147483648) % 4294967296 - 2147483648

/-- The constant `UINT32_MAX`. -/
def UINT32_MAX : Nat := 4294967295

/-- The C expression `a & ~m` on 32-bit flag words. -/
def clearFlags (a m : Nat) : Nat := a &&& (4294967295 ^^^ m)

/-- The constant `FRACUNIT = 1 << FRACBITS`. -/
def FRACUNIT (env : Env) : Int := 2 ^ env.FRACBITS

/-- Source: `#define UFO_BASE_SPEED (42 * FRACUNIT)`, the slowest speed. -/
def UFO_BASE_SPEED (env : Env) : Int := 42 * FRACUNIT env

/-- Source: `#define UFO_SPEEDUP (FRACUNIT >> 1)`. -/
def UFO_SPEEDUP (env : Env) : Int := FRACUNIT env / 2

/-- Source: `#define UFO_SLOWDOWN (FRACUNIT >> 1)`. -/
def UFO_SLOWDOWN (env : Env) : Int := FRACUNIT env / 2

/-- Source: `#define UFO_SPACING (768 * FRACUNIT)`. -/
def UFO_SPACING (env : Env) : Int := 768 * FRACUNIT env

/-- Source: `#define UFO_DEADZONE (2048 * FRACUNIT)`. -/
def UFO_DEADZONE (env : Env) : Int := 2048 * FRACUNIT env

/-- Source: `#define UFO_SPEEDFACTOR (FRACUNIT * 3 / 4)`. -/
def UFO_SPEEDFACTOR (env : Env) : Int := FRACUNIT env * 3 / 4

/-- Source: `#define UFO_DAMAGED_SPEED (UFO_BASE_SPEED >> 1)`. -/
def UFO_DAMAGED_SPEED (env : Env) : Int := UFO_BASE_SPEED env / 2

/-- Source: `#define UFO_START_SPEED (UFO_BASE_SPEED << 1)`. -/
def UFO_START_SPEED (env : Env) : Int := UFO_BASE_SPEED env * 2

/-- Piece kind `UFO_PIECE_TYPE_POD` of the anonymous enum. -/
def UFO_PIECE_TYPE_POD : Int := 0

/-- Piece kind `UFO_PIECE_TYPE_ARM` of the anonymous enum. -/
def UFO_PIECE_TYPE_ARM : Int := 1

/-- Piece kind `UFO_PIECE_TYPE_STEM` of the anonymous enum. -/
def UFO_PIECE_TYPE_STEM : Int := 2

/-- Store `m` at heap address `p`. -/
def World.setMobj (w : World) (p : Nat) (m : mobj_t) : World :=
  { w with mobjs := Function.update w.mobjs p m }

/-- Store `q` in `players[i]`. -/
def World.setPlayer (w : World) (i : Nat) (q : player_t) : World :=
  { w with players := Function.update w.players i q }

/-! ## Damage table -/

/-- Source: the second switch of `GetUFODamage` (ufo.c 630-652), on the damage kind. -/
def GetUFODamage.fromDamageType (env : Env) (damageType : Nat) : Nat :=
  let k := damageType &&& env.DMG_TYPEMASK
  if k = env.DMG_NORMAL ∨ k = env.DMG_STING then 10
  else if k = env.DMG_WIPEOUT then 20
  else if k = env.DMG_EXPLODE ∨ k = env.DMG_TUMBLE then 30
  else if k = env.DMG_VOLTAGE then 15
  else 10

/-- Source: `GetUFODamage` (ufo.c 580-653). The result passes through `UINT8`;
`inflictor->player` is dereferenced unchecked for an inflictor of kind `MT_PLAYER`. -/
def GetUFODamage (env : Env) (w : World) (inflictor : Option Nat) (damageType : Nat) :
    Except Fault Nat :=
  match inflictor with
  | none => .ok (GetUFODamage.fromDamageType env damageType)
  | some i =>
    if (w.mobjs i).removed then .ok (GetUFODamage.fromDamageType env damageType)
    else
      match (w.mobjs i).type with
      | .MT_JAWZ_SHIELD => .ok 10
      | .MT_ORBINAUT_SHIELD => .ok 10
      | .MT_JAWZ => .ok 15
      | .MT_ORBINAUT => .ok 20
      | .MT_SPB => .ok 30
      | .MT_BANANA => if (w.mobjs i).health > 1 then .ok 30 else .ok 10
      | .MT_PLAYER =>
        match (w.mobjs i).player with
        | none => .error Fault.nullDeref
        | some pl => .ok (toUINT8 (15 * max 1 ((w.players pl).numsneakers : Int)))
      | _ => .ok (GetUFODamage.fromDamageType env damageType)

/-! ## Pieces -/

/-- Source: `UFOEmeraldChase` (ufo.c 120-123). -/
def UFOEmeraldChase (w : World) (ufo : Nat) : Bool :=
  decide ((w.mobjs ufo).health ≤ 1)

/-- Source: `UFOPieceValid` (ufo.c 125-128). -/
def UFOPieceValid (w : World) (piece : Option Nat) : Bool :=
  match piece with
  | none => false
  | some p => !(w.mobjs p).removed && decide ((w.mobjs p).health > 0)

/-- Modelled from the spec: the engine's hitlag pulse `K_SetHitLagForObjects` (not under
src/), "apply a hitlag pulse of tics to the UFO": it rewrites `hitlag` and `eflags` of the
victim and of a live inflictor, by amounts that `Env.hitlagPulse` supplies. -/
def K_SetHitLagForObjects (env : Env) (w : World) (victim : Nat) (inflictor : Option Nat)
    (tics : Int) (fromDamage : Bool) : World :=
  let v := w.mobjs victim
  let r := env.hitlagPulse v tics fromDamage
  let w1 := w.setMobj victim { v with hitlag := r.1, eflags := r.2 }
  match inflictor with
  | none => w1
  | some i =>
    if (w1.mobjs i).removed then w1
    else
      let m := w1.mobjs i
      let r2 := env.hitlagPulse m tics false
      w1.setMobj i { m with hitlag := r2.1, eflags := r2.2 }

/-- Source: the loop of `UFOCopyHitlagToPieces` (ufo.c 521-526), one unit of fuel per test. -/
def UFOCopyHitlagToPieces.loop (env : Env) (ufo : Nat) :
    Nat → Option Nat → World → Except Fault World
  | 0, _, _ => .error Fault.outOfFuel
  | fuel + 1, piece, w =>
    match piece, UFOPieceValid w piece with
    | some p, true =>
      let m := w.mobjs p
      let w1 := w.setMobj p
        { m with
          hitlag := (w.mobjs ufo).hitlag
          eflags := clearFlags m.eflags env.MFE_DAMAGEHITLAG
            ||| ((w.mobjs ufo).eflags &&& env.MFE_DAMAGEHITLAG) }
      UFOCopyHitlagToPieces.loop env ufo fuel (w1.mobjs p).hnext w1
    | _, _ => .ok w

/-- Source: `UFOCopyHitlagToPieces` (ufo.c 516-527). -/
def UFOCopyHitlagToPieces (env : Env) (fuel : Nat) (w : World) (ufo : Nat) :
    Except Fault World :=
  UFOCopyHitlagToPieces.loop env ufo fuel (w.mobjs ufo).hnext w

/-- Source: `UFOKillPiece` (ufo.c 529-566). -/
def UFOKillPiece (env : Env) (w : World) (piece : Option Nat) : World :=
  match piece, UFOPieceValid w piece with
  | some p, true =>
    let m := w.mobjs p
    let m1 : mobj_t :=
      { m with health := 0, tics := env.TICRATE, flags := clearFlags m.flags env.MF_NOGRAVITY }
    if m1.extravalue1 = UFO_PIECE_TYPE_STEM then
      w.setMobj p { m1 with tics := 1 }
    else
      let dir : Int :=
        if m1.extravalue1 = UFO_PIECE_TYPE_ARM then m1.angle
        else env.FixedAngle (env.P_RandomRange 0 359 * 2 ^ env.FRACBITS)
      let thrust : Int :=
        if m1.extravalue1 = UFO_PIECE_TYPE_ARM then 12 * m1.scale else 4 * m1.scale
      let t := env.thrust m1 dir (-thrust)
      let m2 : mobj_t := { m1 with momx := t.1, momy := t.2 }
      w.setMobj p { m2 with momz := env.objectMomZ m2 (12 * FRACUNIT env) true }
  | _, _ => w

/-- Source: the loop of `UFOKillPieces` (ufo.c 573-577), one unit of fuel per test. -/
def UFOKillPieces.loop (env : Env) : Nat → Option Nat → World → Except Fault World
  | 0, _, _ => .error Fault.outOfFuel
  | fuel + 1, piece, w =>
    match piece, UFOPieceValid w piece with
    | some p, true =>
      let w1 := UFOKillPiece env w (some p)
      UFOKillPieces.loop env fuel (w1.mobjs p).hnext w1
    | _, _ => .ok w

/-- Source: `UFOKillPieces` (ufo.c 568-578). -/
def UFOKillPieces (env : Env) (fuel : Nat) (w : World) (ufo : Nat) : Except Fault World :=
  UFOKillPieces.loop env fuel (w.mobjs ufo).hnext w

/-! ## Damage -/

/-- Source: `Obj_SpecialUFODamage` (ufo.c 675-682), the skin side effect on the source.
`source` is dereferenced unchecked. -/
def Obj_SpecialUFODamage.sourceSkin (env : Env) (w : World) (source : Option Nat) :
    Except Fault World :=
  match source with
  | none => .error Fault.nullDeref
  | some s =>
    match (w.mobjs s).player with
    | none => .ok w
    | some pl =>
      if env.ironmanSkin pl (w.players pl) then
        .ok (w.setPlayer pl (env.SetRandomFakePlayerSkin (w.players pl) true))
      else .ok w

/-- Source: `Obj_SpecialUFODamage` (ufo.c 691-708), the pinch transition after the pieces
are destroyed. -/
def Obj_SpecialUFODamage.pinch (env : Env) (w : World) (ufo : Nat) (addSpeed : Int) : World :=
  let m := w.mobjs ufo
  w.setMobj ufo
    { m with
      health := 1
      flags := clearFlags m.flags env.MF_SHOOTABLE ||| (env.MF_SPECIAL ||| env.MF_PICKUPFROMBELOW)
      shadowscale := FRACUNIT env / 3
      watertop := m.watertop + addSpeed }

/-- Source: `Obj_SpecialUFODamage` (ufo.c 685-715), an accepted hit of `damage` points. -/
def Obj_SpecialUFODamage.accept (env : Env) (fuel : Nat) (w : World) (ufo : Nat)
    (inflictor : Option Nat) (damage : Nat) : Except Fault (Bool × World) :=
  let addSpeed := env.FixedMul (UFO_DAMAGED_SPEED env) env.gameSpeedScalar
  let w1 := w.setMobj ufo { w.mobjs ufo with watertop := (w.mobjs ufo).watertop + addSpeed }
  let w2 := K_SetHitLagForObjects env w1 ufo inflictor ((damage : Int) / 3 + 2) true
  match UFOCopyHitlagToPieces env fuel w2 ufo with
  | .error e => .error e
  | .ok w3 =>
    if (damage : Int) ≥ (w3.mobjs ufo).health - 1 then
      match UFOKillPieces env fuel w3 ufo with
      | .error e => .error e
      | .ok w4 => .ok (true, Obj_SpecialUFODamage.pinch env w4 ufo addSpeed)
    else
      .ok (true, w3.setMobj ufo
        { w3.mobjs ufo with health := (w3.mobjs ufo).health - (damage : Int) })

/-- Source: `Obj_SpecialUFODamage` (ufo.c 655-716). -/
def Obj_SpecialUFODamage (env : Env) (fuel : Nat) (w : World) (ufo : Nat)
    (inflictor source : Option Nat) (damageType : Nat) : Except Fault (Bool × World) :=
  if UFOEmeraldChase w ufo = true then .ok (false, w)
  else
    match GetUFODamage env w inflictor damageType with
    | .error e => .error e
    | .ok damage =>
      if damage ≤ 0 then .ok (false, w)
      else
        match Obj_SpecialUFODamage.sourceSkin env w source with
        | .error e => .error e
        | .ok w0 => Obj_SpecialUFODamage.accept env fuel w0 ufo inflictor damage

/-! ## Speed controller -/

/-- Source: `UFOUpdateSpeed` (ufo.c 166), `baseSpeed`. -/
def UFOUpdateSpeed.baseSpeed (env : Env) : Int :=
  env.FixedMul (UFO_BASE_SPEED env) env.gameSpeedScalar

/-- Source: `UFOUpdateSpeed` (ufo.c 167), `spacing`, a `UINT32`. -/
def UFOUpdateSpeed.spacing (env : Env) : Nat :=
  toUINT32 (env.FixedMul (env.FixedMul (UFO_SPACING env) env.mapobjectscale)
    env.gameSpeedScalar / 2 ^ env.FRACBITS)

/-- Source: `UFOUpdateSpeed` (ufo.c 168), `deadzone`, a `UINT32`. -/
def UFOUpdateSpeed.deadzone (env : Env) : Nat :=
  toUINT32 (env.FixedMul (env.FixedMul (UFO_DEADZONE env) env.mapobjectscale)
    env.gameSpeedScalar / 2 ^ env.FRACBITS)

/-- Source: the body of the player loop of `UFOUpdateSpeed` (ufo.c 183-210); the
accumulator is `(bestDist, bestSpeed)`. -/
def UFOUpdateSpeed.scanStep (env : Env) (w : World) (acc : Nat × Int) (i : Nat) : Nat × Int :=
  if w.playeringame i = false then acc
  else
    let player := w.players i
    if player.spectator = true then acc
    else
      match player.mo with
      | none => acc
      | some mo =>
        if (w.mobjs mo).removed = true then acc
        else if player.distancetofinish < acc.1 then
          let s0 := env.R_PointToDist2 0 0 player.rmomx player.rmomy
          let s1 := min s0 (env.K_GetKartSpeed player false false)
          let s2 := env.FixedDiv s1 env.mapobjectscale
          let s3 := env.FixedMul s2 (UFO_SPEEDFACTOR env)
          (player.distancetofinish, s3)
        else acc

/-- Source: the player loop of `UFOUpdateSpeed` (ufo.c 171-211): `(bestDist, bestSpeed)`. -/
def UFOUpdateSpeed.scan (env : Env) (w : World) : Nat × Int :=
  (List.range env.MAXPLAYERS).foldl (UFOUpdateSpeed.scanStep env w) (UINT32_MAX, 0)

/-- Source: `UFOUpdateSpeed` (ufo.c 222-231): `wantedDist`, a `UINT32`. -/
def UFOUpdateSpeed.wantedDist (env : Env) (w : World) : Nat :=
  if (UFOUpdateSpeed.scan env w).1 > UFOUpdateSpeed.spacing env then
    (UFOUpdateSpeed.scan env w).1 - UFOUpdateSpeed.spacing env
  else 0

/-- Source: `UFOUpdateSpeed` (ufo.c 231): `distDelta`, the unsigned difference stored in
an `INT32`. -/
def UFOUpdateSpeed.distDelta (env : Env) (w : World) (ufo : Nat) : Int :=
  toINT32 ((w.mobjs ufo).extravalue2 - (UFOUpdateSpeed.wantedDist env w : Int))

/-- Source: `UFOUpdateSpeed` (ufo.c 213-251): the speed the UFO wants. -/
def UFOUpdateSpeed.wantedSpeed (env : Env) (w : World) (ufo : Nat) : Int :=
  let baseSpeed := UFOUpdateSpeed.baseSpeed env
  let bestSpeed := (UFOUpdateSpeed.scan env w).2
  if (UFOUpdateSpeed.scan env w).1 = UINT32_MAX then baseSpeed
  else
    let distDelta := UFOUpdateSpeed.distDelta env w ufo
    if distDelta > 0 then max bestSpeed (baseSpeed * 4)
    else if distDelta.natAbs ≤ UFOUpdateSpeed.deadzone env then max (bestSpeed / 2) baseSpeed
    else baseSpeed

/-- Source: `UFOUpdateSpeed` (ufo.c 253-289): one bounded step of `speed` toward
`wantedSpeed`. -/
def UFOUpdateSpeed.slew (env : Env) (speed wantedSpeed : Int) : Int :=
  let speedDelta := wantedSpeed - speed
  if speedDelta > 0 then
    if |speedDelta| ≤ UFO_SPEEDUP env then wantedSpeed else speed + UFO_SPEEDUP env
  else if speedDelta < 0 then
    if |speedDelta| ≤ UFO_SLOWDOWN env then wantedSpeed else speed - UFO_SLOWDOWN env
  else speed

/-- Source: `UFOUpdateSpeed` (ufo.c 164-289). The speed lines and the zoom sound of lines
267-276 act on state that is not tracked. -/
def UFOUpdateSpeed (env : Env) (w : World) (ufo : Nat) : World :=
  w.setMobj ufo
    { w.mobjs ufo with
      watertop := UFOUpdateSpeed.slew env (w.mobjs ufo).watertop
        (UFOUpdateSpeed.wantedSpeed env w ufo) }

/-! ## Path follower -/

/-- Source: `UFOMoveTo` (ufo.c 106-111). -/
def UFOMoveTo (w : World) (ufo : Nat) (destx desty destz : Int) : World :=
  let m := w.mobjs ufo
  w.setMobj ufo { m with momx := destx - m.x, momy := desty - m.y, momz := destz - m.z }

/-- Source: `GenericDistance` (ufo.c 113-118). -/
def GenericDistance (env : Env) (curx cury curz destx desty destz : Int) : Int :=
  env.P_AproxDistance (env.P_AproxDistance (destx - curx) (desty - cury)) (destz - curz)

/-- Value of a C conversion to `size_t`. -/
def toSizeT (env : Env) (x : Int) : Nat := (x % 2 ^ env.sizeBits).toNat

/-- Source: `K_GetSpecialUFOWaypoint` (ufo.c 298-315). -/
def K_GetSpecialUFOWaypoint (env : Env) (w : World) (ufo : Option Nat) : Option waypoint_t :=
  let ufo1 : Option Nat :=
    if ufo = none ∧ w.specialstageValid = true then w.specialstageUfo else ufo
  match ufo1 with
  | none => none
  | some u =>
    if (w.mobjs u).removed = false ∧ (w.mobjs u).type = mobjtype_t.MT_SPECIAL_UFO then
      if (w.mobjs u).extravalue1 ≥ 0 then
        env.K_GetWaypointFromIndex (toSizeT env (w.mobjs u).extravalue1)
      else none
    else none

/-- The local variables of `UFOMove` that its loop changes, with the game state. -/
structure UFOMove.Locals where
  w : World
  distLeft : Int
  newX : Int
  newY : Int
  newZ : Int
  curWaypoint : waypoint_t
  pathtofinish : Option path_t
  pathIndex : Nat
  reachedEnd : Bool

/-- Source: the `while (distLeft > 0)` loop of `UFOMove` (ufo.c 352-421); one unit of
fuel per iteration. `pathtofinish = none` stands for `pathfindsuccess == false`. -/
def UFOMove.loop (env : Env) (ufo : Nat) (floatHeight : Int) (destWaypoint : waypoint_t) :
    Nat → UFOMove.Locals → Except Fault UFOMove.Locals
  | 0, st => if st.distLeft > 0 then .error Fault.outOfFuel else .ok st
  | fuel + 1, st =>
    if st.distLeft > 0 then
      let wpX := (st.w.mobjs st.curWaypoint.mobj).x
      let wpY := (st.w.mobjs st.curWaypoint.mobj).y
      let wpZ := (st.w.mobjs st.curWaypoint.mobj).z + floatHeight
      let distToNext := GenericDistance env st.newX st.newY st.newZ wpX wpY wpZ
      if distToNext > st.distLeft then
        UFOMove.loop env ufo floatHeight destWaypoint fuel
          { st with
            newX := st.newX + env.FixedMul (env.FixedDiv (wpX - st.newX) distToNext) st.distLeft
            newY := st.newY + env.FixedMul (env.FixedDiv (wpY - st.newY) distToNext) st.distLeft
            newZ := st.newZ + env.FixedMul (env.FixedDiv (wpZ - st.newZ) distToNext) st.distLeft
            distLeft := 0 }
      else
        let st1 : UFOMove.Locals :=
          { st with newX := wpX, newY := wpY, newZ := wpZ, distLeft := st.distLeft - distToNext }
        if st1.curWaypoint = destWaypoint then .ok { st1 with reachedEnd := true }
        else
          let found : Option path_t :=
            match st1.pathtofinish with
            | some path => some path
            | none => env.K_PathfindToWaypoint st1.curWaypoint destWaypoint false false
          match found with
          | none => .ok st1
          | some path =>
            let st2 : UFOMove.Locals :=
              { st1 with pathtofinish := some path, pathIndex := st1.pathIndex + 1 }
            match path.array.get? st2.pathIndex with
            | none => .ok { st2 with reachedEnd := true }
            | some next =>
              UFOMove.loop env ufo floatHeight destWaypoint fuel
                { st2 with
                  curWaypoint := next
                  w := st2.w.setMobj ufo
                    { st2.w.mobjs ufo with
                      extravalue1 := toINT32 (env.K_GetWaypointHeapIndex next) } }
    else .ok st

/-- Modelled from the spec: `P_DoPlayerExit` (not under src/), "request stage exit". -/
def P_DoPlayerExit (q : player_t) : player_t := { q with exiting := true }

/-- Source: the body of the player loop of `UFOMove` (ufo.c 436-442). -/
def UFOMove.disablePlayer (env : Env) (w : World) (i : Nat) : World :=
  if w.playeringame i = false then w
  else if (w.players i).spectator = true then w
  else
    let w1 := w.setPlayer i { w.players i with pflags := (w.players i).pflags ||| env.PF_NOCONTEST }
    w1.setPlayer i (P_DoPlayerExit (w1.players i))

/-- Source: `UFOMove` (ufo.c 425-444), what follows the loop when the end was reached. -/
def UFOMove.finish (env : Env) (w : World) (ufo : Nat) : World :=
  let m := w.mobjs ufo
  let w1 := w.setMobj ufo
    { m with
      extravalue1 := -1
      flags := clearFlags m.flags (env.MF_SPECIAL ||| env.MF_PICKUPFROMBELOW) }
  (List.range env.MAXPLAYERS).foldl (UFOMove.disablePlayer env) w1

/-- Source: `UFOMove` (ufo.c 317-450). -/
def UFOMove (env : Env) (fuel : Nat) (w : World) (ufo : Nat) : Except Fault World :=
  let floatHeight := 24 * (w.mobjs ufo).scale
  match K_GetSpecialUFOWaypoint env w (some ufo), env.K_GetFinishLineWaypoint with
  | some curWaypoint, some destWaypoint =>
    let st0 : UFOMove.Locals :=
      { w := w
        distLeft := env.FixedMul (w.mobjs ufo).watertop env.mapobjectscale
        newX := (w.mobjs ufo).x
        newY := (w.mobjs ufo).y
        newZ := (w.mobjs ufo).z
        curWaypoint := curWaypoint
        pathtofinish := none
        pathIndex := 0
        reachedEnd := false }
    match UFOMove.loop env ufo floatHeight destWaypoint fuel st0 with
    | .error e => .error e
    | .ok st =>
      let w1 := UFOMoveTo st.w ufo st.newX st.newY st.newZ
      if st.reachedEnd = true then .ok (UFOMove.finish env w1 ufo) else .ok w1
  | _, _ =>
    .ok (w.setMobj ufo { w.mobjs ufo with momx := 0, momy := 0, momz := (w.mobjs ufo).watertop })

/-! ## Thinker -/

/-- Source: `UFOUpdateAngle` (ufo.c 291-296); `angle_t` is a `UINT32`. -/
def UFOUpdateAngle (env : Env) (w : World) (ufo : Nat) : World :=
  let m := w.mobjs ufo
  let delta := env.AngleDeltaSigned m.angle (env.K_MomentumAngle m)
  w.setMobj ufo { m with angle := toUINT32 (m.angle + delta / 4) }

/-- Source: `UFOUpdateDistanceToFinish` (ufo.c 130-162). -/
def UFOUpdateDistanceToFinish (env : Env) (w : World) (ufo : Nat) : World :=
  match env.K_GetWaypointFromIndex (toSizeT env (w.mobjs ufo).extravalue1),
      env.K_GetFinishLineWaypoint with
  | some nextWaypoint, some finishLine =>
    match env.K_PathfindToWaypoint nextWaypoint finishLine false false with
    | none => w
    | some pathtofinish =>
      let m := w.mobjs ufo
      let n := w.mobjs nextWaypoint.mobj
      let d0 := env.P_AproxDistance
        (m.x / 2 ^ env.FRACBITS - n.x / 2 ^ env.FRACBITS)
        (m.y / 2 ^ env.FRACBITS - n.y / 2 ^ env.FRACBITS)
      let disttowaypoint := env.P_AproxDistance d0
        (m.z / 2 ^ env.FRACBITS - n.z / 2 ^ env.FRACBITS)
      let adddist := toUINT32 disttowaypoint
      w.setMobj ufo { m with extravalue2 := toINT32 ((pathtofinish.totaldist + adddist : Nat) : Int) }
  | _, _ => w

/-- Source: `UFOEmeraldVFX` (ufo.c 452-473): the vertical bob; the sparkle is not tracked. -/
def UFOEmeraldVFX (env : Env) (w : World) (ufo : Nat) : World :=
  let m := w.mobjs ufo
  w.setMobj ufo { m with sprzoff := env.emeraldBob (16 * m.scale) }

/-- Source: `Obj_SpecialUFOThinker` (ufo.c 496-514). `UFOUpdateSound` only starts a
sound, which is not part of the tracked state. -/
def Obj_SpecialUFOThinker (env : Env) (fuel : Nat) (w : World) (ufo : Nat) : Except Fault World :=
  match UFOMove env fuel w ufo with
  | .error e => .error e
  | .ok w1 =>
    let w2 := UFOUpdateAngle env w1 ufo
    let w3 := UFOUpdateDistanceToFinish env w2 ufo
    let w4 := UFOUpdateSpeed env w3 ufo
    if UFOEmeraldChase w4 ufo = true then
      let w5 := UFOEmeraldVFX env w4 ufo
      .ok (w5.setMobj ufo { w5.mobjs ufo with threshold := (w5.mobjs ufo).threshold - 1 })
    else
      .ok (w4.setMobj ufo { w4.mobjs ufo with threshold := env.TICRATE })

/-! ## Event sequences -/

/-- One call into the UFO from the engine: a damage event or a thinker tic. -/
inductive UFOEvent where
  | damage (fuel : Nat) (inflictor source : Option Nat) (damageType : Nat)
  | think (fuel : Nat)

/-- Run one event on the UFO at address `ufo`. -/
def UFOEvent.run (env : Env) (ufo : Nat) (w : World) : UFOEvent → Except Fault World
  | .damage fuel inflictor source damageType =>
    match Obj_SpecialUFODamage env fuel w ufo inflictor source damageType with
    | .error e => .error e
    | .ok r => .ok r.2
  | .think fuel => Obj_SpecialUFOThinker env fuel w ufo

/-- Run a sequence of events in order; a fault ends the run. -/
def runEvents (env : Env) (ufo : Nat) : List UFOEvent → World → Except Fault World
  | [], w => .ok w
  | ev :: rest, w =>
    match ev.run env ufo w with
    | .error e => .error e
    | .ok w1 => runEvents env ufo rest w1

/-! ## Well-formedness -/

/-- The damage kinds named by `GetUFODamage` are distinct constants (C requires it of
the labels of one switch). -/
def Env.dmgDistinct (env : Env) : Prop :=
  [env.DMG_NORMAL, env.DMG_STING, env.DMG_WIPEOUT, env.DMG_EXPLODE, env.DMG_TUMBLE,
    env.DMG_VOLTAGE].Nodup

instance (env : Env) : Decidable env.dmgDistinct := by
  unfold Env.dmgDistinct
  infer_instance

/-- The flag `MF_SHOOTABLE` fits a 32-bit word and shares no bit with `MF_SPECIAL` and
`MF_PICKUPFROMBELOW`. -/
def Env.flagsDistinct (env : Env) : Prop :=
  env.MF_SHOOTABLE < 4294967296 ∧
    env.MF_SHOOTABLE &&& (env.MF_SPECIAL ||| env.MF_PICKUPFROMBELOW) = 0

instance (env : Env) : Decidable env.flagsDistinct := by
  unfold Env.flagsDistinct
  infer_instance

/-- The chain of pieces that starts at `piece` reaches a null, removed or dead entry
after at most `n` valid pieces. -/
def pieceChainEnds (w : World) : Nat → Option Nat → Bool
  | 0, piece => !UFOPieceValid w piece
  | n + 1, piece =>
    match piece, UFOPieceValid w piece with
    | some p, true => pieceChainEnds w n (w.mobjs p).hnext
    | _, _ => true

/-- The list `ch` is the chain of valid pieces met from `piece` on, in order, up to the
first null, removed or dead entry. -/
def isPieceChain (w : World) : Option Nat → List Nat → Bool
  | piece, [] => !UFOPieceValid w piece
  | piece, p :: rest =>
    decide (piece = some p) && UFOPieceValid w (some p) && isPieceChain w (w.mobjs p).hnext rest

/-- The fields of an object apart from `hitlag` and `eflags`. -/
def mobj_t.sansHitlag (m : mobj_t) : mobj_t := { m with hitlag := 0, eflags := 0 }

/-- The fields of an object apart from those `UFOKillPiece` writes. -/
def mobj_t.sansKill (m : mobj_t) : mobj_t :=
  { m with health := 0, tics := 0, flags := 0, momx := 0, momy := 0, momz := 0 }

/-! ## Concrete inputs -/

/-- A concrete environment: 16.16 fixed point, normal game speed, unit map scale. -/
def sampleEnv : Env where
  FRACBITS := 16
  FixedMul := fun a b => toINT32 (a * b / 65536)
  FixedDiv := fun a b => if b = 0 then 0 else toINT32 (Int.tdiv (a * 65536) b)
  P_AproxDistance := fun dx dy =>
    if |dx| < |dy| then |dx| + |dy| - |dx| / 2 else |dx| + |dy| - |dy| / 2
  R_PointToDist2 := fun px py x y =>
    if |x - px| < |y - py| then |x - px| + |y - py| - |x - px| / 2
    else |x - px| + |y - py| - |y - py| / 2
  K_GetKartSpeed := fun _ _ _ => 100 * 65536
  gameSpeedScalar := 65536
  mapobjectscale := 65536
  MAXPLAYERS := 16
  TICRATE := 35
  spawnhealth := 101
  DMG_NORMAL := 0
  DMG_WIPEOUT := 1
  DMG_EXPLODE := 2
  DMG_TUMBLE := 3
  DMG_STING := 4
  DMG_VOLTAGE := 6
  DMG_TYPEMASK := 15
  MF_SPECIAL := 1
  MF_SHOOTABLE := 4
  MF_NOGRAVITY := 512
  MF_PICKUPFROMBELOW := 4194304
  MFE_DAMAGEHITLAG := 8192
  PF_NOCONTEST := 2
  hitlagPulse := fun m tics fromDamage =>
    (max m.hitlag tics, if fromDamage then m.eflags ||| 8192 else m.eflags)
  thrust := fun m _ move => (m.momx + move, m.momy)
  objectMomZ := fun _ value _ => value
  FixedAngle := fun a => a
  P_RandomRange := fun a _ => a
  K_MomentumAngle := fun m => m.angle
  emeraldBob := fun _ => 0
  AngleDeltaSigned := fun a b => toINT32 (a - b)
  ironmanSkin := fun _ _ => false
  SetRandomFakePlayerSkin := fun q _ => q
  K_GetWaypointFromIndex := fun _ => none
  K_GetFinishLineWaypoint := none
  K_GetWaypointHeapIndex := fun wp => wp.id
  K_PathfindToWaypoint := fun _ _ _ _ => none
  sizeBits := 64

/-- An object with every field zero or null. -/
def blankMobj : mobj_t where
  type := mobjtype_t.MT_OTHER 0
  removed := false
  health := 0
  flags := 0
  eflags := 0
  hitlag := 0
  tics := 0
  x := 0
  y := 0
  z := 0
  momx := 0
  momy := 0
  momz := 0
  angle := 0
  scale := 65536
  height := 0
  shadowscale := 65536
  watertop := 0
  extravalue1 := 0
  extravalue2 := 0
  threshold := 0
  sprzoff := 0
  hnext := none
  hprev := none
  target := none
  player := none

/-- A player with every field zero or null. -/
def blankPlayer : player_t where
  spectator := false
  mo := none
  distancetofinish := 0
  rmomx := 0
  rmomy := 0
  numsneakers := 0
  sneakertimer := 0
  flashing := 0
  pflags := 0
  exiting := false

/-- A UFO at address 0 with the given health, speed and distance to the finish; its
pieces at addresses 1 (pod) and 2 (stem); a player object at address 3 for player 0,
who has the given distance to the finish, forward momentum and sneaker count; a thrown
orbinaut at address 4. -/
def sampleWorld (health speed ufoDist : Int) (playerDist : Nat) (playerMom : Int)
    (numsneakers : Nat) : World where
  mobjs := fun a =>
    if a = 0 then
      { blankMobj with
        type := mobjtype_t.MT_SPECIAL_UFO, health := health, flags := 4, watertop := speed
        extravalue1 := -1, extravalue2 := ufoDist, hnext := some 1 }
    else if a = 1 then
      { blankMobj with
        type := mobjtype_t.MT_SPECIAL_UFO_PIECE, health := 1000, flags := 512
        extravalue1 := UFO_PIECE_TYPE_POD, target := some 0, hnext := some 2 }
    else if a = 2 then
      { blankMobj with
        type := mobjtype_t.MT_SPECIAL_UFO_PIECE, health := 1000, flags := 512
        extravalue1 := UFO_PIECE_TYPE_STEM, target := some 0, hprev := some 1 }
    else if a = 3 then
      { blankMobj with type := mobjtype_t.MT_PLAYER, health := 1, player := some 0 }
    else if a = 4 then
      { blankMobj with type := mobjtype_t.MT_ORBINAUT, health := 1, target := some 3 }
    else blankMobj
  players := fun i =>
    if i = 0 then
      { blankPlayer with
        mo := some 3, distancetofinish := playerDist, rmomx := playerMom
        numsneakers := numsneakers }
    else blankPlayer
  playeringame := fun i => decide (i = 0)
  specialstageValid := true
  specialstageUfo := some 0

/-! ## Piece removal -/

/-- The C expression `(p != NULL && P_MobjWasRemoved(p) == false) ? p : NULL`. -/
def liveOrNull (w : World) (p : Option Nat) : Option Nat :=
  match p with
  | none => none
  | some q => if (w.mobjs q).removed = false then some q else none

/-- The C statement `P_SetTarget(&p->hnext, v)`: store `v` in the `hnext` field of the
object at `p`. The reference counts of `P_SetTarget` are not tracked. -/
def World.setNext (w : World) (p : Nat) (v : Option Nat) : World :=
  w.setMobj p { w.mobjs p with hnext := v }

/-- The C statement `P_SetTarget(&p->hprev, v)`: store `v` in the `hprev` field of the
object at `p`. -/
def World.setPrev (w : World) (p : Nat) (v : Option Nat) : World :=
  w.setMobj p { w.mobjs p with hprev := v }

/-- Source: `Obj_UFOPieceRemoved` (ufo.c 817-853). The owner of a piece is its `target`,
its neighbours are `hnext` and `hprev`, and the head slot of a UFO is its `hnext`. -/
def Obj_UFOPieceRemoved (w : World) (piece : Nat) : World :=
  let ufo := (w.mobjs piece).target
  let next := (w.mobjs piece).hnext
  let prev := (w.mobjs piece).hprev
  let w1 : World :=
    match liveOrNull w prev with
    | some q => w.setNext q (liveOrNull w next)
    | none => w
  let w2 : World :=
    match liveOrNull w1 next with
    | some q => w1.setPrev q (liveOrNull w1 prev)
    | none => w1
  let w3 : World :=
    match liveOrNull w2 ufo with
    | some u =>
      if some piece = (w2.mobjs u).hnext then w2.setNext u (liveOrNull w2 next) else w2
    | none => w2
  (w3.setNext piece none).setPrev piece none

/-- The piece list of the UFO at `ufo` is the list `ch`, head first: the UFO is live and
not a piece of its own, the chain is non-circular, the head slot holds the first piece,
and every piece is live, owned by the UFO, and linked to its neighbours in `ch` (null
where there is none). -/
def pieceListWellFormed (w : World) (ufo : Nat) (ch : List Nat) : Prop :=
  (w.mobjs ufo).removed = false ∧ ufo ∉ ch ∧ ch.Nodup ∧ (w.mobjs ufo).hnext = ch.head? ∧
    ∀ i : Fin ch.length,
      (w.mobjs (ch.get i)).removed = false ∧
      (w.mobjs (ch.get i)).target = some ufo ∧
      (w.mobjs (ch.get i)).hnext = ch.get? (i.val + 1) ∧
      (w.mobjs (ch.get i)).hprev = (if i.val = 0 then none else ch.get? (i.val - 1))

instance (w : World) (ufo : Nat) (ch : List Nat) : Decidable (pieceListWellFormed w ufo ch) := by
  unfold pieceListWellFormed
  infer_instance

/-! ## Collision -/

/-- What `Obj_PlayerUFOCollide` uses from other files of the game. -/
structure CollideEnv where
  P_PlayerInPain : player_t → Bool
  R_PointToAngle2 : Int → Int → Int → Int → Int
  AngleDelta : Int → Int → Int
  ANG60 : Int
  DMG_STEAL : Nat

/-- The calls into the kart physics that `Obj_PlayerUFOCollide` makes; their effect on
the momenta is not tracked. -/
inductive EngineCall where
  | K_StumblePlayer (player : Nat)
  | K_KartBouncing (mobj1 mobj2 : Nat)
  deriving DecidableEq, Repr

/-- Source: `Obj_PlayerUFOCollide` (ufo.c 718-756): the new state and the physics calls
made, in order. -/
def Obj_PlayerUFOCollide (env : Env) (cenv : CollideEnv) (fuel : Nat) (w : World)
    (ufo other : Nat) : Except Fault (World × List EngineCall) :=
  match (w.mobjs other).player with
  | none => .ok (w, [])
  | some pl =>
    if (w.players pl).sneakertimer > 0 ∧ cenv.P_PlayerInPain (w.players pl) = false
        ∧ (w.players pl).flashing = 0 then
      match Obj_SpecialUFODamage env fuel w ufo (some other) (some other) cenv.DMG_STEAL with
      | .error e => .error e
      | .ok r =>
        match (r.2.mobjs other).player with
        | none => .error Fault.nullDeref
        | some pl1 =>
          .ok (r.2.setPlayer pl1 { r.2.players pl1 with sneakertimer := 0 },
            [EngineCall.K_KartBouncing other ufo])
    else
      let moveAngle := env.K_MomentumAngle (w.mobjs ufo)
      let clipAngle := cenv.R_PointToAngle2 (w.mobjs ufo).x (w.mobjs ufo).y
        (w.mobjs other).x (w.mobjs other).y
      if (w.mobjs other).z > (w.mobjs ufo).z + (w.mobjs ufo).height then .ok (w, [])
      else if (w.mobjs other).z + (w.mobjs other).height < (w.mobjs ufo).z then .ok (w, [])
      else if cenv.AngleDelta moveAngle clipAngle < cenv.ANG60 then
        .ok (w, [EngineCall.K_StumblePlayer pl, EngineCall.K_KartBouncing other ufo])
      else .ok (w, [EngineCall.K_KartBouncing other ufo])

/-! ## Further definitions for the statements -/

/-- Source: `UFOUpdateSpeed` (ufo.c 206-209): the speed `bestSpeed` taken from a player. -/
def UFOUpdateSpeed.playerSpeed (env : Env) (player : player_t) : Int :=
  env.FixedMul
    (env.FixedDiv
      (min (env.R_PointToDist2 0 0 player.rmomx player.rmomy)
        (env.K_GetKartSpeed player false false))
      env.mapobjectscale)
    (UFO_SPEEDFACTOR env)

/-- Source: the tests of the player loop of `UFOUpdateSpeed` (ufo.c 185-199): player `i`
is in game, not a spectator, and has a live object. -/
def UFOUpdateSpeed.playerValid (w : World) (i : Nat) : Bool :=
  w.playeringame i && !(w.players i).spectator &&
    (match (w.players i).mo with
      | none => false
      | some mo => !(w.mobjs mo).removed)

/-! ## Further concrete inputs -/

/-- The waypoints of a straight three-node track; their objects are at addresses 10, 11, 12. -/
def trackWaypoints : List waypoint_t := [⟨0, 10⟩, ⟨1, 11⟩, ⟨2, 12⟩]

/-- The sample environment with the three-node track, whose last node is the finish. -/
def trackEnv : Env :=
  { sampleEnv with
    K_GetWaypointFromIndex := fun i => trackWaypoints.get? i
    K_GetFinishLineWaypoint := some ⟨2, 12⟩
    K_PathfindToWaypoint := fun a _ _ _ => some ⟨trackWaypoints.drop a.id, 1000⟩ }

/-- The sample world on the track: the UFO heads for waypoint `waypoint` and carries the
flag word `flags`; the waypoint objects are 10, 20 and 30 units down the x axis. -/
def trackWorld (health speed : Int) (waypoint : Int) (flags : Nat) : World :=
  { sampleWorld health speed 5000 10000 (60 * 65536) 0 with
    mobjs := fun a =>
      if a = 0 then
        { (sampleWorld health speed 5000 10000 (60 * 65536) 0).mobjs 0 with
          extravalue1 := waypoint, flags := flags }
      else if a = 10 then { blankMobj with x := 10 * 65536 }
      else if a = 11 then { blankMobj with x := 20 * 65536 }
      else if a = 12 then { blankMobj with x := 30 * 65536 }
      else (sampleWorld health speed 5000 10000 (60 * 65536) 0).mobjs a }

/-- Scenario S6: a UFO at address 0 whose piece chain is H, A, B, C at addresses 1, 2, 3, 4. -/
def chainWorld : World where
  mobjs := fun a =>
    if a = 0 then
      { blankMobj with type := mobjtype_t.MT_SPECIAL_UFO, health := 25, hnext := some 1 }
    else if a = 1 then
      { blankMobj with
        type := mobjtype_t.MT_SPECIAL_UFO_PIECE, health := 1000, flags := 512
        extravalue1 := UFO_PIECE_TYPE_POD, target := some 0, hnext := some 2 }
    else if a = 2 then
      { blankMobj with
        type := mobjtype_t.MT_SPECIAL_UFO_PIECE, health := 1000, flags := 512
        extravalue1 := UFO_PIECE_TYPE_ARM, target := some 0, hprev := some 1, hnext := some 3 }
    else if a = 3 then
      { blankMobj with
        type := mobjtype_t.MT_SPECIAL_UFO_PIECE, health := 1000, flags := 512
        extravalue1 := UFO_PIECE_TYPE_ARM, target := some 0, hprev := some 2, hnext := some 4 }
    else if a = 4 then
      { blankMobj with
        type := mobjtype_t.MT_SPECIAL_UFO_PIECE, health := 1000, flags := 512
        extravalue1 := UFO_PIECE_TYPE_STEM, target := some 0, hprev := some 3 }
    else blankMobj
  players := fun _ => blankPlayer
  playeringame := fun _ => false
  specialstageValid := true
  specialstageUfo := some 0

/-- A concrete collision environment: nobody is in pain, every contact is head on. -/
def sampleCollideEnv : CollideEnv where
  P_PlayerInPain := fun _ => false
  R_PointToAngle2 := fun _ _ _ _ => 0
  AngleDelta := fun a b => |a - b|
  ANG60 := 715827882
  DMG_STEAL := 16

/-- The sample world with the player object at height `z`, of height 32 units; the UFO is
at height 0 and 100 units high, and the player has the sneaker timer `sneakertimer`. -/
def collideWorld (z : Int) (sneakertimer : Int) : World :=
  { sampleWorld 25 (84 * 65536) 5000 10000 0 0 with
    mobjs := fun a =>
      if a = 0 then
        { (sampleWorld 25 (84 * 65536) 5000 10000 0 0).mobjs 0 with height := 100 * 65536 }
      else if a = 3 then
        { (sampleWorld 25 (84 * 65536) 5000 10000 0 0).mobjs 3 with
          z := z, height := 32 * 65536 }
      else (sampleWorld 25 (84 * 65536) 5000 10000 0 0).mobjs a
    players := fun i =>
      if i = 0 then
        { (sampleWorld 25 (84 * 65536) 5000 10000 0 0).players 0 with
          sneakertimer := sneakertimer }
      else blankPlayer }

/-- Calls of `UFOMove` one after the other, with the given fuels; a fault ends the run. -/
def UFOMove.iterate (env : Env) (ufo : Nat) : List Nat → World → Except Fault World
  | [], w => .ok w
  | fuel :: rest, w =>
    match UFOMove env fuel w ufo with
    | .error e => .error e
    | .ok w1 => UFOMove.iterate env ufo rest w1

/-- The track world in which the UFO had health 21 and heads for the finish waypoint,
after the hit by the thrown orbinaut: the state right after the pinch transition. -/
def pinchedTrackWorld : World :=
  match Obj_SpecialUFODamage trackEnv 3 (trackWorld 21 (84 * 65536) 2 4) 0 (some 4) (some 3) 0 with
  | .ok r => r.2
  | .error _ => trackWorld 21 (84 * 65536) 2 4

/-! ## Hum of the UFO -/

/-- Source: `static sfxenum_t hums[16]` (ufo.c 60), the sounds `sfx_claw01` to
`sfx_claw16`, each named here by its number. -/
def hums : List Nat := [1, 2, 3, 4, 5, 6, 7, 8, 9, 10, 11, 12, 13, 14, 15, 16]

/-- Source: `static int maxhum = sizeof(hums) / sizeof(hums[0]) - 1` (ufo.c 61). -/
def maxhum : Int := (hums.length : Int) - 1

/-- What a call of `UFOUpdateSound` asks of the sound system: nothing, the start of a
sound, or a read of `hums` at an index outside the array. -/
inductive HumRequest where
  | silent
  | start (sfx : Nat)
  | outOfBounds (index : Int)
  deriving DecidableEq, Repr

/-- Source: `UFOUpdateSound` (ufo.c 486-487): `healthlevel` before the clamp. The
division is C's, which truncates. -/
def UFOUpdateSound.healthlevel (env : Env) (w : World) (ufo : Nat) : Int :=
  let maxhealth := max env.spawnhealth 1
  Int.tdiv (maxhum * (w.mobjs ufo).health) maxhealth

/-- Source: `UFOUpdateSound` (ufo.c 491-492): the index `maxhum - healthlevel` into `hums`
after `healthlevel = min(max(healthlevel, 1), maxhum)`. -/
def UFOUpdateSound.humIndex (healthlevel : Int) : Int :=
  maxhum - min (max healthlevel 1) maxhum

/-- Source: `UFOUpdateSound` (ufo.c 485-494). `humPlaying` is the answer of
`UFOHumPlaying`, which asks the sound system. -/
def UFOUpdateSound (env : Env) (humPlaying : Bool) (w : World) (ufo : Nat) : HumRequest :=
  let healthlevel := UFOUpdateSound.healthlevel env w ufo
  if UFOEmeraldChase w ufo = false ∧ humPlaying = false then
    let index := UFOUpdateSound.humIndex healthlevel
    if 0 ≤ index then
      match hums.get? index.toNat with
      | some sfx => HumRequest.start sfx
      | none => HumRequest.outOfBounds index
    else HumRequest.outOfBounds index
  else HumRequest.silent

/-! ## Spawn -/

/-- Source: `InitSpecialUFO` (ufo.c 878), the speed given to a new UFO:
`ufo_speed(ufo) = FixedMul(UFO_START_SPEED, K_GetKartGameSpeedScalar(gamespeed))`. -/
def InitSpecialUFO.speed (env : Env) : Int :=
  env.FixedMul (UFO_START_SPEED env) env.gameSpeedScalar

/-! ## A loop state on the track -/

/-- The locals of `UFOMove` on the track at the head of the third iteration of its loop,
for the UFO of `trackWorld 1 (84 * 65536) 0 4194305`: it started for waypoint 0 with a
step of 84 units, snapped onto waypoint 0 (29 units away) and waypoint 1 (10 more), and
now heads for waypoint 2, the finish, with 45 units left. -/
def trackLoopState : UFOMove.Locals where
  w :=
    ((trackWorld 1 (84 * 65536) 0 4194305).setMobj 0
        { (trackWorld 1 (84 * 65536) 0 4194305).mobjs 0 with extravalue1 := 1 }).setMobj 0
      { (trackWorld 1 (84 * 65536) 0 4194305).mobjs 0 with extravalue1 := 2 }
  distLeft := 45 * 65536
  newX := 20 * 65536
  newY := 0
  newZ := 24 * 65536
  curWaypoint := ⟨2, 12⟩
  pathtofinish := some ⟨trackWaypoints, 1000⟩
  pathIndex := 2
  reachedEnd := false

/-! ## Theorems -/

@[simp]
theorem setMobj_mobjs_same (w : World) (p : Nat) (m : mobj_t) :
    (w.setMobj p m).mobjs p = m := by
  simp [World.setMobj]

theorem setMobj_mobjs_ne (w : World) (p q : Nat) (m : mobj_t) (h : q ≠ p) :
    (w.setMobj p m).mobjs q = w.mobjs q := by
  simp [World.setMobj, Function.update_noteq h]

theorem setMobj_mobjs (w : World) (p q : Nat) (m : mobj_t) :
    (w.setMobj p m).mobjs q = if q = p then m else w.mobjs q := by
  by_cases h : q = p
  · subst h; simp
  · simp [h, setMobj_mobjs_ne]

@[simp]
theorem setMobj_players (w : World) (p : Nat) (m : mobj_t) :
    (w.setMobj p m).players = w.players := rfl

@[simp]
theorem setMobj_playeringame (w : World) (p : Nat) (m : mobj_t) :
    (w.setMobj p m).playeringame = w.playeringame := rfl

@[simp]
theorem setPlayer_mobjs (w : World) (i : Nat) (q : player_t) :
    (w.setPlayer i q).mobjs = w.mobjs := rfl

@[simp]
theorem setPlayer_playeringame (w : World) (i : Nat) (q : player_t) :
    (w.setPlayer i q).playeringame = w.playeringame := rfl

/-- C3: a UFO already in the pinch phase (health at most 1) rejects every damage event,
whatever the inflictor, source and damage kind, and the whole game state, hence the
speed, health, flags, hitlag and pieces of the UFO, is left as it was. -/
theorem Obj_SpecialUFODamage_pinch_rejects (env : Env) (fuel : Nat) (w : World) (ufo : Nat)
    (inflictor source : Option Nat) (damageType : Nat) (h : (w.mobjs ufo).health ≤ 1) :
    Obj_SpecialUFODamage env fuel w ufo inflictor source damageType = .ok (false, w) := by
  simp [Obj_SpecialUFODamage, UFOEmeraldChase, h]

/-- Witness for C3: the sample UFO with health 1, hit with no inflictor and no source. -/
theorem Obj_SpecialUFODamage_pinch_rejects_witness :
    Obj_SpecialUFODamage sampleEnv 0 (sampleWorld 1 0 0 0 0 0) 0 none none 0
      = .ok (false, sampleWorld 1 0 0 0 0 0) :=
  Obj_SpecialUFODamage_pinch_rejects sampleEnv 0 (sampleWorld 1 0 0 0 0 0) 0 none none 0
    (by decide)

/-- The damage of a live player inflictor: fifteen per sneaker, at least fifteen, reduced
modulo 256 by the `UINT8` return type. -/
theorem GetUFODamage_player (env : Env) (w : World) (i pl : Nat) (damageType : Nat)
    (hlive : (w.mobjs i).removed = false) (htype : (w.mobjs i).type = mobjtype_t.MT_PLAYER)
    (hpl : (w.mobjs i).player = some pl) :
    GetUFODamage env w (some i) damageType
      = .ok ((15 * max 1 (w.players pl).numsneakers) % 256) := by
  have hcast : (15 * max 1 ((w.players pl).numsneakers : Int)) % 256
      = (((15 * max 1 (w.players pl).numsneakers) % 256 : Nat) : Int) := by
    push_cast
    rfl
  simp only [GetUFODamage, hlive, htype, hpl, toUINT8, hcast, Int.toNat_ofNat]
  rfl

/-- C4: the damage table for inflictors that are not players. A live jawz or orbinaut
shield gives 10, a jawz 15, an orbinaut 20, an SPB 30, a banana 30 when its health
exceeds 1 and 10 otherwise; an absent, removed or otherwise typed inflictor gives the
value of the damage-kind table, which is a function of the masked kind alone: 15 for
voltage, 20 for wipeout, 30 for explode and tumble, 10 for everything else. -/
theorem GetUFODamage_table (env : Env) (hd : env.dmgDistinct) (w : World) (damageType : Nat) :
    (∀ i, (w.mobjs i).removed = false →
      (((w.mobjs i).type = mobjtype_t.MT_JAWZ_SHIELD
          ∨ (w.mobjs i).type = mobjtype_t.MT_ORBINAUT_SHIELD) →
        GetUFODamage env w (some i) damageType = .ok 10) ∧
      ((w.mobjs i).type = mobjtype_t.MT_JAWZ →
        GetUFODamage env w (some i) damageType = .ok 15) ∧
      ((w.mobjs i).type = mobjtype_t.MT_ORBINAUT →
        GetUFODamage env w (some i) damageType = .ok 20) ∧
      ((w.mobjs i).type = mobjtype_t.MT_SPB →
        GetUFODamage env w (some i) damageType = .ok 30) ∧
      ((w.mobjs i).type = mobjtype_t.MT_BANANA → (w.mobjs i).health > 1 →
        GetUFODamage env w (some i) damageType = .ok 30) ∧
      ((w.mobjs i).type = mobjtype_t.MT_BANANA → (w.mobjs i).health ≤ 1 →
        GetUFODamage env w (some i) damageType = .ok 10)) ∧
    (∀ inflictor : Option Nat,
      (inflictor = none ∨ ∃ i, inflictor = some i ∧ ((w.mobjs i).removed = true ∨
        (w.mobjs i).type ∉ [mobjtype_t.MT_JAWZ_SHIELD, mobjtype_t.MT_ORBINAUT_SHIELD,
          mobjtype_t.MT_JAWZ, mobjtype_t.MT_ORBINAUT, mobjtype_t.MT_SPB, mobjtype_t.MT_BANANA,
          mobjtype_t.MT_PLAYER])) →
      GetUFODamage env w inflictor damageType
        = .ok (GetUFODamage.fromDamageType env damageType)) ∧
    (damageType &&& env.DMG_TYPEMASK = env.DMG_VOLTAGE →
      GetUFODamage.fromDamageType env damageType = 15) ∧
    (damageType &&& env.DMG_TYPEMASK = env.DMG_WIPEOUT →
      GetUFODamage.fromDamageType env damageType = 20) ∧
    ((damageType &&& env.DMG_TYPEMASK = env.DMG_EXPLODE
        ∨ damageType &&& env.DMG_TYPEMASK = env.DMG_TUMBLE) →
      GetUFODamage.fromDamageType env damageType = 30) ∧
    ((damageType &&& env.DMG_TYPEMASK ≠ env.DMG_VOLTAGE
        ∧ damageType &&& env.DMG_TYPEMASK ≠ env.DMG_WIPEOUT
        ∧ damageType &&& env.DMG_TYPEMASK ≠ env.DMG_EXPLODE
        ∧ damageType &&& env.DMG_TYPEMASK ≠ env.DMG_TUMBLE) →
      GetUFODamage.fromDamageType env damageType = 10) := by
  simp only [Env.dmgDistinct, List.nodup_cons, List.mem_cons, List.mem_singleton, not_or,
    List.not_mem_nil, not_false_eq_true, List.nodup_nil, and_true] at hd
  obtain ⟨⟨h1, h2, h3, h4, h5⟩, ⟨h6, h7, h8, h9⟩, ⟨h10, h11, h12⟩, ⟨h13, h14⟩, h15⟩ := hd
  refine ⟨?_, ?_, ?_, ?_, ?_, ?_⟩
  · intro i hlive
    refine ⟨?_, ?_, ?_, ?_, ?_, ?_⟩
    · rintro (h | h) <;> simp [GetUFODamage, hlive, h]
    · intro h; simp [GetUFODamage, hlive, h]
    · intro h; simp [GetUFODamage, hlive, h]
    · intro h; simp [GetUFODamage, hlive, h]
    · intro h hh; simp [GetUFODamage, hlive, h, hh]
    · intro h hh
      have : ¬ (w.mobjs i).health > 1 := by omega
      simp [GetUFODamage, hlive, h, this]
  · rintro inflictor (h | ⟨i, h, hr | ht⟩)
    · subst h; simp [GetUFODamage]
    · subst h; simp [GetUFODamage, hr]
    · subst h
      simp only [List.mem_cons, List.mem_singleton, List.not_mem_nil, or_false, not_or] at ht
      obtain ⟨t1, t2, t3, t4, t5, t6, t7⟩ := ht
      unfold GetUFODamage
      by_cases hr : (w.mobjs i).removed = true
      · simp [hr]
      · simp only [hr]
        split <;> rfl
  · intro h
    simp [GetUFODamage.fromDamageType, h, Ne.symm h5, Ne.symm h9, Ne.symm h12, Ne.symm h14,
      Ne.symm h15]
  · intro h
    simp [GetUFODamage.fromDamageType, h, Ne.symm h2, Ne.symm h6]
  · rintro (h | h)
    · simp [GetUFODamage.fromDamageType, h, Ne.symm h3, Ne.symm h7, Ne.symm h10]
    · simp [GetUFODamage.fromDamageType, h, Ne.symm h4, Ne.symm h8, Ne.symm h11]
  · rintro ⟨a1, a2, a3, a4⟩
    simp [GetUFODamage.fromDamageType, a1, a2, a3, a4]

/-- Witness for C4: the table at the sample environment, whose damage kinds are distinct. -/
theorem GetUFODamage_table_witness :
    GetUFODamage sampleEnv (sampleWorld 25 0 0 0 0 0) (some 4) 0 = .ok 20 ∧
      GetUFODamage.fromDamageType sampleEnv 6 = 15 :=
  ⟨((GetUFODamage_table sampleEnv (by decide) (sampleWorld 25 0 0 0 0 0) 0).1 4 rfl).2.2.1 rfl,
    (GetUFODamage_table sampleEnv (by decide) (sampleWorld 25 0 0 0 0 0) 6).2.2.1 rfl⟩

/-- C5 at the failing input: a live player inflictor whose player used 18 sneakers deals
14 points, not 15 x 18 = 270; the product is cut to eight bits by the return type. -/
theorem GetUFODamage_player_eighteen_sneakers :
    GetUFODamage sampleEnv (sampleWorld 25 0 0 0 0 18) (some 3) 0 = .ok 14 ∧
      ((sampleWorld 25 0 0 0 0 18).mobjs 3).removed = false ∧
      ((sampleWorld 25 0 0 0 0 18).mobjs 3).type = mobjtype_t.MT_PLAYER ∧
      ((sampleWorld 25 0 0 0 0 18).mobjs 3).player = some 0 ∧
      15 * max 1 ((sampleWorld 25 0 0 0 0 18).players 0).numsneakers = 270 := by
  refine ⟨?_, rfl, rfl, rfl, rfl⟩
  rw [GetUFODamage_player sampleEnv _ 3 0 0 rfl rfl rfl]
  rfl

/-! ### Speed controller -/

/-- The power of two `FRACUNIT` is positive, so half of it is not negative. -/
theorem FRACUNIT_half_nonneg (env : Env) : 0 ≤ FRACUNIT env / 2 := by
  have h : 0 < FRACUNIT env := by
    unfold FRACUNIT
    positivity
  omega

theorem scanStep_fst_le (env : Env) (w : World) (acc : Nat × Int) (i : Nat) :
    (UFOUpdateSpeed.scanStep env w acc i).1 ≤ acc.1 := by
  unfold UFOUpdateSpeed.scanStep
  simp only
  repeat' split
  all_goals first | exact Nat.le_refl _ | (simp only; omega)

theorem scan_foldl_fst_le (env : Env) (w : World) (l : List Nat) :
    ∀ acc : Nat × Int, (l.foldl (UFOUpdateSpeed.scanStep env w) acc).1 ≤ acc.1 := by
  induction l with
  | nil => intro acc; exact le_refl _
  | cons i l ih =>
    intro acc
    rw [List.foldl_cons]
    exact le_trans (ih _) (scanStep_fst_le env w acc i)

theorem scanStep_fst_le_player (env : Env) (w : World) (acc : Nat × Int) (i mo : Nat)
    (hin : w.playeringame i = true) (hspec : (w.players i).spectator = false)
    (hmo : (w.players i).mo = some mo) (hlive : (w.mobjs mo).removed = false) :
    (UFOUpdateSpeed.scanStep env w acc i).1 ≤ (w.players i).distancetofinish := by
  unfold UFOUpdateSpeed.scanStep
  simp only [hin, hspec, hmo, hlive, Bool.true_eq_false, Bool.false_eq_true, if_false]
  split_ifs with h
  · exact Nat.le_refl _
  · exact Nat.le_of_not_lt h

/-- The scan finds a player, `bestDist != UINT32_MAX`, as soon as some player below
`MAXPLAYERS` is in game, not a spectator, has a live object and a distance to the finish
below `UINT32_MAX`; `bestDist` is then at most that distance. -/
theorem scan_fst_le_player (env : Env) (w : World) (i mo : Nat) (hi : i < env.MAXPLAYERS)
    (hin : w.playeringame i = true) (hspec : (w.players i).spectator = false)
    (hmo : (w.players i).mo = some mo) (hlive : (w.mobjs mo).removed = false) :
    (UFOUpdateSpeed.scan env w).1 ≤ (w.players i).distancetofinish := by
  have key : ∀ (l : List Nat) (acc : Nat × Int), i ∈ l →
      (l.foldl (UFOUpdateSpeed.scanStep env w) acc).1 ≤ (w.players i).distancetofinish := by
    intro l
    induction l with
    | nil => intro acc hm; exact absurd hm (List.not_mem_nil i)
    | cons a l ih =>
      intro acc hm
      rw [List.foldl_cons]
      rcases List.mem_cons.mp hm with rfl | hm
      · exact le_trans (scan_foldl_fst_le env w l _)
          (scanStep_fst_le_player env w acc i mo hin hspec hmo hlive)
      · exact ih _ hm
  exact key _ _ (List.mem_range.mpr hi)

/-- The difference `distDelta` is the exact difference of the two distances whenever
that difference fits an `INT32`. -/
theorem distDelta_exact (env : Env) (w : World) (ufo : Nat)
    (hlo : -2147483648 ≤ (w.mobjs ufo).extravalue2 - (UFOUpdateSpeed.wantedDist env w : Int))
    (hhi : (w.mobjs ufo).extravalue2 - (UFOUpdateSpeed.wantedDist env w : Int) < 2147483648) :
    UFOUpdateSpeed.distDelta env w ufo
      = (w.mobjs ufo).extravalue2 - (UFOUpdateSpeed.wantedDist env w : Int) := by
  unfold UFOUpdateSpeed.distDelta toINT32
  omega

/-- C6 as stated fails: one player at distance 10000 moving at 60 units, UFO at distance
9233. Then `distDelta = 1`, inside the dead zone of 2048, yet the wanted speed is the
catch-up speed 168 units and not `max(best_speed / 2, BASE x G)` = 42 units. -/
theorem UFOUpdateSpeed_deadzone_positive_delta :
    (UFOUpdateSpeed.scan sampleEnv (sampleWorld 25 (45 * 65536) 9233 10000 (60 * 65536) 0)).1
        ≠ UINT32_MAX ∧
      UFOUpdateSpeed.distDelta sampleEnv
        (sampleWorld 25 (45 * 65536) 9233 10000 (60 * 65536) 0) 0 = 1 ∧
      UFOUpdateSpeed.deadzone sampleEnv = 2048 ∧
      UFOUpdateSpeed.wantedSpeed sampleEnv
        (sampleWorld 25 (45 * 65536) 9233 10000 (60 * 65536) 0) 0 = 168 * 65536 ∧
      max ((UFOUpdateSpeed.scan sampleEnv
          (sampleWorld 25 (45 * 65536) 9233 10000 (60 * 65536) 0)).2 / 2)
        (UFOUpdateSpeed.baseSpeed sampleEnv) = 42 * 65536 ∧
      UFOUpdateSpeed.wantedSpeed sampleEnv
          (sampleWorld 25 (45 * 65536) 9233 10000 (60 * 65536) 0) 0
        ≠ max ((UFOUpdateSpeed.scan sampleEnv
            (sampleWorld 25 (45 * 65536) 9233 10000 (60 * 65536) 0)).2 / 2)
          (UFOUpdateSpeed.baseSpeed sampleEnv) := by
  refine ⟨?_, ?_, ?_, ?_, ?_, ?_⟩ <;> decide

/-- C6 amended: with a valid player found by the scan, whenever `distDelta` is at most 0
and within the dead zone the wanted speed is `max(best_speed >> 1, BASE x G)`; whenever
`distDelta` is positive, inside the dead zone or not, it is the catch-up speed
`max(best_speed, 4 x BASE x G)`. -/
theorem UFOUpdateSpeed_wanted_in_deadzone (env : Env) (w : World) (ufo : Nat)
    (hvalid : (UFOUpdateSpeed.scan env w).1 ≠ UINT32_MAX) :
    (UFOUpdateSpeed.distDelta env w ufo ≤ 0 →
      (UFOUpdateSpeed.distDelta env w ufo).natAbs ≤ UFOUpdateSpeed.deadzone env →
      UFOUpdateSpeed.wantedSpeed env w ufo
        = max ((UFOUpdateSpeed.scan env w).2 / 2) (UFOUpdateSpeed.baseSpeed env)) ∧
    (0 < UFOUpdateSpeed.distDelta env w ufo →
      UFOUpdateSpeed.wantedSpeed env w ufo
        = max (UFOUpdateSpeed.scan env w).2 (4 * UFOUpdateSpeed.baseSpeed env)) := by
  constructor
  · intro h1 h2
    have h3 : ¬ UFOUpdateSpeed.distDelta env w ufo > 0 := by omega
    simp only [UFOUpdateSpeed.wantedSpeed, hvalid, h3, h2, if_true, if_false]
  · intro h1
    have h3 : UFOUpdateSpeed.distDelta env w ufo > 0 := h1
    simp only [UFOUpdateSpeed.wantedSpeed, hvalid, h3, if_true, if_false, mul_comm]

/-- Witness for C6 amended: scenario S1, player at 10000 with speed 60, UFO at 9232
(`distDelta = 0`): the wanted speed is 42 units. -/
theorem UFOUpdateSpeed_wanted_in_deadzone_witness :
    UFOUpdateSpeed.wantedSpeed sampleEnv
        (sampleWorld 25 (45 * 65536) 9232 10000 (60 * 65536) 0) 0
      = max ((UFOUpdateSpeed.scan sampleEnv
          (sampleWorld 25 (45 * 65536) 9232 10000 (60 * 65536) 0)).2 / 2)
        (UFOUpdateSpeed.baseSpeed sampleEnv) :=
  (UFOUpdateSpeed_wanted_in_deadzone sampleEnv
    (sampleWorld 25 (45 * 65536) 9232 10000 (60 * 65536) 0) 0 (by decide)).1
    (by decide) (by decide)

/-- C7: with a valid player found by the scan, a `distDelta` above the dead zone gives
the wanted speed `max(best_speed, 4 x BASE x G)` and a `distDelta` below minus the dead
zone gives `BASE x G`. -/
theorem UFOUpdateSpeed_wanted_outside_deadzone (env : Env) (w : World) (ufo : Nat)
    (hvalid : (UFOUpdateSpeed.scan env w).1 ≠ UINT32_MAX) :
    (UFOUpdateSpeed.distDelta env w ufo > (UFOUpdateSpeed.deadzone env : Int) →
      UFOUpdateSpeed.wantedSpeed env w ufo
        = max (UFOUpdateSpeed.scan env w).2 (4 * UFOUpdateSpeed.baseSpeed env)) ∧
    (UFOUpdateSpeed.distDelta env w ufo < -(UFOUpdateSpeed.deadzone env : Int) →
      UFOUpdateSpeed.wantedSpeed env w ufo = UFOUpdateSpeed.baseSpeed env) := by
  constructor
  · intro h1
    have h3 : UFOUpdateSpeed.distDelta env w ufo > 0 := by omega
    simp only [UFOUpdateSpeed.wantedSpeed, hvalid, h3, if_true, if_false, mul_comm]
  · intro h1
    have h3 : ¬ UFOUpdateSpeed.distDelta env w ufo > 0 := by omega
    have h4 : ¬ (UFOUpdateSpeed.distDelta env w ufo).natAbs ≤ UFOUpdateSpeed.deadzone env := by
      omega
    simp only [UFOUpdateSpeed.wantedSpeed, hvalid, h3, h4, if_false]

/-- Witness for C7, scenario S2: player at distance 5000, UFO at distance 10000 with speed
42 units. Then `distDelta = 5768`, above the dead zone 2048, the wanted speed is
`max(best_speed, 168)` and the speed slews up by half a unit. -/
theorem UFOUpdateSpeed_wanted_outside_deadzone_witness :
    UFOUpdateSpeed.distDelta sampleEnv
        (sampleWorld 25 (42 * 65536) 10000 5000 (60 * 65536) 0) 0 = 5768 ∧
      UFOUpdateSpeed.deadzone sampleEnv = 2048 ∧
      UFOUpdateSpeed.wantedSpeed sampleEnv
          (sampleWorld 25 (42 * 65536) 10000 5000 (60 * 65536) 0) 0
        = max (UFOUpdateSpeed.scan sampleEnv
            (sampleWorld 25 (42 * 65536) 10000 5000 (60 * 65536) 0)).2
          (4 * UFOUpdateSpeed.baseSpeed sampleEnv) ∧
      4 * UFOUpdateSpeed.baseSpeed sampleEnv = 168 * 65536 ∧
      ((UFOUpdateSpeed sampleEnv
          (sampleWorld 25 (42 * 65536) 10000 5000 (60 * 65536) 0) 0).mobjs 0).watertop
        = 42 * 65536 + 32768 :=
  ⟨by decide, by decide,
    (UFOUpdateSpeed_wanted_outside_deadzone sampleEnv
      (sampleWorld 25 (42 * 65536) 10000 5000 (60 * 65536) 0) 0 (by decide)).1 (by decide),
    by decide, by decide⟩

/-- C8: the new speed is the clamped slew of the old speed toward the wanted speed. It is
the wanted speed when the two differ by at most `FRACUNIT/2`, the old speed plus
`FRACUNIT/2` when the wanted speed is more than that above, and the old speed minus
`FRACUNIT/2` when it is more than that below; so one update changes the speed by at most
`max(UFO_SPEEDUP, UFO_SLOWDOWN)` and never carries it past the wanted speed. -/
theorem UFOUpdateSpeed_slews (env : Env) (w : World) (ufo : Nat) :
    (|UFOUpdateSpeed.wantedSpeed env w ufo - (w.mobjs ufo).watertop| ≤ FRACUNIT env / 2 →
      ((UFOUpdateSpeed env w ufo).mobjs ufo).watertop = UFOUpdateSpeed.wantedSpeed env w ufo) ∧
    (UFOUpdateSpeed.wantedSpeed env w ufo - (w.mobjs ufo).watertop > FRACUNIT env / 2 →
      ((UFOUpdateSpeed env w ufo).mobjs ufo).watertop
        = (w.mobjs ufo).watertop + FRACUNIT env / 2) ∧
    ((w.mobjs ufo).watertop - UFOUpdateSpeed.wantedSpeed env w ufo > FRACUNIT env / 2 →
      ((UFOUpdateSpeed env w ufo).mobjs ufo).watertop
        = (w.mobjs ufo).watertop - FRACUNIT env / 2) ∧
    |((UFOUpdateSpeed env w ufo).mobjs ufo).watertop - (w.mobjs ufo).watertop|
      ≤ max (UFO_SPEEDUP env) (UFO_SLOWDOWN env) ∧
    ((w.mobjs ufo).watertop ≤ UFOUpdateSpeed.wantedSpeed env w ufo →
      (w.mobjs ufo).watertop ≤ ((UFOUpdateSpeed env w ufo).mobjs ufo).watertop ∧
      ((UFOUpdateSpeed env w ufo).mobjs ufo).watertop ≤ UFOUpdateSpeed.wantedSpeed env w ufo) ∧
    (UFOUpdateSpeed.wantedSpeed env w ufo ≤ (w.mobjs ufo).watertop →
      UFOUpdateSpeed.wantedSpeed env w ufo ≤ ((UFOUpdateSpeed env w ufo).mobjs ufo).watertop ∧
      ((UFOUpdateSpeed env w ufo).mobjs ufo).watertop ≤ (w.mobjs ufo).watertop) := by
  have hpos := FRACUNIT_half_nonneg env
  have hnew : ((UFOUpdateSpeed env w ufo).mobjs ufo).watertop
      = UFOUpdateSpeed.slew env (w.mobjs ufo).watertop (UFOUpdateSpeed.wantedSpeed env w ufo) := by
    simp [UFOUpdateSpeed]
  rw [hnew]
  generalize UFOUpdateSpeed.wantedSpeed env w ufo = wanted
  generalize (w.mobjs ufo).watertop = speed
  unfold UFOUpdateSpeed.slew UFO_SPEEDUP UFO_SLOWDOWN
  generalize FRACUNIT env / 2 = half at hpos ⊢
  simp only [max_self]
  refine ⟨?_, ?_, ?_, ?_, ?_, ?_⟩
  · intro h
    rw [abs_le] at h
    split_ifs with h1 h2 h3 h4 <;> first | rfl | (rw [abs_le] at *; omega) | omega
  · intro h
    split_ifs with h1 h2 h3 h4 <;> first | (rw [abs_le] at *; omega) | omega
  · intro h
    split_ifs with h1 h2 h3 h4 <;> first | (rw [abs_le] at *; omega) | omega
  · rw [abs_le]
    split_ifs with h1 h2 h3 h4 <;> first | (rw [abs_le] at *; omega) | omega
  · intro h
    split_ifs with h1 h2 h3 h4 <;> first | (rw [abs_le] at *; omega) | omega
  · intro h
    split_ifs with h1 h2 h3 h4 <;> first | (rw [abs_le] at *; omega) | omega

/-- Witness for C8, scenario S1: player at distance 10000 with speed 60, UFO at distance
9232 with speed 45 units; the wanted speed is 42 units and the new speed is 44.5 units. -/
theorem UFOUpdateSpeed_slews_witness :
    UFOUpdateSpeed.wantedSpeed sampleEnv
        (sampleWorld 25 (45 * 65536) 9232 10000 (60 * 65536) 0) 0 = 42 * 65536 ∧
      ((UFOUpdateSpeed sampleEnv
          (sampleWorld 25 (45 * 65536) 9232 10000 (60 * 65536) 0) 0).mobjs 0).watertop
        = 44 * 65536 + 32768 :=
  ⟨by decide,
    ((UFOUpdateSpeed_slews sampleEnv
      (sampleWorld 25 (45 * 65536) 9232 10000 (60 * 65536) 0) 0).2.2.1 (by decide)).trans
      (by decide)⟩

/-! ### Frames of the piece loops -/

theorem UFOPieceValid_congr (w w1 : World) (piece : Option Nat)
    (hr : ∀ q, (w1.mobjs q).removed = (w.mobjs q).removed)
    (hh : ∀ q, (w1.mobjs q).health = (w.mobjs q).health) :
    UFOPieceValid w1 piece = UFOPieceValid w piece := by
  cases piece with
  | none => rfl
  | some p => simp [UFOPieceValid, hr p, hh p]

theorem pieceChainEnds_mono (w w1 : World)
    (hn : ∀ q, (w1.mobjs q).hnext = (w.mobjs q).hnext)
    (hv : ∀ piece, UFOPieceValid w1 piece = true → UFOPieceValid w piece = true) :
    ∀ (n : Nat) (piece : Option Nat),
      pieceChainEnds w n piece = true → pieceChainEnds w1 n piece = true := by
  intro n
  induction n with
  | zero =>
    intro piece h
    simp only [pieceChainEnds, Bool.not_eq_true'] at h ⊢
    cases hc : UFOPieceValid w1 piece with
    | false => rfl
    | true => rw [hv piece hc] at h; exact absurd h (by decide)
  | succ n ih =>
    intro piece h
    cases piece with
    | none => simp [pieceChainEnds]
    | some p =>
      cases hc : UFOPieceValid w1 (some p) with
      | false => simp [pieceChainEnds, hc]
      | true =>
        have hw := hv _ hc
        simp only [pieceChainEnds, hw] at h
        simp only [pieceChainEnds, hc, hn p]
        exact ih _ h

theorem sansHitlag_fields (m m1 : mobj_t) (h : m1.sansHitlag = m.sansHitlag) :
    m1.health = m.health ∧ m1.removed = m.removed ∧ m1.hnext = m.hnext ∧
      m1.flags = m.flags ∧ m1.shadowscale = m.shadowscale ∧ m1.watertop = m.watertop ∧
      m1.type = m.type ∧ m1.player = m.player ∧ m1.extravalue1 = m.extravalue1 ∧
      m1.extravalue2 = m.extravalue2 ∧ m1.hprev = m.hprev := by
  refine ⟨?_, ?_, ?_, ?_, ?_, ?_, ?_, ?_, ?_, ?_, ?_⟩
  · exact (congrArg mobj_t.health h : m1.sansHitlag.health = m.sansHitlag.health)
  · exact (congrArg mobj_t.removed h : m1.sansHitlag.removed = m.sansHitlag.removed)
  · exact (congrArg mobj_t.hnext h : m1.sansHitlag.hnext = m.sansHitlag.hnext)
  · exact (congrArg mobj_t.flags h : m1.sansHitlag.flags = m.sansHitlag.flags)
  · exact (congrArg mobj_t.shadowscale h : m1.sansHitlag.shadowscale = m.sansHitlag.shadowscale)
  · exact (congrArg mobj_t.watertop h : m1.sansHitlag.watertop = m.sansHitlag.watertop)
  · exact (congrArg mobj_t.type h : m1.sansHitlag.type = m.sansHitlag.type)
  · exact (congrArg mobj_t.player h : m1.sansHitlag.player = m.sansHitlag.player)
  · exact (congrArg mobj_t.extravalue1 h : m1.sansHitlag.extravalue1 = m.sansHitlag.extravalue1)
  · exact (congrArg mobj_t.extravalue2 h : m1.sansHitlag.extravalue2 = m.sansHitlag.extravalue2)
  · exact (congrArg mobj_t.hprev h : m1.sansHitlag.hprev = m.sansHitlag.hprev)

theorem sansHitlag_setMobj (w : World) (p : Nat) (m : mobj_t) (q : Nat)
    (h : m.sansHitlag = (w.mobjs p).sansHitlag) :
    ((w.setMobj p m).mobjs q).sansHitlag = (w.mobjs q).sansHitlag := by
  rw [setMobj_mobjs]
  split_ifs with hq
  · subst hq; exact h
  · rfl

theorem K_SetHitLagForObjects_frame (env : Env) (w : World) (victim : Nat)
    (inflictor : Option Nat) (tics : Int) (fromDamage : Bool) (q : Nat) :
    ((K_SetHitLagForObjects env w victim inflictor tics fromDamage).mobjs q).sansHitlag
      = (w.mobjs q).sansHitlag := by
  unfold K_SetHitLagForObjects
  cases inflictor with
  | none => exact sansHitlag_setMobj _ _ _ _ rfl
  | some i =>
    simp only
    split_ifs
    · exact sansHitlag_setMobj _ _ _ _ rfl
    · refine Eq.trans (sansHitlag_setMobj _ _ _ _ ?_) (sansHitlag_setMobj _ _ _ _ ?_) <;> rfl

theorem K_SetHitLagForObjects_players (env : Env) (w : World) (victim : Nat)
    (inflictor : Option Nat) (tics : Int) (fromDamage : Bool) :
    (K_SetHitLagForObjects env w victim inflictor tics fromDamage).players = w.players := by
  unfold K_SetHitLagForObjects
  cases inflictor with
  | none => rfl
  | some i =>
    simp only
    split_ifs <;> rfl

theorem UFOCopyHitlagToPieces_loop_frame (env : Env) (ufo : Nat) :
    ∀ (fuel : Nat) (piece : Option Nat) (w w1 : World),
      UFOCopyHitlagToPieces.loop env ufo fuel piece w = .ok w1 →
      (∀ q, (w1.mobjs q).sansHitlag = (w.mobjs q).sansHitlag) ∧ w1.players = w.players := by
  intro fuel
  induction fuel with
  | zero => intro piece w w1 h; simp [UFOCopyHitlagToPieces.loop] at h
  | succ fuel ih =>
    intro piece w w1 h
    unfold UFOCopyHitlagToPieces.loop at h
    split at h
    · obtain ⟨h1, h2⟩ := ih _ _ _ h
      refine ⟨fun q => ?_, ?_⟩
      · rw [h1 q]
        exact sansHitlag_setMobj _ _ _ _ rfl
      · rw [h2]; rfl
    · cases h
      exact ⟨fun _ => rfl, rfl⟩

theorem UFOCopyHitlagToPieces_loop_terminates (env : Env) (ufo : Nat) :
    ∀ (n fuel : Nat) (piece : Option Nat) (w : World),
      pieceChainEnds w n piece = true → n < fuel →
      ∃ w1, UFOCopyHitlagToPieces.loop env ufo fuel piece w = .ok w1 := by
  intro n
  induction n with
  | zero =>
    intro fuel piece w h hf
    obtain ⟨f, rfl⟩ : ∃ f, fuel = f + 1 := ⟨fuel - 1, by omega⟩
    simp only [pieceChainEnds, Bool.not_eq_true'] at h
    unfold UFOCopyHitlagToPieces.loop
    split
    · rename_i hv; rw [h] at hv; exact absurd hv (by decide)
    · exact ⟨w, rfl⟩
  | succ n ih =>
    intro fuel piece w h hf
    obtain ⟨f, rfl⟩ : ∃ f, fuel = f + 1 := ⟨fuel - 1, by omega⟩
    unfold UFOCopyHitlagToPieces.loop
    split
    · rename_i p hv
      simp only [pieceChainEnds, hv] at h
      apply ih
      · have hfr : ∀ q, ((w.setMobj p
            { w.mobjs p with
              hitlag := (w.mobjs ufo).hitlag
              eflags := clearFlags (w.mobjs p).eflags env.MFE_DAMAGEHITLAG
                ||| ((w.mobjs ufo).eflags &&& env.MFE_DAMAGEHITLAG) }).mobjs q).sansHitlag
            = (w.mobjs q).sansHitlag := fun q => sansHitlag_setMobj _ _ _ _ rfl
        have hnx := fun q => (sansHitlag_fields _ _ (hfr q)).2.2.1
        rw [hnx p]
        refine pieceChainEnds_mono w _ hnx ?_ n _ h
        intro piece hpv
        exact (UFOPieceValid_congr w _ piece
          (fun q => (sansHitlag_fields _ _ (hfr q)).2.1)
          (fun q => (sansHitlag_fields _ _ (hfr q)).1)).symm.trans hpv
      · omega
    · exact ⟨w, rfl⟩

theorem sansKill_fields (m m1 : mobj_t) (h : m1.sansKill = m.sansKill) :
    m1.removed = m.removed ∧ m1.hnext = m.hnext ∧ m1.hprev = m.hprev ∧
      m1.watertop = m.watertop ∧ m1.shadowscale = m.shadowscale ∧ m1.type = m.type ∧
      m1.player = m.player ∧ m1.extravalue1 = m.extravalue1 ∧
      m1.extravalue2 = m.extravalue2 ∧ m1.hitlag = m.hitlag ∧ m1.eflags = m.eflags := by
  refine ⟨?_, ?_, ?_, ?_, ?_, ?_, ?_, ?_, ?_, ?_, ?_⟩
  · exact (congrArg mobj_t.removed h : m1.sansKill.removed = m.sansKill.removed)
  · exact (congrArg mobj_t.hnext h : m1.sansKill.hnext = m.sansKill.hnext)
  · exact (congrArg mobj_t.hprev h : m1.sansKill.hprev = m.sansKill.hprev)
  · exact (congrArg mobj_t.watertop h : m1.sansKill.watertop = m.sansKill.watertop)
  · exact (congrArg mobj_t.shadowscale h : m1.sansKill.shadowscale = m.sansKill.shadowscale)
  · exact (congrArg mobj_t.type h : m1.sansKill.type = m.sansKill.type)
  · exact (congrArg mobj_t.player h : m1.sansKill.player = m.sansKill.player)
  · exact (congrArg mobj_t.extravalue1 h : m1.sansKill.extravalue1 = m.sansKill.extravalue1)
  · exact (congrArg mobj_t.extravalue2 h : m1.sansKill.extravalue2 = m.sansKill.extravalue2)
  · exact (congrArg mobj_t.hitlag h : m1.sansKill.hitlag = m.sansKill.hitlag)
  · exact (congrArg mobj_t.eflags h : m1.sansKill.eflags = m.sansKill.eflags)

theorem sansKill_setMobj (w : World) (p : Nat) (m : mobj_t) (q : Nat)
    (h : m.sansKill = (w.mobjs p).sansKill) :
    ((w.setMobj p m).mobjs q).sansKill = (w.mobjs q).sansKill := by
  rw [setMobj_mobjs]
  split_ifs with hq
  · subst hq; exact h
  · rfl

theorem UFOKillPiece_frame (env : Env) (w : World) (piece : Option Nat) (q : Nat) :
    ((UFOKillPiece env w piece).mobjs q).sansKill = (w.mobjs q).sansKill := by
  unfold UFOKillPiece
  split
  · simp only
    split_ifs <;> exact sansKill_setMobj _ _ _ _ rfl
  · rfl

theorem UFOKillPiece_players (env : Env) (w : World) (piece : Option Nat) :
    (UFOKillPiece env w piece).players = w.players := by
  unfold UFOKillPiece
  split
  · simp only
    split_ifs <;> rfl
  · rfl

theorem UFOKillPiece_health (env : Env) (w : World) (piece : Option Nat) (q : Nat) :
    ((UFOKillPiece env w piece).mobjs q).health = (w.mobjs q).health ∨
      ((UFOKillPiece env w piece).mobjs q).health = 0 := by
  unfold UFOKillPiece
  split
  · simp only
    split_ifs <;>
    · rw [setMobj_mobjs]
      split_ifs
      · right; rfl
      · left; rfl
  · left; rfl

theorem UFOKillPiece_valid (env : Env) (w : World) (piece x : Option Nat)
    (h : UFOPieceValid (UFOKillPiece env w piece) x = true) : UFOPieceValid w x = true := by
  cases x with
  | none => simp [UFOPieceValid] at h
  | some q =>
    have hr := (sansKill_fields _ _ (UFOKillPiece_frame env w piece q)).1
    simp only [UFOPieceValid, hr, Bool.and_eq_true, Bool.not_eq_true', decide_eq_true_eq] at h ⊢
    refine ⟨h.1, ?_⟩
    rcases UFOKillPiece_health env w piece q with hh | hh
    · rw [← hh]; exact h.2
    · rw [hh] at h; exact absurd h.2 (by decide)

theorem UFOKillPieces_loop_frame (env : Env) :
    ∀ (fuel : Nat) (piece : Option Nat) (w w1 : World),
      UFOKillPieces.loop env fuel piece w = .ok w1 →
      (∀ q, (w1.mobjs q).sansKill = (w.mobjs q).sansKill) ∧ w1.players = w.players := by
  intro fuel
  induction fuel with
  | zero => intro piece w w1 h; simp [UFOKillPieces.loop] at h
  | succ fuel ih =>
    intro piece w w1 h
    unfold UFOKillPieces.loop at h
    split at h
    · obtain ⟨h1, h2⟩ := ih _ _ _ h
      refine ⟨fun q => ?_, ?_⟩
      · rw [h1 q]
        exact UFOKillPiece_frame env w _ q
      · rw [h2]
        exact UFOKillPiece_players env w _
    · cases h
      exact ⟨fun _ => rfl, rfl⟩

theorem UFOKillPieces_loop_terminates (env : Env) :
    ∀ (n fuel : Nat) (piece : Option Nat) (w : World),
      pieceChainEnds w n piece = true → n < fuel →
      ∃ w1, UFOKillPieces.loop env fuel piece w = .ok w1 := by
  intro n
  induction n with
  | zero =>
    intro fuel piece w h hf
    obtain ⟨f, rfl⟩ : ∃ f, fuel = f + 1 := ⟨fuel - 1, by omega⟩
    simp only [pieceChainEnds, Bool.not_eq_true'] at h
    unfold UFOKillPieces.loop
    split
    · rename_i hv; rw [h] at hv; exact absurd hv (by decide)
    · exact ⟨w, rfl⟩
  | succ n ih =>
    intro fuel piece w h hf
    obtain ⟨f, rfl⟩ : ∃ f, fuel = f + 1 := ⟨fuel - 1, by omega⟩
    unfold UFOKillPieces.loop
    split
    · rename_i p hv
      simp only [pieceChainEnds, hv] at h
      apply ih
      · have hnx := fun q => (sansKill_fields _ _ (UFOKillPiece_frame env w (some p) q)).2.1
        rw [hnx p]
        exact pieceChainEnds_mono w _ hnx (fun x hx => UFOKillPiece_valid env w (some p) x hx)
          n _ h
      · omega
    · exact ⟨w, rfl⟩

theorem UFOCopyHitlagToPieces_frame (env : Env) (fuel : Nat) (w : World) (ufo : Nat)
    (w1 : World) (h : UFOCopyHitlagToPieces env fuel w ufo = .ok w1) :
    (∀ q, (w1.mobjs q).sansHitlag = (w.mobjs q).sansHitlag) ∧ w1.players = w.players :=
  UFOCopyHitlagToPieces_loop_frame env ufo fuel _ w w1 h

theorem UFOKillPieces_frame (env : Env) (fuel : Nat) (w : World) (ufo : Nat)
    (w1 : World) (h : UFOKillPieces env fuel w ufo = .ok w1) :
    (∀ q, (w1.mobjs q).sansKill = (w.mobjs q).sansKill) ∧ w1.players = w.players :=
  UFOKillPieces_loop_frame env fuel _ w w1 h

/-! ### Piece chains as lists -/

theorem isPieceChain_cons (w : World) (piece : Option Nat) (p : Nat) (rest : List Nat) :
    isPieceChain w piece (p :: rest) = true ↔
      piece = some p ∧ UFOPieceValid w (some p) = true ∧
        isPieceChain w (w.mobjs p).hnext rest = true := by
  simp [isPieceChain, and_assoc]

theorem isPieceChain_nil (w : World) (piece : Option Nat) :
    isPieceChain w piece [] = true ↔ UFOPieceValid w piece = false := by
  simp [isPieceChain]

theorem isPieceChain_ends (w : World) :
    ∀ (ch : List Nat) (piece : Option Nat),
      isPieceChain w piece ch = true → pieceChainEnds w ch.length piece = true := by
  intro ch
  induction ch with
  | nil =>
    intro piece h
    rw [isPieceChain_nil] at h
    simp [pieceChainEnds, h]
  | cons p rest ih =>
    intro piece h
    rw [isPieceChain_cons] at h
    obtain ⟨rfl, hv, hr⟩ := h
    simp only [List.length_cons, pieceChainEnds, hv]
    exact ih _ hr

theorem isPieceChain_unique (w : World) :
    ∀ (ch ch1 : List Nat) (piece : Option Nat),
      isPieceChain w piece ch = true → isPieceChain w piece ch1 = true → ch = ch1 := by
  intro ch
  induction ch with
  | nil =>
    intro ch1 piece h h1
    cases ch1 with
    | nil => rfl
    | cons p rest =>
      rw [isPieceChain_nil] at h
      rw [isPieceChain_cons] at h1
      obtain ⟨rfl, hv, -⟩ := h1
      rw [h] at hv
      cases hv
  | cons p rest ih =>
    intro ch1 piece h h1
    rw [isPieceChain_cons] at h
    obtain ⟨rfl, hv, hr⟩ := h
    cases ch1 with
    | nil =>
      rw [isPieceChain_nil] at h1
      rw [h1] at hv
      cases hv
    | cons p1 rest1 =>
      rw [isPieceChain_cons] at h1
      obtain ⟨hp, -, hr1⟩ := h1
      cases hp
      rw [ih rest1 _ hr hr1]

theorem isPieceChain_suffix (w : World) (p : Nat) (b : List Nat) :
    ∀ (a : List Nat) (piece : Option Nat),
      isPieceChain w piece (a ++ p :: b) = true → isPieceChain w (some p) (p :: b) = true := by
  intro a
  induction a with
  | nil =>
    intro piece h
    rw [List.nil_append, isPieceChain_cons] at h
    rw [isPieceChain_cons]
    exact ⟨rfl, h.2⟩
  | cons x a ih =>
    intro piece h
    rw [List.cons_append, isPieceChain_cons] at h
    exact ih _ h.2.2

/-- A piece whose own `hnext` chain is the list `ch` is not on that list: the chain would
run forever. -/
theorem isPieceChain_not_mem (w : World) (p : Nat) (ch : List Nat)
    (h : isPieceChain w (w.mobjs p).hnext ch = true) : p ∉ ch := by
  intro hmem
  obtain ⟨a, b, rfl⟩ := List.append_of_mem hmem
  have h1 := isPieceChain_suffix w p b a _ h
  rw [isPieceChain_cons] at h1
  have h2 := isPieceChain_unique w _ _ _ h h1.2.2
  have h3 := congrArg List.length h2
  simp only [List.length_append, List.length_cons] at h3
  omega

theorem isPieceChain_nodup (w : World) :
    ∀ (ch : List Nat) (piece : Option Nat), isPieceChain w piece ch = true → ch.Nodup := by
  intro ch
  induction ch with
  | nil => intro _ _; exact List.nodup_nil
  | cons p rest ih =>
    intro piece h
    rw [isPieceChain_cons] at h
    exact List.nodup_cons.mpr ⟨isPieceChain_not_mem w p rest h.2.2, ih _ h.2.2⟩

theorem isPieceChain_congr (w w1 : World)
    (hr : ∀ q, (w1.mobjs q).removed = (w.mobjs q).removed)
    (hh : ∀ q, (w1.mobjs q).health = (w.mobjs q).health)
    (hn : ∀ q, (w1.mobjs q).hnext = (w.mobjs q).hnext) :
    ∀ (ch : List Nat) (piece : Option Nat),
      isPieceChain w1 piece ch = isPieceChain w piece ch := by
  intro ch
  induction ch with
  | nil =>
    intro piece
    simp only [isPieceChain, UFOPieceValid_congr w w1 piece hr hh]
  | cons p rest ih =>
    intro piece
    simp only [isPieceChain, UFOPieceValid_congr w w1 (some p) hr hh, hn p, ih]

/-- After the kill loop every piece of the chain has health 0 and every object off the
chain is as it was. -/
theorem UFOKillPieces_loop_kills (env : Env) :
    ∀ (ch : List Nat) (fuel : Nat) (piece : Option Nat) (w : World),
      isPieceChain w piece ch = true → ch.length < fuel →
      ∃ w1, UFOKillPieces.loop env fuel piece w = .ok w1 ∧
        (∀ q, q ∈ ch → (w1.mobjs q).health = 0) ∧
        (∀ q, q ∉ ch → w1.mobjs q = w.mobjs q) := by
  intro ch
  induction ch with
  | nil =>
    intro fuel piece w h hf
    obtain ⟨f, rfl⟩ : ∃ f, fuel = f + 1 := ⟨fuel - 1, by simp at hf; omega⟩
    rw [isPieceChain_nil] at h
    refine ⟨w, ?_, fun q hq => absurd hq (List.not_mem_nil q), fun _ _ => rfl⟩
    unfold UFOKillPieces.loop
    split
    · rename_i hv; rw [h] at hv; cases hv
    · rfl
  | cons p rest ih =>
    intro fuel piece w h hf
    obtain ⟨f, rfl⟩ : ∃ f, fuel = f + 1 := ⟨fuel - 1, by simp at hf; omega⟩
    have hnd := isPieceChain_nodup w _ _ h
    rw [isPieceChain_cons] at h
    obtain ⟨rfl, hv, hr⟩ := h
    have hpn : p ∉ rest := (List.nodup_cons.mp hnd).1
    have hother : ∀ q, q ≠ p → (UFOKillPiece env w (some p)).mobjs q = w.mobjs q := by
      intro q hq
      unfold UFOKillPiece
      simp only [hv]
      split_ifs <;> exact setMobj_mobjs_ne _ _ _ _ hq
    have hdead : ((UFOKillPiece env w (some p)).mobjs p).health = 0 := by
      unfold UFOKillPiece
      simp only [hv]
      split_ifs <;> simp
    have hnext : ((UFOKillPiece env w (some p)).mobjs p).hnext = (w.mobjs p).hnext :=
      (sansKill_fields _ _ (UFOKillPiece_frame env w (some p) p)).2.1
    have hr1 : isPieceChain (UFOKillPiece env w (some p)) (w.mobjs p).hnext rest = true := by
      have hnx := fun q => (sansKill_fields _ _ (UFOKillPiece_frame env w (some p) q)).2.1
      have hrm := fun q => (sansKill_fields _ _ (UFOKillPiece_frame env w (some p) q)).1
      have key : ∀ (l : List Nat) (x : Option Nat), p ∉ l → isPieceChain w x l = true →
          isPieceChain (UFOKillPiece env w (some p)) x l = true := by
        intro l
        induction l with
        | nil =>
          intro x _ hx
          rw [isPieceChain_nil] at hx ⊢
          cases hc : UFOPieceValid (UFOKillPiece env w (some p)) x with
          | false => rfl
          | true => rw [UFOKillPiece_valid env w (some p) x hc] at hx; cases hx
        | cons a l ihl =>
          intro x hpl hx
          rw [isPieceChain_cons] at hx ⊢
          obtain ⟨rfl, hva, hra⟩ := hx
          have hap : a ≠ p := fun e => hpl (e ▸ List.mem_cons_self _ _)
          refine ⟨rfl, ?_, ?_⟩
          · simpa [UFOPieceValid, hother a hap] using hva
          · rw [hother a hap]
            exact ihl _ (fun hm => hpl (List.mem_cons_of_mem _ hm)) hra
      exact key rest _ hpn hr
    obtain ⟨w1, hloop, hk, hfr⟩ := ih f _ _ hr1 (by simp at hf; omega)
    refine ⟨w1, ?_, ?_, ?_⟩
    · unfold UFOKillPieces.loop
      simp only [hv, hnext]
      exact hloop
    · intro q hq
      rcases List.mem_cons.mp hq with rfl | hq
      · rw [hfr q hpn]
        exact hdead
      · exact hk q hq
    · intro q hq
      have hqp : q ≠ p := fun e => hq (e ▸ List.mem_cons_self _ _)
      have hqr : q ∉ rest := fun hm => hq (List.mem_cons_of_mem _ hm)
      rw [hfr q hqr, hother q hqp]

/-! ### Damage -/

theorem testBit_false_of_lt_32 (a i : Nat) (ha : a < 4294967296) (hi : 32 ≤ i) :
    a.testBit i = false := by
  apply Nat.testBit_lt_two_pow
  calc a < 2 ^ 32 := by simpa using ha
    _ ≤ 2 ^ i := Nat.pow_le_pow_right (by decide) hi

theorem testBit_mask32 (i : Nat) : (4294967295 : Nat).testBit i = decide (i < 32) := by
  have h : (4294967295 : Nat) = 2 ^ 32 - 1 := by norm_num
  rw [h, Nat.testBit_two_pow_sub_one]

/-- The flag word written by the pinch transition: the bits of `s` are cleared and the
bits of `a` and `b` are set, when `s` is a 32-bit mask disjoint from `a` and `b`. -/
theorem pinch_flags (f s a b : Nat) (hs : s < 4294967296) (hd : s &&& (a ||| b) = 0) :
    (clearFlags f s ||| (a ||| b)) &&& s = 0 ∧
      (clearFlags f s ||| (a ||| b)) &&& a = a ∧
      (clearFlags f s ||| (a ||| b)) &&& b = b := by
  have hbit : ∀ i, (s.testBit i && (a.testBit i || b.testBit i)) = false := by
    intro i
    have := congrArg (fun x => Nat.testBit x i) hd
    simpa [Nat.testBit_and, Nat.testBit_or] using this
  refine ⟨?_, ?_, ?_⟩
  · apply Nat.eq_of_testBit_eq
    intro i
    have h1 := hbit i
    revert h1
    simp only [clearFlags, Nat.testBit_and, Nat.testBit_or, Nat.testBit_xor, testBit_mask32,
      Nat.zero_testBit]
    by_cases hi : i < 32
    · simp only [hi, decide_True]
      generalize s.testBit i = sb
      generalize a.testBit i = ab
      generalize b.testBit i = bb
      generalize f.testBit i = fb
      cases sb <;> cases ab <;> cases bb <;> cases fb <;> decide
    · have hsi : s.testBit i = false := testBit_false_of_lt_32 s i hs (by omega)
      simp [hsi]
  · apply Nat.eq_of_testBit_eq
    intro i
    simp only [Nat.testBit_and, Nat.testBit_or]
    cases a.testBit i <;> simp
  · apply Nat.eq_of_testBit_eq
    intro i
    simp only [Nat.testBit_and, Nat.testBit_or]
    cases b.testBit i <;> simp

theorem sourceSkin_spec (env : Env) (w : World) (s : Nat) :
    ∃ w0, Obj_SpecialUFODamage.sourceSkin env w (some s) = .ok w0 ∧ w0.mobjs = w.mobjs := by
  unfold Obj_SpecialUFODamage.sourceSkin
  simp only
  split
  · exact ⟨w, rfl, rfl⟩
  · split_ifs
    · exact ⟨_, rfl, rfl⟩
    · exact ⟨w, rfl, rfl⟩

theorem sourceSkin_mobjs (env : Env) (w w0 : World) (source : Option Nat)
    (h : Obj_SpecialUFODamage.sourceSkin env w source = .ok w0) : w0.mobjs = w.mobjs := by
  unfold Obj_SpecialUFODamage.sourceSkin at h
  split at h
  · cases h
  · split at h
    · cases h; rfl
    · split_ifs at h <;> cases h <;> rfl

/-- What an accepted hit does to the UFO, given that the run returned. -/
theorem accept_result (env : Env) (fuel : Nat) (w : World) (ufo : Nat) (inflictor : Option Nat)
    (damage : Nat) (b : Bool) (w1 : World)
    (h : Obj_SpecialUFODamage.accept env fuel w ufo inflictor damage = .ok (b, w1)) :
    b = true ∧
    ((damage : Int) ≥ (w.mobjs ufo).health - 1 →
      (w1.mobjs ufo).health = 1 ∧
      (∃ f, (w1.mobjs ufo).flags
        = clearFlags f env.MF_SHOOTABLE ||| (env.MF_SPECIAL ||| env.MF_PICKUPFROMBELOW)) ∧
      (w1.mobjs ufo).shadowscale = FRACUNIT env / 3 ∧
      (w1.mobjs ufo).watertop = (w.mobjs ufo).watertop
        + 2 * env.FixedMul (UFO_DAMAGED_SPEED env) env.gameSpeedScalar) ∧
    ((damage : Int) < (w.mobjs ufo).health - 1 →
      (w1.mobjs ufo).health = (w.mobjs ufo).health - damage ∧
      (w1.mobjs ufo).flags = (w.mobjs ufo).flags ∧
      (w1.mobjs ufo).shadowscale = (w.mobjs ufo).shadowscale ∧
      (w1.mobjs ufo).watertop = (w.mobjs ufo).watertop
        + env.FixedMul (UFO_DAMAGED_SPEED env) env.gameSpeedScalar ∧
      ∀ q, q ≠ ufo → (w1.mobjs q).sansHitlag = (w.mobjs q).sansHitlag) := by
  unfold Obj_SpecialUFODamage.accept at h
  simp only at h
  split at h
  · cases h
  · rename_i w3 hcopy
    obtain ⟨hfr3, -⟩ := UFOCopyHitlagToPieces_frame env _ _ _ _ hcopy
    have hfr : ∀ q, (w3.mobjs q).sansHitlag
        = (if q = ufo then
            ({ w.mobjs ufo with
              watertop := (w.mobjs ufo).watertop
                + env.FixedMul (UFO_DAMAGED_SPEED env) env.gameSpeedScalar } : mobj_t)
          else w.mobjs q).sansHitlag := by
      intro q
      rw [hfr3 q, K_SetHitLagForObjects_frame, setMobj_mobjs]
    have hu := sansHitlag_fields _ _ (hfr ufo)
    simp only [if_true] at hu
    obtain ⟨hhealth, -, -, hflags, hshadow, hspeed, -⟩ := hu
    split_ifs at h with hp
    · split at h
      · cases h
      · rename_i w4 hkill
        obtain ⟨hfr4, -⟩ := UFOKillPieces_frame env _ _ _ _ hkill
        have hspeed4 := (sansKill_fields _ _ (hfr4 ufo)).2.2.2.1
        cases h
        refine ⟨rfl, fun _ => ?_, fun hlt => ?_⟩
        · refine ⟨?_, ⟨(w4.mobjs ufo).flags, ?_⟩, ?_, ?_⟩
          · simp [Obj_SpecialUFODamage.pinch]
          · simp only [Obj_SpecialUFODamage.pinch, setMobj_mobjs_same]
          · simp [Obj_SpecialUFODamage.pinch]
          · simp only [Obj_SpecialUFODamage.pinch, setMobj_mobjs_same, hspeed4, hspeed]
            ring
        · rw [hhealth] at hp
          omega
    · cases h
      refine ⟨rfl, fun hge => ?_, fun _ => ?_⟩
      · rw [hhealth] at hp
        omega
      · refine ⟨?_, ?_, ?_, ?_, ?_⟩
        · simp only [setMobj_mobjs_same, hhealth]
        · simp only [setMobj_mobjs_same, hflags]
        · simp only [setMobj_mobjs_same, hshadow]
        · simp only [setMobj_mobjs_same, hspeed]
        · intro q hq
          rw [setMobj_mobjs_ne _ _ _ _ hq, hfr q, if_neg hq]

/-- An accepted hit returns when the piece chain of the UFO is finite. -/
theorem accept_returns (env : Env) (n fuel : Nat) (w : World) (ufo : Nat)
    (inflictor : Option Nat) (damage : Nat)
    (hchain : pieceChainEnds w n (w.mobjs ufo).hnext = true) (hfuel : n < fuel) :
    ∃ r, Obj_SpecialUFODamage.accept env fuel w ufo inflictor damage = .ok r := by
  have hfr : ∀ q,
      ((K_SetHitLagForObjects env
        (w.setMobj ufo
          { w.mobjs ufo with
            watertop := (w.mobjs ufo).watertop
              + env.FixedMul (UFO_DAMAGED_SPEED env) env.gameSpeedScalar })
        ufo inflictor ((damage : Int) / 3 + 2) true).mobjs q).health = (w.mobjs q).health ∧
      ((K_SetHitLagForObjects env
        (w.setMobj ufo
          { w.mobjs ufo with
            watertop := (w.mobjs ufo).watertop
              + env.FixedMul (UFO_DAMAGED_SPEED env) env.gameSpeedScalar })
        ufo inflictor ((damage : Int) / 3 + 2) true).mobjs q).removed = (w.mobjs q).removed ∧
      ((K_SetHitLagForObjects env
        (w.setMobj ufo
          { w.mobjs ufo with
            watertop := (w.mobjs ufo).watertop
              + env.FixedMul (UFO_DAMAGED_SPEED env) env.gameSpeedScalar })
        ufo inflictor ((damage : Int) / 3 + 2) true).mobjs q).hnext = (w.mobjs q).hnext := by
    intro q
    have h1 := sansHitlag_fields _ _ (K_SetHitLagForObjects_frame env
      (w.setMobj ufo
        { w.mobjs ufo with
          watertop := (w.mobjs ufo).watertop
            + env.FixedMul (UFO_DAMAGED_SPEED env) env.gameSpeedScalar })
      ufo inflictor ((damage : Int) / 3 + 2) true q)
    rw [h1.1, h1.2.1, h1.2.2.1, setMobj_mobjs]
    split_ifs with hq
    · subst hq; exact ⟨rfl, rfl, rfl⟩
    · exact ⟨rfl, rfl, rfl⟩
  have hchain2 := pieceChainEnds_mono w _ (fun q => (hfr q).2.2)
    (fun piece hpv =>
      (UFOPieceValid_congr w _ piece (fun q => (hfr q).2.1) (fun q => (hfr q).1)).symm.trans hpv)
    n _ hchain
  rw [← (hfr ufo).2.2] at hchain2
  obtain ⟨w3, hcopy⟩ := UFOCopyHitlagToPieces_loop_terminates env ufo n fuel _ _ hchain2 hfuel
  obtain ⟨hfr3, -⟩ := UFOCopyHitlagToPieces_loop_frame env ufo _ _ _ _ hcopy
  have hchain3 := pieceChainEnds_mono _ w3 (fun q => (sansHitlag_fields _ _ (hfr3 q)).2.2.1)
    (fun piece hpv =>
      (UFOPieceValid_congr _ w3 piece
        (fun q => (sansHitlag_fields _ _ (hfr3 q)).2.1)
        (fun q => (sansHitlag_fields _ _ (hfr3 q)).1)).symm.trans hpv) n _ hchain2
  rw [← (sansHitlag_fields _ _ (hfr3 ufo)).2.2.1] at hchain3
  obtain ⟨w4, hkill⟩ := UFOKillPieces_loop_terminates env n fuel _ _ hchain3 hfuel
  unfold Obj_SpecialUFODamage.accept
  simp only
  unfold UFOCopyHitlagToPieces
  rw [hcopy]
  simp only
  split_ifs
  · unfold UFOKillPieces
    rw [hkill]
    exact ⟨_, rfl⟩
  · exact ⟨_, rfl⟩

theorem pieceChainEnds_of_mobjs_eq (w w0 : World) (h : w0.mobjs = w.mobjs) (n : Nat)
    (piece : Option Nat) (hc : pieceChainEnds w n piece = true) :
    pieceChainEnds w0 n piece = true :=
  pieceChainEnds_mono w w0 (fun q => by rw [h])
    (fun x hx => (UFOPieceValid_congr w w0 x (fun q => by rw [h]) (fun q => by rw [h])).symm.trans
      hx) n piece hc

/-- An accepted damage event on a UFO above pinch health, from a present source and with a
finite piece chain: the call returns true, and the UFO is changed as `accept_result` says. -/
theorem damage_accepted (env : Env) (w : World) (ufo : Nat) (inflictor : Option Nat) (s : Nat)
    (damageType dmg n fuel : Nat)
    (hh : (w.mobjs ufo).health > 1)
    (hd : GetUFODamage env w inflictor damageType = .ok dmg) (hpos : 0 < dmg)
    (hchain : pieceChainEnds w n (w.mobjs ufo).hnext = true) (hfuel : n < fuel) :
    ∃ w1, Obj_SpecialUFODamage env fuel w ufo inflictor (some s) damageType = .ok (true, w1) ∧
      ((dmg : Int) ≥ (w.mobjs ufo).health - 1 →
        (w1.mobjs ufo).health = 1 ∧
        (∃ f, (w1.mobjs ufo).flags
          = clearFlags f env.MF_SHOOTABLE ||| (env.MF_SPECIAL ||| env.MF_PICKUPFROMBELOW)) ∧
        (w1.mobjs ufo).shadowscale = FRACUNIT env / 3 ∧
        (w1.mobjs ufo).watertop = (w.mobjs ufo).watertop
          + 2 * env.FixedMul (UFO_DAMAGED_SPEED env) env.gameSpeedScalar) ∧
      ((dmg : Int) < (w.mobjs ufo).health - 1 →
        (w1.mobjs ufo).health = (w.mobjs ufo).health - dmg ∧
        (w1.mobjs ufo).flags = (w.mobjs ufo).flags ∧
        (w1.mobjs ufo).shadowscale = (w.mobjs ufo).shadowscale ∧
        (w1.mobjs ufo).watertop = (w.mobjs ufo).watertop
          + env.FixedMul (UFO_DAMAGED_SPEED env) env.gameSpeedScalar ∧
        ∀ q, q ≠ ufo → (w1.mobjs q).sansHitlag = (w.mobjs q).sansHitlag) := by
  obtain ⟨w0, hs, hm⟩ := sourceSkin_spec env w s
  have hchain0 : pieceChainEnds w0 n (w0.mobjs ufo).hnext = true := by
    rw [hm]
    exact pieceChainEnds_of_mobjs_eq w w0 hm n _ hchain
  obtain ⟨⟨b, w1⟩, hr⟩ := accept_returns env n fuel w0 ufo inflictor dmg hchain0 hfuel
  have hres := accept_result env fuel w0 ufo inflictor dmg b w1 hr
  rw [hm] at hres
  obtain ⟨hb, hres⟩ := hres
  subst hb
  refine ⟨w1, ?_, hres⟩
  have hne : ¬ (w.mobjs ufo).health ≤ 1 := by omega
  have hne2 : ¬ dmg ≤ 0 := by omega
  simp only [Obj_SpecialUFODamage, UFOEmeraldChase, hne, decide_False, hd, hs, hr, hne2,
    if_false, Bool.false_eq_true]

/-- An accepted hit that reaches the pinch threshold returns true and leaves every piece
of the chain `ch` of the UFO with health 0. -/
theorem accept_kills (env : Env) (fuel : Nat) (w : World) (ufo : Nat) (inflictor : Option Nat)
    (damage : Nat) (ch : List Nat)
    (hch : isPieceChain w (w.mobjs ufo).hnext ch = true) (hfuel : ch.length < fuel)
    (hge : (damage : Int) ≥ (w.mobjs ufo).health - 1) :
    ∃ w1, Obj_SpecialUFODamage.accept env fuel w ufo inflictor damage = .ok (true, w1) ∧
      ∀ q, q ∈ ch → (w1.mobjs q).health = 0 := by
  have hfr : ∀ q,
      ((K_SetHitLagForObjects env
        (w.setMobj ufo
          { w.mobjs ufo with
            watertop := (w.mobjs ufo).watertop
              + env.FixedMul (UFO_DAMAGED_SPEED env) env.gameSpeedScalar })
        ufo inflictor ((damage : Int) / 3 + 2) true).mobjs q).health = (w.mobjs q).health ∧
      ((K_SetHitLagForObjects env
        (w.setMobj ufo
          { w.mobjs ufo with
            watertop := (w.mobjs ufo).watertop
              + env.FixedMul (UFO_DAMAGED_SPEED env) env.gameSpeedScalar })
        ufo inflictor ((damage : Int) / 3 + 2) true).mobjs q).removed = (w.mobjs q).removed ∧
      ((K_SetHitLagForObjects env
        (w.setMobj ufo
          { w.mobjs ufo with
            watertop := (w.mobjs ufo).watertop
              + env.FixedMul (UFO_DAMAGED_SPEED env) env.gameSpeedScalar })
        ufo inflictor ((damage : Int) / 3 + 2) true).mobjs q).hnext = (w.mobjs q).hnext := by
    intro q
    have h1 := sansHitlag_fields _ _ (K_SetHitLagForObjects_frame env
      (w.setMobj ufo
        { w.mobjs ufo with
          watertop := (w.mobjs ufo).watertop
            + env.FixedMul (UFO_DAMAGED_SPEED env) env.gameSpeedScalar })
      ufo inflictor ((damage : Int) / 3 + 2) true q)
    rw [h1.1, h1.2.1, h1.2.2.1, setMobj_mobjs]
    split_ifs with hq
    · subst hq; exact ⟨rfl, rfl, rfl⟩
    · exact ⟨rfl, rfl, rfl⟩
  have hch2 := hch
  rw [← isPieceChain_congr w _ (fun q => (hfr q).2.1) (fun q => (hfr q).1) (fun q => (hfr q).2.2),
    ← (hfr ufo).2.2] at hch2
  obtain ⟨w3, hcopy⟩ := UFOCopyHitlagToPieces_loop_terminates env ufo ch.length fuel _ _
    (isPieceChain_ends _ _ _ hch2) hfuel
  obtain ⟨hfr3, -⟩ := UFOCopyHitlagToPieces_loop_frame env ufo _ _ _ _ hcopy
  have hch3 := hch2
  rw [← isPieceChain_congr _ w3 (fun q => (sansHitlag_fields _ _ (hfr3 q)).2.1)
      (fun q => (sansHitlag_fields _ _ (hfr3 q)).1)
      (fun q => (sansHitlag_fields _ _ (hfr3 q)).2.2.1),
    ← (sansHitlag_fields _ _ (hfr3 ufo)).2.2.1] at hch3
  have hufo : ufo ∉ ch := isPieceChain_not_mem w3 ufo ch hch3
  obtain ⟨w4, hkill, hdead, -⟩ := UFOKillPieces_loop_kills env ch fuel _ w3 hch3 hfuel
  have hh3 : (w3.mobjs ufo).health = (w.mobjs ufo).health := by
    rw [(sansHitlag_fields _ _ (hfr3 ufo)).1, (hfr ufo).1]
  refine ⟨Obj_SpecialUFODamage.pinch env w4 ufo
    (env.FixedMul (UFO_DAMAGED_SPEED env) env.gameSpeedScalar), ?_, ?_⟩
  · unfold Obj_SpecialUFODamage.accept
    simp only
    unfold UFOCopyHitlagToPieces
    rw [hcopy]
    simp only [hh3, hge, if_true]
    unfold UFOKillPieces
    rw [hkill]
  · intro q hq
    have hne : q ≠ ufo := fun e => hufo (e ▸ hq)
    unfold Obj_SpecialUFODamage.pinch
    rw [setMobj_mobjs_ne _ _ _ _ hne]
    exact hdead q hq

/-- The pinch transition dismantles the pieces: a hit that reaches the pinch threshold, from
a present source, leaves every piece of the chain of the UFO with health 0. -/
theorem damage_kills (env : Env) (w : World) (ufo : Nat) (inflictor : Option Nat) (s : Nat)
    (damageType dmg fuel : Nat) (ch : List Nat)
    (hh : (w.mobjs ufo).health > 1)
    (hd : GetUFODamage env w inflictor damageType = .ok dmg) (hpos : 0 < dmg)
    (hch : isPieceChain w (w.mobjs ufo).hnext ch = true) (hfuel : ch.length < fuel)
    (hge : (dmg : Int) ≥ (w.mobjs ufo).health - 1) :
    ∃ w1, Obj_SpecialUFODamage env fuel w ufo inflictor (some s) damageType = .ok (true, w1) ∧
      ∀ q, q ∈ ch → (w1.mobjs q).health = 0 := by
  obtain ⟨w0, hs, hm⟩ := sourceSkin_spec env w s
  have hch0 : isPieceChain w0 (w0.mobjs ufo).hnext ch = true := by
    rw [isPieceChain_congr w w0 (fun q => by rw [hm]) (fun q => by rw [hm])
      (fun q => by rw [hm]), hm]
    exact hch
  obtain ⟨w1, hr, hk⟩ := accept_kills env fuel w0 ufo inflictor dmg ch hch0 hfuel
    (by rw [hm]; exact hge)
  refine ⟨w1, ?_, hk⟩
  have hne : ¬ (w.mobjs ufo).health ≤ 1 := by omega
  have hne2 : ¬ dmg ≤ 0 := by omega
  simp only [Obj_SpecialUFODamage, UFOEmeraldChase, hne, decide_False, hd, hs, hr, hne2,
    if_false, Bool.false_eq_true]

/-- C1: a UFO with health above 1 is hit from a present source for an accepted damage
`dmg > 0` computed by `GetUFODamage`, its piece chain being finite. The call returns true.
If `dmg >= health - 1` the new health is exactly 1, `MF_SHOOTABLE` is cleared,
`MF_SPECIAL` and `MF_PICKUPFROMBELOW` are set and the shadow scale is `FRACUNIT/3`;
otherwise the new health is `health - dmg`, still above 1, and the flags and the shadow
scale are unchanged. -/
theorem Obj_SpecialUFODamage_accepted (env : Env) (hflags : env.flagsDistinct) (w : World)
    (ufo : Nat) (inflictor : Option Nat) (s : Nat) (damageType dmg n fuel : Nat)
    (hh : (w.mobjs ufo).health > 1)
    (hd : GetUFODamage env w inflictor damageType = .ok dmg) (hpos : 0 < dmg)
    (hchain : pieceChainEnds w n (w.mobjs ufo).hnext = true) (hfuel : n < fuel) :
    ∃ w1, Obj_SpecialUFODamage env fuel w ufo inflictor (some s) damageType = .ok (true, w1) ∧
      ((dmg : Int) ≥ (w.mobjs ufo).health - 1 →
        (w1.mobjs ufo).health = 1 ∧
        (w1.mobjs ufo).flags &&& env.MF_SHOOTABLE = 0 ∧
        (w1.mobjs ufo).flags &&& env.MF_SPECIAL = env.MF_SPECIAL ∧
        (w1.mobjs ufo).flags &&& env.MF_PICKUPFROMBELOW = env.MF_PICKUPFROMBELOW ∧
        (w1.mobjs ufo).shadowscale = FRACUNIT env / 3) ∧
      ((dmg : Int) < (w.mobjs ufo).health - 1 →
        (w1.mobjs ufo).health = (w.mobjs ufo).health - dmg ∧
        (w1.mobjs ufo).health > 1 ∧
        (w1.mobjs ufo).flags = (w.mobjs ufo).flags ∧
        (w1.mobjs ufo).shadowscale = (w.mobjs ufo).shadowscale) := by
  obtain ⟨w1, hr, hpinch, hhit⟩ :=
    damage_accepted env w ufo inflictor s damageType dmg n fuel hh hd hpos hchain hfuel
  refine ⟨w1, hr, fun hge => ?_, fun hlt => ?_⟩
  · obtain ⟨h1, ⟨f, h2⟩, h3, -⟩ := hpinch hge
    obtain ⟨p1, p2, p3⟩ := pinch_flags f env.MF_SHOOTABLE env.MF_SPECIAL env.MF_PICKUPFROMBELOW
      hflags.1 hflags.2
    rw [h2]
    exact ⟨h1, p1, p2, p3, h3⟩
  · obtain ⟨h1, h2, h3, -⟩ := hhit hlt
    refine ⟨h1, ?_, h2, h3⟩
    rw [h1]
    omega

/-- Witness for C1: the sample UFO with health 25 hit by the thrown orbinaut (20 points)
on behalf of the player object: the call returns true and the health becomes 5. -/
theorem Obj_SpecialUFODamage_accepted_witness :
    ∃ w1, Obj_SpecialUFODamage sampleEnv 3 (sampleWorld 25 (84 * 65536) 0 0 0 0) 0 (some 4)
        (some 3) 0 = .ok (true, w1) ∧ (w1.mobjs 0).health = 25 - (20 : Nat) := by
  obtain ⟨w1, h1, -, h2⟩ := Obj_SpecialUFODamage_accepted sampleEnv (by decide)
    (sampleWorld 25 (84 * 65536) 0 0 0 0) 0 (some 4) 3 0 20 2 3 (by decide) rfl (by decide)
    (by decide) (by decide)
  exact ⟨w1, h1, (h2 (by decide)).1⟩

/-- C9: an accepted damage event (health above 1, damage `dmg > 0`, present source, finite
piece chain) returns true and raises the speed of the UFO by exactly
`FixedMul(UFO_DAMAGED_SPEED, G)` when the hit does not trigger the pinch transition and
by exactly twice that when it does. -/
theorem Obj_SpecialUFODamage_speed_bonus (env : Env) (w : World) (ufo : Nat)
    (inflictor : Option Nat) (s : Nat) (damageType dmg n fuel : Nat)
    (hh : (w.mobjs ufo).health > 1)
    (hd : GetUFODamage env w inflictor damageType = .ok dmg) (hpos : 0 < dmg)
    (hchain : pieceChainEnds w n (w.mobjs ufo).hnext = true) (hfuel : n < fuel) :
    ∃ w1, Obj_SpecialUFODamage env fuel w ufo inflictor (some s) damageType = .ok (true, w1) ∧
      (¬ (dmg : Int) ≥ (w.mobjs ufo).health - 1 →
        (w1.mobjs ufo).watertop = (w.mobjs ufo).watertop
          + env.FixedMul (UFO_BASE_SPEED env / 2) env.gameSpeedScalar) ∧
      ((dmg : Int) ≥ (w.mobjs ufo).health - 1 →
        (w1.mobjs ufo).watertop = (w.mobjs ufo).watertop
          + 2 * env.FixedMul (UFO_BASE_SPEED env / 2) env.gameSpeedScalar) := by
  obtain ⟨w1, hr, hpinch, hhit⟩ :=
    damage_accepted env w ufo inflictor s damageType dmg n fuel hh hd hpos hchain hfuel
  refine ⟨w1, hr, fun hlt => ?_, fun hge => ?_⟩
  · exact (hhit (by omega)).2.2.2.1
  · exact (hpinch hge).2.2.2

/-- Witness for C9: the sample UFO at speed 84 units; with health 25 the orbinaut hit adds
21 units, with health 21 it triggers the pinch transition and adds 42 units. -/
theorem Obj_SpecialUFODamage_speed_bonus_witness :
    (∃ w1, Obj_SpecialUFODamage sampleEnv 3 (sampleWorld 25 (84 * 65536) 0 0 0 0) 0 (some 4)
        (some 3) 0 = .ok (true, w1) ∧ (w1.mobjs 0).watertop = 84 * 65536 + 21 * 65536) ∧
      (∃ w1, Obj_SpecialUFODamage sampleEnv 3 (sampleWorld 21 (84 * 65536) 0 0 0 0) 0 (some 4)
        (some 3) 0 = .ok (true, w1) ∧ (w1.mobjs 0).watertop = 84 * 65536 + 2 * (21 * 65536)) := by
  constructor
  · obtain ⟨w1, h1, h2, -⟩ := Obj_SpecialUFODamage_speed_bonus sampleEnv
      (sampleWorld 25 (84 * 65536) 0 0 0 0) 0 (some 4) 3 0 20 2 3 (by decide) rfl (by decide)
      (by decide) (by decide)
    exact ⟨w1, h1, h2 (by decide)⟩
  · obtain ⟨w1, h1, -, h2⟩ := Obj_SpecialUFODamage_speed_bonus sampleEnv
      (sampleWorld 21 (84 * 65536) 0 0 0 0) 0 (some 4) 3 0 20 2 3 (by decide) rfl (by decide)
      (by decide) (by decide)
    exact ⟨w1, h1, h2 (by decide)⟩

/-- C2 as stated fails: scenario S3 on the sample world. The UFO has health 25 and is hit
by the thrown orbinaut for 20 points; 20 is below 25 - 1, so there is no pinch transition:
the call returns true, the health becomes 5, `MF_SHOOTABLE` stays set and
`MF_PICKUPFROMBELOW` stays clear, the pieces keep their health, and the speed grows by one
`DAMAGED_BONUS` (21 units), not two. -/
theorem Obj_SpecialUFODamage_S3_no_pinch :
    (Obj_SpecialUFODamage sampleEnv 3 (sampleWorld 25 (84 * 65536) 0 0 0 0) 0 (some 4)
        (some 3) 0).toOption.map
      (fun r => (r.1, (r.2.mobjs 0).health, (r.2.mobjs 0).flags &&& sampleEnv.MF_SHOOTABLE,
        (r.2.mobjs 0).flags &&& sampleEnv.MF_PICKUPFROMBELOW, (r.2.mobjs 1).health,
        (r.2.mobjs 2).health, (r.2.mobjs 0).watertop - 84 * 65536))
      = some (true, 5, 4, 0, 1000, 1000, 21 * 65536) ∧
    ¬ ∃ w1, Obj_SpecialUFODamage sampleEnv 3 (sampleWorld 25 (84 * 65536) 0 0 0 0) 0 (some 4)
        (some 3) 0 = .ok (true, w1) ∧ (w1.mobjs 0).health = 1 := by
  refine ⟨rfl, ?_⟩
  rintro ⟨w1, h, hh⟩
  have e : (Obj_SpecialUFODamage sampleEnv 3 (sampleWorld 25 (84 * 65536) 0 0 0 0) 0 (some 4)
      (some 3) 0).toOption.map (fun r => (r.2.mobjs 0).health) = some 5 := rfl
  rw [h] at e
  simp only [Except.toOption, Option.map_some', Option.some.injEq] at e
  omega

/-- C2 amended: a live thrown orbinaut (20 points) hits a UFO from a present source, the
pieces of the UFO being the finite chain `ch`. With health 25 the hit is an ordinary one:
the call returns true, the health becomes 5, the flags are unchanged, every other object,
so every piece, keeps its health, and the speed grows by `DAMAGED_BONUS x G`. With health
from 2 to 21 the same hit performs the pinch transition: the call returns true, every
piece of the chain is left with health 0, the health of the UFO becomes 1, `MF_SHOOTABLE`
is dropped, `MF_SPECIAL` and `MF_PICKUPFROMBELOW` are set, and the speed grows by
`2 x DAMAGED_BONUS x G`. -/
theorem Obj_SpecialUFODamage_orbinaut (env : Env) (hflags : env.flagsDistinct) (w : World)
    (ufo i s damageType fuel : Nat) (ch : List Nat)
    (hlive : (w.mobjs i).removed = false) (htype : (w.mobjs i).type = mobjtype_t.MT_ORBINAUT)
    (hch : isPieceChain w (w.mobjs ufo).hnext ch = true) (hfuel : ch.length < fuel) :
    ((w.mobjs ufo).health = 25 →
      ∃ w1, Obj_SpecialUFODamage env fuel w ufo (some i) (some s) damageType = .ok (true, w1) ∧
        (w1.mobjs ufo).health = 5 ∧
        (w1.mobjs ufo).flags = (w.mobjs ufo).flags ∧
        (∀ q, q ≠ ufo → (w1.mobjs q).health = (w.mobjs q).health) ∧
        (w1.mobjs ufo).watertop = (w.mobjs ufo).watertop
          + env.FixedMul (UFO_DAMAGED_SPEED env) env.gameSpeedScalar) ∧
    (1 < (w.mobjs ufo).health → (w.mobjs ufo).health ≤ 21 →
      ∃ w1, Obj_SpecialUFODamage env fuel w ufo (some i) (some s) damageType = .ok (true, w1) ∧
        (∀ q, q ∈ ch → (w1.mobjs q).health = 0) ∧
        (w1.mobjs ufo).health = 1 ∧
        (w1.mobjs ufo).flags &&& env.MF_SHOOTABLE = 0 ∧
        (w1.mobjs ufo).flags &&& env.MF_SPECIAL = env.MF_SPECIAL ∧
        (w1.mobjs ufo).flags &&& env.MF_PICKUPFROMBELOW = env.MF_PICKUPFROMBELOW ∧
        (w1.mobjs ufo).watertop = (w.mobjs ufo).watertop
          + 2 * env.FixedMul (UFO_DAMAGED_SPEED env) env.gameSpeedScalar) := by
  have hd : GetUFODamage env w (some i) damageType = .ok 20 := by
    simp [GetUFODamage, hlive, htype]
  have hchain := isPieceChain_ends w ch _ hch
  constructor
  · intro hh
    obtain ⟨w1, hr, -, hhit⟩ := damage_accepted env w ufo (some i) s damageType 20 ch.length fuel
      (by omega) hd (by decide) hchain hfuel
    obtain ⟨h1, h2, -, h4, h5⟩ := hhit (by rw [hh]; decide)
    refine ⟨w1, hr, ?_, h2, fun q hq => (sansHitlag_fields _ _ (h5 q hq)).1, h4⟩
    rw [h1, hh]
    decide
  · intro hlo hhi
    obtain ⟨w1, hr, hpinch, -⟩ := damage_accepted env w ufo (some i) s damageType 20 ch.length
      fuel hlo hd (by decide) hchain hfuel
    obtain ⟨w2, hr2, hk⟩ := damage_kills env w ufo (some i) s damageType 20 fuel ch hlo hd
      (by decide) hch hfuel (by push_cast; omega)
    have hw : w2 = w1 := by
      rw [hr] at hr2
      cases hr2
      rfl
    subst hw
    obtain ⟨h1, ⟨f, h2⟩, -, h4⟩ := hpinch (by push_cast; omega)
    obtain ⟨p1, p2, p3⟩ := pinch_flags f env.MF_SHOOTABLE env.MF_SPECIAL env.MF_PICKUPFROMBELOW
      hflags.1 hflags.2
    rw [← h2] at p1 p2 p3
    exact ⟨w2, hr, hk, h1, p1, p2, p3, h4⟩

/-- Witness for C2 amended: the sample world, whose UFO has the pieces 1 and 2, with
health 25 and with health 21. -/
theorem Obj_SpecialUFODamage_orbinaut_witness :
    (∃ w1, Obj_SpecialUFODamage sampleEnv 3 (sampleWorld 25 (84 * 65536) 0 0 0 0) 0 (some 4)
        (some 3) 0 = .ok (true, w1) ∧ (w1.mobjs 0).health = 5) ∧
      (∃ w1, Obj_SpecialUFODamage sampleEnv 3 (sampleWorld 21 (84 * 65536) 0 0 0 0) 0 (some 4)
        (some 3) 0 = .ok (true, w1) ∧ (w1.mobjs 1).health = 0 ∧ (w1.mobjs 2).health = 0 ∧
        (w1.mobjs 0).health = 1) := by
  constructor
  · obtain ⟨w1, h1, h2, -⟩ := (Obj_SpecialUFODamage_orbinaut sampleEnv (by decide)
      (sampleWorld 25 (84 * 65536) 0 0 0 0) 0 4 3 0 3 [1, 2] rfl rfl (by decide) (by decide)).1 rfl
    exact ⟨w1, h1, h2⟩
  · obtain ⟨w1, h1, h2, h3, -⟩ := (Obj_SpecialUFODamage_orbinaut sampleEnv (by decide)
      (sampleWorld 21 (84 * 65536) 0 0 0 0) 0 4 3 0 3 [1, 2] rfl rfl (by decide) (by decide)).2
      (by decide) (by decide)
    exact ⟨w1, h1, h2 1 (by decide), h2 2 (by decide), h3⟩

/-! ### Health along event sequences -/

theorem health_setMobj (w : World) (p : Nat) (m : mobj_t) (q : Nat)
    (h : m.health = (w.mobjs p).health) :
    ((w.setMobj p m).mobjs q).health = (w.mobjs q).health := by
  rw [setMobj_mobjs]
  split_ifs with hq
  · subst hq; exact h
  · rfl

theorem disablePlayer_mobjs (env : Env) (w : World) (i : Nat) :
    (UFOMove.disablePlayer env w i).mobjs = w.mobjs := by
  unfold UFOMove.disablePlayer
  split_ifs <;> rfl

theorem disablePlayers_mobjs (env : Env) (l : List Nat) :
    ∀ w : World, (l.foldl (UFOMove.disablePlayer env) w).mobjs = w.mobjs := by
  induction l with
  | nil => intro w; rfl
  | cons i l ih =>
    intro w
    rw [List.foldl_cons, ih, disablePlayer_mobjs]

theorem UFOMove_loop_health (env : Env) (ufo : Nat) (floatHeight : Int)
    (destWaypoint : waypoint_t) :
    ∀ (fuel : Nat) (st st1 : UFOMove.Locals),
      UFOMove.loop env ufo floatHeight destWaypoint fuel st = .ok st1 →
      ∀ q, (st1.w.mobjs q).health = (st.w.mobjs q).health := by
  intro fuel
  induction fuel with
  | zero =>
    intro st st1 h q
    unfold UFOMove.loop at h
    split_ifs at h
    cases h
    rfl
  | succ fuel ih =>
    intro st st1 h q
    unfold UFOMove.loop at h
    simp only at h
    split_ifs at h
    · exact ih _ _ h q
    · cases h; rfl
    · split at h
      · cases h; rfl
      · split at h
        · cases h; rfl
        · rw [ih _ _ h q]
          exact health_setMobj _ _ _ _ rfl
    · cases h; rfl

theorem UFOMoveTo_health (w : World) (ufo : Nat) (a b c : Int) (q : Nat) :
    ((UFOMoveTo w ufo a b c).mobjs q).health = (w.mobjs q).health := by
  unfold UFOMoveTo
  exact health_setMobj _ _ _ _ rfl

theorem UFOMove_finish_health (env : Env) (w : World) (ufo q : Nat) :
    ((UFOMove.finish env w ufo).mobjs q).health = (w.mobjs q).health := by
  unfold UFOMove.finish
  simp only
  rw [disablePlayers_mobjs]
  exact health_setMobj _ _ _ _ rfl

theorem UFOMove_health (env : Env) (fuel : Nat) (w w1 : World) (ufo : Nat)
    (h : UFOMove env fuel w ufo = .ok w1) (q : Nat) :
    (w1.mobjs q).health = (w.mobjs q).health := by
  unfold UFOMove at h
  simp only at h
  split at h
  · split at h
    · cases h
    · rename_i st hloop
      have hl := UFOMove_loop_health env ufo _ _ fuel _ st hloop q
      simp only at hl
      split_ifs at h
      · cases h
        rw [UFOMove_finish_health, UFOMoveTo_health, hl]
      · cases h
        rw [UFOMoveTo_health, hl]
  · cases h
    exact health_setMobj _ _ _ _ rfl

theorem UFOUpdateAngle_health (env : Env) (w : World) (ufo q : Nat) :
    ((UFOUpdateAngle env w ufo).mobjs q).health = (w.mobjs q).health := by
  unfold UFOUpdateAngle
  exact health_setMobj _ _ _ _ rfl

theorem UFOUpdateDistanceToFinish_health (env : Env) (w : World) (ufo q : Nat) :
    ((UFOUpdateDistanceToFinish env w ufo).mobjs q).health = (w.mobjs q).health := by
  unfold UFOUpdateDistanceToFinish
  split
  · split
    · rfl
    · exact health_setMobj _ _ _ _ rfl
  · rfl

theorem UFOUpdateSpeed_health (env : Env) (w : World) (ufo q : Nat) :
    ((UFOUpdateSpeed env w ufo).mobjs q).health = (w.mobjs q).health := by
  unfold UFOUpdateSpeed
  exact health_setMobj _ _ _ _ rfl

theorem UFOEmeraldVFX_health (env : Env) (w : World) (ufo q : Nat) :
    ((UFOEmeraldVFX env w ufo).mobjs q).health = (w.mobjs q).health := by
  unfold UFOEmeraldVFX
  exact health_setMobj _ _ _ _ rfl

/-- A thinker tic leaves the health of every object as it was. -/
theorem Obj_SpecialUFOThinker_health (env : Env) (fuel : Nat) (w w1 : World) (ufo : Nat)
    (h : Obj_SpecialUFOThinker env fuel w ufo = .ok w1) (q : Nat) :
    (w1.mobjs q).health = (w.mobjs q).health := by
  unfold Obj_SpecialUFOThinker at h
  split at h
  · cases h
  · rename_i wm hmove
    have h1 := UFOMove_health env fuel w wm ufo hmove q
    simp only at h
    split_ifs at h
    · cases h
      refine (health_setMobj _ _ _ _ ?_).trans ?_
      · rfl
      · rw [UFOEmeraldVFX_health, UFOUpdateSpeed_health, UFOUpdateDistanceToFinish_health,
          UFOUpdateAngle_health, h1]
    · cases h
      refine (health_setMobj _ _ _ _ ?_).trans ?_
      · rfl
      · rw [UFOUpdateSpeed_health, UFOUpdateDistanceToFinish_health, UFOUpdateAngle_health, h1]

/-- A damage event that returns leaves the health of the UFO at most what it was. -/
theorem Obj_SpecialUFODamage_health (env : Env) (fuel : Nat) (w : World) (ufo : Nat)
    (inflictor source : Option Nat) (damageType : Nat) (r : Bool × World)
    (h : Obj_SpecialUFODamage env fuel w ufo inflictor source damageType = .ok r) :
    (r.2.mobjs ufo).health ≤ (w.mobjs ufo).health := by
  unfold Obj_SpecialUFODamage at h
  split_ifs at h with hchase
  · cases h; exact le_refl _
  · simp only [UFOEmeraldChase, decide_eq_true_eq] at hchase
    split at h
    · cases h
    · rename_i damage hd
      split_ifs at h with hz
      · cases h; exact le_refl _
      · split at h
        · cases h
        · rename_i w0 hs
          have hm := sourceSkin_mobjs env w w0 source hs
          obtain ⟨b, w1⟩ := r
          obtain ⟨-, hpinch, hhit⟩ := accept_result env fuel w0 ufo inflictor damage b w1 h
          rw [hm] at hpinch hhit
          by_cases hge : (damage : Int) ≥ (w.mobjs ufo).health - 1
          · rw [(hpinch hge).1]
            omega
          · rw [(hhit (by omega)).1]
            omega

/-- One event that returns leaves the health of the UFO at most what it was. -/
theorem UFOEvent_run_health (env : Env) (ufo : Nat) (w w1 : World) (ev : UFOEvent)
    (h : ev.run env ufo w = .ok w1) : (w1.mobjs ufo).health ≤ (w.mobjs ufo).health := by
  cases ev with
  | damage fuel inflictor source damageType =>
    simp only [UFOEvent.run] at h
    split at h
    · cases h
    · rename_i r hr
      cases h
      exact Obj_SpecialUFODamage_health env fuel w ufo inflictor source damageType r hr
  | think fuel =>
    exact le_of_eq (Obj_SpecialUFOThinker_health env fuel w w1 ufo h ufo)

/-- C10: along every sequence of damage events and thinker tics applied to a UFO, each
step leaves the health at most what it was before the step, so the health at the end of
the sequence is at most the health at its start, and a UFO that has health at most 1 has
health at most 1 from then on. -/
theorem runEvents_health_monotone (env : Env) (ufo : Nat) (evs : List UFOEvent) (w w1 : World)
    (h : runEvents env ufo evs w = .ok w1) :
    (w1.mobjs ufo).health ≤ (w.mobjs ufo).health ∧
      ((w.mobjs ufo).health ≤ 1 → (w1.mobjs ufo).health ≤ 1) ∧
      ∀ (pre : List UFOEvent) (ev : UFOEvent) (post : List UFOEvent), evs = pre ++ ev :: post →
        ∃ wa wb, runEvents env ufo pre w = .ok wa ∧ ev.run env ufo wa = .ok wb ∧
          runEvents env ufo post wb = .ok w1 ∧
          (wb.mobjs ufo).health ≤ (wa.mobjs ufo).health ∧
          ((wa.mobjs ufo).health ≤ 1 → (wb.mobjs ufo).health ≤ 1) := by
  have hmono : ∀ (l : List UFOEvent) (a b : World), runEvents env ufo l a = .ok b →
      (b.mobjs ufo).health ≤ (a.mobjs ufo).health := by
    intro l
    induction l with
    | nil => intro a b hab; cases hab; exact le_refl _
    | cons ev rest ih =>
      intro a b hab
      simp only [runEvents] at hab
      split at hab
      · cases hab
      · rename_i a1 hev
        exact le_trans (ih _ _ hab) (UFOEvent_run_health env ufo a a1 ev hev)
  have hsplit : ∀ (pre : List UFOEvent) (ev : UFOEvent) (post : List UFOEvent) (a b : World),
      runEvents env ufo (pre ++ ev :: post) a = .ok b →
      ∃ wa wb, runEvents env ufo pre a = .ok wa ∧ ev.run env ufo wa = .ok wb ∧
        runEvents env ufo post wb = .ok b := by
    intro pre
    induction pre with
    | nil =>
      intro ev post a b hab
      simp only [List.nil_append, runEvents] at hab
      split at hab
      · cases hab
      · rename_i a1 hev
        exact ⟨a, a1, rfl, hev, hab⟩
    | cons e pre ih =>
      intro ev post a b hab
      simp only [List.cons_append, runEvents] at hab
      split at hab
      · cases hab
      · rename_i a1 hev
        obtain ⟨wa, wb, h1, h2, h3⟩ := ih ev post a1 b hab
        refine ⟨wa, wb, ?_, h2, h3⟩
        simp only [runEvents, hev, h1]
  refine ⟨hmono evs w w1 h, fun hle => le_trans (hmono evs w w1 h) hle, ?_⟩
  intro pre ev post heq
  subst heq
  obtain ⟨wa, wb, h1, h2, h3⟩ := hsplit pre ev post w w1 h
  have hstep := UFOEvent_run_health env ufo wa wb ev h2
  exact ⟨wa, wb, h1, h2, h3, hstep, fun hle => le_trans hstep hle⟩

/-- Witness for C10: on the sample world with health 25, a thinker tic, the orbinaut hit,
another thinker tic and a second orbinaut hit run to the end; the health goes from 25 to
at most 25. -/
theorem runEvents_health_monotone_witness :
    ∃ w1, runEvents sampleEnv 0
        [UFOEvent.think 1, UFOEvent.damage 3 (some 4) (some 3) 0, UFOEvent.think 1,
          UFOEvent.damage 3 (some 4) (some 3) 0]
        (sampleWorld 25 (84 * 65536) 0 0 0 0) = .ok w1 ∧ (w1.mobjs 0).health ≤ 25 := by
  have hok : (runEvents sampleEnv 0
      [UFOEvent.think 1, UFOEvent.damage 3 (some 4) (some 3) 0, UFOEvent.think 1,
        UFOEvent.damage 3 (some 4) (some 3) 0]
      (sampleWorld 25 (84 * 65536) 0 0 0 0)).toOption.isSome = true := rfl
  cases hrun : runEvents sampleEnv 0
      [UFOEvent.think 1, UFOEvent.damage 3 (some 4) (some 3) 0, UFOEvent.think 1,
        UFOEvent.damage 3 (some 4) (some 3) 0]
      (sampleWorld 25 (84 * 65536) 0 0 0 0) with
  | error e =>
    rw [hrun] at hok
    cases hok
  | ok w1 =>
    exact ⟨w1, rfl, (runEvents_health_monotone sampleEnv 0 _ _ w1 hrun).1⟩

/-! ### Path follower -/

theorem K_GetSpecialUFOWaypoint_negative (env : Env) (w : World) (ufo : Nat)
    (h : (w.mobjs ufo).extravalue1 < 0) : K_GetSpecialUFOWaypoint env w (some ufo) = none := by
  have h1 : ¬ (w.mobjs ufo).extravalue1 ≥ 0 := by omega
  simp only [K_GetSpecialUFOWaypoint, reduceCtorEq, false_and, if_false, h1]
  split_ifs <;> rfl

theorem UFOMove_fallback (env : Env) (fuel : Nat) (w : World) (ufo : Nat)
    (h : K_GetSpecialUFOWaypoint env w (some ufo) = none ∨ env.K_GetFinishLineWaypoint = none) :
    UFOMove env fuel w ufo
      = .ok (w.setMobj ufo
          { w.mobjs ufo with momx := 0, momy := 0, momz := (w.mobjs ufo).watertop }) := by
  unfold UFOMove
  simp only
  split
  · rename_i c d hc hd
    rcases h with h | h
    · rw [h] at hc; cases hc
    · rw [h] at hd; cases hd
  · rfl

/-- C17: when the current waypoint of the UFO cannot be resolved, in particular when
`current_waypoint_index` is negative, or when there is no finish waypoint, `UFOMove`
returns the state in which `momx = 0`, `momy = 0` and `momz = speed` and nothing else is
changed: the waypoint index, the flags, every other object and all player state are as
before. So from a state with index -1, any number of later moves returns a state with
index -1, the same flags and the same players. -/
theorem UFOMove_without_waypoints (env : Env) (w : World) (ufo : Nat) :
    (∀ fuel, (K_GetSpecialUFOWaypoint env w (some ufo) = none
        ∨ (w.mobjs ufo).extravalue1 < 0 ∨ env.K_GetFinishLineWaypoint = none) →
      UFOMove env fuel w ufo
        = .ok (w.setMobj ufo
            { w.mobjs ufo with momx := 0, momy := 0, momz := (w.mobjs ufo).watertop })) ∧
    ((w.mobjs ufo).extravalue1 = -1 → ∀ fuels : List Nat,
      ∃ w1, UFOMove.iterate env ufo fuels w = .ok w1 ∧
        (w1.mobjs ufo).extravalue1 = -1 ∧ (w1.mobjs ufo).flags = (w.mobjs ufo).flags ∧
        w1.players = w.players ∧ w1.playeringame = w.playeringame) := by
  constructor
  · rintro fuel (h | h | h)
    · exact UFOMove_fallback env fuel w ufo (Or.inl h)
    · exact UFOMove_fallback env fuel w ufo
        (Or.inl (K_GetSpecialUFOWaypoint_negative env w ufo h))
    · exact UFOMove_fallback env fuel w ufo (Or.inr h)
  · intro h fuels
    induction fuels generalizing w with
    | nil => exact ⟨w, rfl, h, rfl, rfl, rfl⟩
    | cons fuel rest ih =>
      have hm := UFOMove_fallback env fuel w ufo
        (Or.inl (K_GetSpecialUFOWaypoint_negative env w ufo (by omega)))
      obtain ⟨w1, h1, h2, h3, h4, h5⟩ := ih
        (w.setMobj ufo { w.mobjs ufo with momx := 0, momy := 0, momz := (w.mobjs ufo).watertop })
        (by simp [h])
      refine ⟨w1, ?_, h2, ?_, ?_, ?_⟩
      · simp only [UFOMove.iterate, hm, h1]
      · rw [h3]; simp
      · rw [h4]; rfl
      · rw [h5]; rfl

/-- Witness for C17: the sample UFO has waypoint index -1; a move turns its momentum
straight up at its speed, and three more moves leave the index at -1. -/
theorem UFOMove_without_waypoints_witness :
    UFOMove sampleEnv 1 (sampleWorld 25 (84 * 65536) 5000 10000 0 0) 0
        = .ok ((sampleWorld 25 (84 * 65536) 5000 10000 0 0).setMobj 0
            { (sampleWorld 25 (84 * 65536) 5000 10000 0 0).mobjs 0 with
              momx := 0, momy := 0
              momz := ((sampleWorld 25 (84 * 65536) 5000 10000 0 0).mobjs 0).watertop }) ∧
      ∃ w1, UFOMove.iterate sampleEnv 0 [1, 1, 1] (sampleWorld 25 (84 * 65536) 5000 10000 0 0)
          = .ok w1 ∧ (w1.mobjs 0).extravalue1 = -1 := by
  refine ⟨(UFOMove_without_waypoints sampleEnv _ 0).1 1 (Or.inr (Or.inl (by decide))), ?_⟩
  obtain ⟨w1, h1, h2, -⟩ :=
    (UFOMove_without_waypoints sampleEnv (sampleWorld 25 (84 * 65536) 5000 10000 0 0) 0).2
      (by decide) [1, 1, 1]
  exact ⟨w1, h1, h2⟩

/-! ### Null source -/

theorem Obj_SpecialUFODamage_null_source (env : Env) (fuel : Nat) (w : World) (ufo : Nat)
    (inflictor : Option Nat) (damageType dmg : Nat) (hh : (w.mobjs ufo).health > 1)
    (hd : GetUFODamage env w inflictor damageType = .ok dmg) (hpos : 0 < dmg) :
    Obj_SpecialUFODamage env fuel w ufo inflictor none damageType = .error Fault.nullDeref := by
  have hne : ¬ (w.mobjs ufo).health ≤ 1 := by omega
  have hne2 : ¬ dmg ≤ 0 := by omega
  simp only [Obj_SpecialUFODamage, UFOEmeraldChase, hne, decide_False, hd, hne2,
    Obj_SpecialUFODamage.sourceSkin, if_false, Bool.false_eq_true]

/-- C20 at the failing input: the sample UFO has health 25 and is hit with no inflictor,
no source and damage kind `DMG_NORMAL`; the damage is 10, the hit is accepted, and the
call reads `source->player` through the null source. -/
theorem Obj_SpecialUFODamage_null_source_faults :
    ((sampleWorld 25 (84 * 65536) 0 0 0 0).mobjs 0).health = 25 ∧
      GetUFODamage sampleEnv (sampleWorld 25 (84 * 65536) 0 0 0 0) none 0 = .ok 10 ∧
      Obj_SpecialUFODamage sampleEnv 3 (sampleWorld 25 (84 * 65536) 0 0 0 0) 0 none none 0
        = .error Fault.nullDeref :=
  ⟨rfl, rfl, Obj_SpecialUFODamage_null_source sampleEnv 3 _ 0 none 0 10 (by decide) rfl
    (by decide)⟩

/-! ### Reaching the finish -/

theorem setPlayer_players (w : World) (i j : Nat) (q : player_t) :
    (w.setPlayer i q).players j = if j = i then q else w.players j := by
  by_cases h : j = i
  · subst h; simp [World.setPlayer]
  · simp [World.setPlayer, Function.update_noteq h, h]

theorem disablePlayer_playeringame (env : Env) (w : World) (i : Nat) :
    (UFOMove.disablePlayer env w i).playeringame = w.playeringame := by
  unfold UFOMove.disablePlayer
  split_ifs <;> rfl

theorem disablePlayer_players (env : Env) (w : World) (i j : Nat) :
    (UFOMove.disablePlayer env w i).players j
      = if j = i ∧ w.playeringame i = true ∧ (w.players i).spectator = false then
          { w.players i with
            pflags := (w.players i).pflags ||| env.PF_NOCONTEST, exiting := true }
        else w.players j := by
  unfold UFOMove.disablePlayer
  by_cases h1 : w.playeringame i = true
  · by_cases h2 : (w.players i).spectator = true
    · rw [if_neg (by simp [h1]), if_pos h2, if_neg (by simp [h2])]
    · have h2f : (w.players i).spectator = false := by simpa using h2
      rw [if_neg (by simp [h1]), if_neg h2]
      simp only [P_DoPlayerExit, setPlayer_players]
      by_cases h3 : j = i
      · subst h3; simp [h1, h2f]
      · simp [h3]
  · have h1f : w.playeringame i = false := by simpa using h1
    rw [if_pos h1f, if_neg (by simp [h1f])]

theorem disablePlayers_players (env : Env) (l : List Nat) (hl : l.Nodup) :
    ∀ (w : World) (j : Nat),
      ((l.foldl (UFOMove.disablePlayer env) w).players j
        = if j ∈ l ∧ w.playeringame j = true ∧ (w.players j).spectator = false then
            { w.players j with
              pflags := (w.players j).pflags ||| env.PF_NOCONTEST, exiting := true }
          else w.players j) ∧
      (l.foldl (UFOMove.disablePlayer env) w).playeringame = w.playeringame := by
  induction l with
  | nil => intro w j; simp
  | cons i l ih =>
    intro w j
    obtain ⟨hil, hl1⟩ := List.nodup_cons.mp hl
    rw [List.foldl_cons]
    obtain ⟨h1, h2⟩ := ih hl1 (UFOMove.disablePlayer env w i) j
    refine ⟨?_, by rw [h2, disablePlayer_playeringame]⟩
    rw [h1, disablePlayer_playeringame, disablePlayer_players]
    by_cases hji : j = i
    · subst hji
      simp [hil]
    · simp [hji]

theorem clearFlags_and (f m s : Nat) (hs : s < 4294967296)
    (hsub : s &&& m = s) : clearFlags f m &&& s = 0 := by
  apply Nat.eq_of_testBit_eq
  intro i
  have hbit := congrArg (fun x => Nat.testBit x i) hsub
  simp only [Nat.testBit_and] at hbit
  simp only [clearFlags, Nat.testBit_and, Nat.testBit_xor, testBit_mask32, Nat.zero_testBit]
  by_cases hi : i < 32
  · simp only [hi, decide_True]
    revert hbit
    generalize s.testBit i = sb
    generalize m.testBit i = mb
    generalize f.testBit i = fb
    cases sb <;> cases mb <;> cases fb <;> decide
  · have hsi : s.testBit i = false := testBit_false_of_lt_32 s i hs (by omega)
    simp [hsi]

theorem and_or_self_left (a b : Nat) : a &&& (a ||| b) = a := by
  apply Nat.eq_of_testBit_eq
  intro i
  simp only [Nat.testBit_and, Nat.testBit_or]
  cases a.testBit i <;> simp

theorem and_or_self_right (a b : Nat) : b &&& (a ||| b) = b := by
  apply Nat.eq_of_testBit_eq
  intro i
  simp only [Nat.testBit_and, Nat.testBit_or]
  cases b.testBit i <;> simp

theorem or_and_self (a b : Nat) : (a ||| b) &&& b = b := by
  apply Nat.eq_of_testBit_eq
  intro i
  simp only [Nat.testBit_and, Nat.testBit_or]
  cases b.testBit i <;> simp

/-- What `UFOMove` returns when its first iteration snaps onto the finish waypoint. -/
theorem UFOMove_at_finish (env : Env) (fuel : Nat) (w : World) (ufo : Nat) (wp : waypoint_t)
    (hcur : K_GetSpecialUFOWaypoint env w (some ufo) = some wp)
    (hdest : env.K_GetFinishLineWaypoint = some wp)
    (hstep : 0 < env.FixedMul (w.mobjs ufo).watertop env.mapobjectscale)
    (hdist : GenericDistance env (w.mobjs ufo).x (w.mobjs ufo).y (w.mobjs ufo).z
        (w.mobjs wp.mobj).x (w.mobjs wp.mobj).y
        ((w.mobjs wp.mobj).z + 24 * (w.mobjs ufo).scale)
      ≤ env.FixedMul (w.mobjs ufo).watertop env.mapobjectscale)
    (hfuel : 0 < fuel) :
    UFOMove env fuel w ufo
      = .ok (UFOMove.finish env
          (UFOMoveTo w ufo (w.mobjs wp.mobj).x (w.mobjs wp.mobj).y
            ((w.mobjs wp.mobj).z + 24 * (w.mobjs ufo).scale)) ufo) := by
  obtain ⟨f, rfl⟩ : ∃ f, fuel = f + 1 := ⟨fuel - 1, by omega⟩
  have hd : ¬ GenericDistance env (w.mobjs ufo).x (w.mobjs ufo).y (w.mobjs ufo).z
        (w.mobjs wp.mobj).x (w.mobjs wp.mobj).y
        ((w.mobjs wp.mobj).z + 24 * (w.mobjs ufo).scale)
      > env.FixedMul (w.mobjs ufo).watertop env.mapobjectscale := by omega
  simp only [UFOMove, hcur, hdest, UFOMove.loop, hstep, hd, if_true, if_false, gt_iff_lt]

theorem UFOMove_loop_players (env : Env) (ufo : Nat) (floatHeight : Int)
    (destWaypoint : waypoint_t) :
    ∀ (fuel : Nat) (st st1 : UFOMove.Locals),
      UFOMove.loop env ufo floatHeight destWaypoint fuel st = .ok st1 →
      st1.w.players = st.w.players ∧ st1.w.playeringame = st.w.playeringame := by
  intro fuel
  induction fuel with
  | zero =>
    intro st st1 h
    unfold UFOMove.loop at h
    split_ifs at h
    cases h
    exact ⟨rfl, rfl⟩
  | succ fuel ih =>
    intro st st1 h
    unfold UFOMove.loop at h
    simp only at h
    split_ifs at h
    · have h2 := ih _ _ h
      exact h2
    · cases h; exact ⟨rfl, rfl⟩
    · split at h
      · cases h; exact ⟨rfl, rfl⟩
      · split at h
        · cases h; exact ⟨rfl, rfl⟩
        · have h2 := ih _ _ h
          exact h2
    · cases h; exact ⟨rfl, rfl⟩

/-- An iteration of the move loop that finds the waypoint it heads for within the step
that is left, that waypoint being the destination, snaps onto it and leaves the loop with
`reachedEnd` set; this at any iteration, whatever the path index. -/
theorem UFOMove_loop_snap_finish (env : Env) (ufo : Nat) (floatHeight : Int)
    (destWaypoint : waypoint_t) (fuel : Nat) (st : UFOMove.Locals)
    (hstep : 0 < st.distLeft) (hwp : st.curWaypoint = destWaypoint)
    (hdist : GenericDistance env st.newX st.newY st.newZ (st.w.mobjs destWaypoint.mobj).x
        (st.w.mobjs destWaypoint.mobj).y ((st.w.mobjs destWaypoint.mobj).z + floatHeight)
      ≤ st.distLeft) :
    UFOMove.loop env ufo floatHeight destWaypoint (fuel + 1) st
      = .ok { st with
          newX := (st.w.mobjs destWaypoint.mobj).x
          newY := (st.w.mobjs destWaypoint.mobj).y
          newZ := (st.w.mobjs destWaypoint.mobj).z + floatHeight
          distLeft := st.distLeft - GenericDistance env st.newX st.newY st.newZ
            (st.w.mobjs destWaypoint.mobj).x (st.w.mobjs destWaypoint.mobj).y
            ((st.w.mobjs destWaypoint.mobj).z + floatHeight)
          reachedEnd := true } := by
  subst hwp
  have hd : ¬ GenericDistance env st.newX st.newY st.newZ (st.w.mobjs st.curWaypoint.mobj).x
        (st.w.mobjs st.curWaypoint.mobj).y ((st.w.mobjs st.curWaypoint.mobj).z + floatHeight)
      > st.distLeft := by omega
  simp only [UFOMove.loop, hstep, hd, if_true, if_false, gt_iff_lt]

/-- An iteration of the move loop that finds the waypoint it heads for within the step
that is left, that waypoint not being the destination and the path having a next node,
snaps onto it and goes on toward that next node. -/
theorem UFOMove_loop_snap_next (env : Env) (ufo : Nat) (floatHeight : Int)
    (destWaypoint : waypoint_t) (fuel : Nat) (st : UFOMove.Locals) (path : path_t)
    (next : waypoint_t) (hstep : 0 < st.distLeft) (hwp : st.curWaypoint ≠ destWaypoint)
    (hdist : GenericDistance env st.newX st.newY st.newZ (st.w.mobjs st.curWaypoint.mobj).x
        (st.w.mobjs st.curWaypoint.mobj).y ((st.w.mobjs st.curWaypoint.mobj).z + floatHeight)
      ≤ st.distLeft)
    (hfound : st.pathtofinish = some path ∨ (st.pathtofinish = none ∧
      env.K_PathfindToWaypoint st.curWaypoint destWaypoint false false = some path))
    (hnext : path.array.get? (st.pathIndex + 1) = some next) :
    UFOMove.loop env ufo floatHeight destWaypoint (fuel + 1) st
      = UFOMove.loop env ufo floatHeight destWaypoint fuel
          { st with
            newX := (st.w.mobjs st.curWaypoint.mobj).x
            newY := (st.w.mobjs st.curWaypoint.mobj).y
            newZ := (st.w.mobjs st.curWaypoint.mobj).z + floatHeight
            distLeft := st.distLeft - GenericDistance env st.newX st.newY st.newZ
              (st.w.mobjs st.curWaypoint.mobj).x (st.w.mobjs st.curWaypoint.mobj).y
              ((st.w.mobjs st.curWaypoint.mobj).z + floatHeight)
            pathtofinish := some path
            pathIndex := st.pathIndex + 1
            curWaypoint := next
            w := st.w.setMobj ufo
              { st.w.mobjs ufo with
                extravalue1 := toINT32 (env.K_GetWaypointHeapIndex next) } } := by
  have hd : ¬ GenericDistance env st.newX st.newY st.newZ (st.w.mobjs st.curWaypoint.mobj).x
        (st.w.mobjs st.curWaypoint.mobj).y ((st.w.mobjs st.curWaypoint.mobj).z + floatHeight)
      > st.distLeft := by omega
  conv_lhs => unfold UFOMove.loop
  simp only [hstep, hd, hwp, if_true, if_false, gt_iff_lt]
  rcases hfound with hp | ⟨hp, hq⟩
  · simp only [hp, hnext]
  · simp only [hp, hq, hnext]

/-- The run of the loop on the track: two iterations from entry lead to `trackLoopState`. -/
theorem trackLoopState_run (f : Nat) :
    UFOMove.loop trackEnv 0 (24 * ((trackWorld 1 (84 * 65536) 0 4194305).mobjs 0).scale)
        ⟨2, 12⟩ (f + 2)
        { w := trackWorld 1 (84 * 65536) 0 4194305
          distLeft := trackEnv.FixedMul ((trackWorld 1 (84 * 65536) 0 4194305).mobjs 0).watertop
            trackEnv.mapobjectscale
          newX := ((trackWorld 1 (84 * 65536) 0 4194305).mobjs 0).x
          newY := ((trackWorld 1 (84 * 65536) 0 4194305).mobjs 0).y
          newZ := ((trackWorld 1 (84 * 65536) 0 4194305).mobjs 0).z
          curWaypoint := ⟨0, 10⟩
          pathtofinish := none
          pathIndex := 0
          reachedEnd := false }
      = UFOMove.loop trackEnv 0 (24 * ((trackWorld 1 (84 * 65536) 0 4194305).mobjs 0).scale)
          ⟨2, 12⟩ f trackLoopState := by
  refine (UFOMove_loop_snap_next trackEnv 0 _ ⟨2, 12⟩ (f + 1) _ ⟨trackWaypoints, 1000⟩ ⟨1, 11⟩
    (by decide) (by decide) (by decide) (Or.inr ⟨by rfl, by rfl⟩) (by rfl)).trans ?_
  refine (UFOMove_loop_snap_next trackEnv 0 _ ⟨2, 12⟩ f _ ⟨trackWaypoints, 1000⟩ ⟨2, 12⟩
    (by decide) (by decide) (by decide) (Or.inl (by rfl)) (by rfl)).trans ?_
  rfl

/-- What `UFOMove.finish` leaves: index -1, `MF_SPECIAL` and `MF_PICKUPFROMBELOW` clear,
the players in game that are not spectators marked, the others as they were. -/
theorem UFOMove_finish_spec (env : Env) (v : World) (ufo : Nat)
    (hfit : env.MF_SPECIAL < 4294967296 ∧ env.MF_PICKUPFROMBELOW < 4294967296) :
    ((UFOMove.finish env v ufo).mobjs ufo).extravalue1 = -1 ∧
      ((UFOMove.finish env v ufo).mobjs ufo).flags &&& env.MF_SPECIAL = 0 ∧
      ((UFOMove.finish env v ufo).mobjs ufo).flags &&& env.MF_PICKUPFROMBELOW = 0 ∧
      (∀ i, i < env.MAXPLAYERS → v.playeringame i = true → (v.players i).spectator = false →
        ((UFOMove.finish env v ufo).players i).pflags &&& env.PF_NOCONTEST
          = env.PF_NOCONTEST) ∧
      (∀ i, (v.playeringame i = false ∨ (v.players i).spectator = true) →
        (UFOMove.finish env v ufo).players i = v.players i) := by
  refine ⟨?_, ?_, ?_, ?_, ?_⟩
  · simp only [UFOMove.finish, disablePlayers_mobjs, setMobj_mobjs_same]
  · simp only [UFOMove.finish, disablePlayers_mobjs, setMobj_mobjs_same]
    exact clearFlags_and _ _ _ hfit.1 (and_or_self_left _ _)
  · simp only [UFOMove.finish, disablePlayers_mobjs, setMobj_mobjs_same]
    exact clearFlags_and _ _ _ hfit.2 (and_or_self_right _ _)
  · intro i hi hin hsp
    have h := (disablePlayers_players env _ (List.nodup_range env.MAXPLAYERS)
      (v.setMobj ufo
        { v.mobjs ufo with
          extravalue1 := -1
          flags := clearFlags (v.mobjs ufo).flags
            (env.MF_SPECIAL ||| env.MF_PICKUPFROMBELOW) }) i).1
    simp only [UFOMove.finish]
    rw [h]
    have hc : i ∈ List.range env.MAXPLAYERS ∧ v.playeringame i = true
        ∧ (v.players i).spectator = false := ⟨List.mem_range.mpr hi, hin, hsp⟩
    simp only [setMobj_players, setMobj_playeringame, hc, and_self, if_true]
    exact or_and_self _ _
  · intro i hi
    have h := (disablePlayers_players env _ (List.nodup_range env.MAXPLAYERS)
      (v.setMobj ufo
        { v.mobjs ufo with
          extravalue1 := -1
          flags := clearFlags (v.mobjs ufo).flags
            (env.MF_SPECIAL ||| env.MF_PICKUPFROMBELOW) }) i).1
    simp only [UFOMove.finish]
    rw [h]
    have hc : ¬ (i ∈ List.range env.MAXPLAYERS ∧ v.playeringame i = true
        ∧ (v.players i).spectator = false) := by
      rintro ⟨-, h1, h2⟩
      rcases hi with hi | hi
      · rw [hi] at h1; cases h1
      · rw [hi] at h2; cases h2
    simp only [setMobj_players, setMobj_playeringame, hc, if_false]

/-- C16: an iteration of the loop of `UFOMove`, at any loop state and any path index,
that finds the waypoint it heads for within the step that is left (step left positive,
distance to the lifted waypoint at most that step), that waypoint being the finish, snaps
onto it and leaves the loop with `reachedEnd` set. So when the loop, started as `UFOMove`
starts it for the resolved current waypoint, is after `k` iterations at such a state `st`
(every run from entry with `k` more units of fuel is the run from `st`; `k = 0` is the
first iteration), the call returns; after it the waypoint index is -1, `MF_SPECIAL` and
`MF_PICKUPFROMBELOW` are clear, every player below `MAXPLAYERS` that is in game and not a
spectator has `PF_NOCONTEST` set, and every player that is not in game or is a spectator
is unchanged. -/
theorem UFOMove_reaches_finish (env : Env)
    (hfit : env.MF_SPECIAL < 4294967296 ∧ env.MF_PICKUPFROMBELOW < 4294967296) :
    (∀ (ufo : Nat) (floatHeight : Int) (dest : waypoint_t) (fuel : Nat) (st : UFOMove.Locals),
      0 < st.distLeft → st.curWaypoint = dest →
      GenericDistance env st.newX st.newY st.newZ (st.w.mobjs dest.mobj).x
          (st.w.mobjs dest.mobj).y ((st.w.mobjs dest.mobj).z + floatHeight) ≤ st.distLeft →
      UFOMove.loop env ufo floatHeight dest (fuel + 1) st
        = .ok { st with
            newX := (st.w.mobjs dest.mobj).x
            newY := (st.w.mobjs dest.mobj).y
            newZ := (st.w.mobjs dest.mobj).z + floatHeight
            distLeft := st.distLeft - GenericDistance env st.newX st.newY st.newZ
              (st.w.mobjs dest.mobj).x (st.w.mobjs dest.mobj).y
              ((st.w.mobjs dest.mobj).z + floatHeight)
            reachedEnd := true }) ∧
    (∀ (fuel k : Nat) (w : World) (ufo : Nat) (cur dest : waypoint_t) (st : UFOMove.Locals),
      K_GetSpecialUFOWaypoint env w (some ufo) = some cur →
      env.K_GetFinishLineWaypoint = some dest →
      (∀ f, UFOMove.loop env ufo (24 * (w.mobjs ufo).scale) dest (f + k)
          { w := w
            distLeft := env.FixedMul (w.mobjs ufo).watertop env.mapobjectscale
            newX := (w.mobjs ufo).x
            newY := (w.mobjs ufo).y
            newZ := (w.mobjs ufo).z
            curWaypoint := cur
            pathtofinish := none
            pathIndex := 0
            reachedEnd := false }
        = UFOMove.loop env ufo (24 * (w.mobjs ufo).scale) dest f st) →
      0 < st.distLeft → st.curWaypoint = dest →
      GenericDistance env st.newX st.newY st.newZ (st.w.mobjs dest.mobj).x
          (st.w.mobjs dest.mobj).y ((st.w.mobjs dest.mobj).z + 24 * (w.mobjs ufo).scale)
        ≤ st.distLeft →
      k < fuel →
      ∃ w1, UFOMove env fuel w ufo = .ok w1 ∧
        (w1.mobjs ufo).extravalue1 = -1 ∧
        (w1.mobjs ufo).flags &&& env.MF_SPECIAL = 0 ∧
        (w1.mobjs ufo).flags &&& env.MF_PICKUPFROMBELOW = 0 ∧
        (∀ i, i < env.MAXPLAYERS → w.playeringame i = true →
          (w.players i).spectator = false →
          (w1.players i).pflags &&& env.PF_NOCONTEST = env.PF_NOCONTEST) ∧
        (∀ i, (w.playeringame i = false ∨ (w.players i).spectator = true) →
          w1.players i = w.players i)) := by
  refine ⟨fun ufo floatHeight dest fuel st hstep hwp hdist =>
    UFOMove_loop_snap_finish env ufo floatHeight dest fuel st hstep hwp hdist, ?_⟩
  intro fuel k w ufo cur dest st hcur hdest hrun hstep hwp hdist hfuel
  obtain ⟨f, rfl⟩ : ∃ f, fuel = f + 1 + k := ⟨fuel - k - 1, by omega⟩
  have hsnap := UFOMove_loop_snap_finish env ufo (24 * (w.mobjs ufo).scale) dest f st hstep hwp
    hdist
  have hloop := (hrun (f + 1)).trans hsnap
  obtain ⟨hp, hg⟩ := UFOMove_loop_players env ufo _ _ _ _ _ hloop
  simp only at hp hg
  obtain ⟨s1, s2, s3, s4, s5⟩ := UFOMove_finish_spec env
    (UFOMoveTo st.w ufo (st.w.mobjs dest.mobj).x (st.w.mobjs dest.mobj).y
      ((st.w.mobjs dest.mobj).z + 24 * (w.mobjs ufo).scale)) ufo hfit
  have hvp : (UFOMoveTo st.w ufo (st.w.mobjs dest.mobj).x (st.w.mobjs dest.mobj).y
      ((st.w.mobjs dest.mobj).z + 24 * (w.mobjs ufo).scale)).players = w.players := hp
  have hvg : (UFOMoveTo st.w ufo (st.w.mobjs dest.mobj).x (st.w.mobjs dest.mobj).y
      ((st.w.mobjs dest.mobj).z + 24 * (w.mobjs ufo).scale)).playeringame = w.playeringame := hg
  rw [hvp, hvg] at s4 s5
  refine ⟨_, ?_, s1, s2, s3, s4, s5⟩
  simp only [UFOMove, hcur, hdest, hloop, if_true]

/-- Witness for C16: on the track the UFO heads for waypoint 0 with a step of 84 units;
the loop crosses waypoints 0 and 1 and, in its third iteration, snaps onto waypoint 2, the
finish, 10 units away with 45 left. The move ends with index -1, the pickup flag clear
and player 0 marked no contest. So does the move of the UFO that already heads for the
finish waypoint, 42 units away, which snaps onto it in the first iteration. -/
theorem UFOMove_reaches_finish_witness :
    (K_GetSpecialUFOWaypoint trackEnv (trackWorld 1 (84 * 65536) 0 4194305) (some 0)
        = some ⟨0, 10⟩ ∧
      trackEnv.K_GetFinishLineWaypoint = some ⟨2, 12⟩ ∧
      ∃ w1, UFOMove trackEnv 3 (trackWorld 1 (84 * 65536) 0 4194305) 0 = .ok w1 ∧
        (w1.mobjs 0).extravalue1 = -1 ∧
        (w1.mobjs 0).flags &&& trackEnv.MF_PICKUPFROMBELOW = 0 ∧
        (w1.players 0).pflags &&& trackEnv.PF_NOCONTEST = trackEnv.PF_NOCONTEST) ∧
    (∃ w1, UFOMove trackEnv 1 (trackWorld 1 (84 * 65536) 2 4194305) 0 = .ok w1 ∧
      (w1.mobjs 0).extravalue1 = -1 ∧ (w1.mobjs 0).flags &&& trackEnv.MF_PICKUPFROMBELOW = 0 ∧
      (w1.players 0).pflags &&& trackEnv.PF_NOCONTEST = trackEnv.PF_NOCONTEST) := by
  constructor
  · obtain ⟨w1, h1, h2, -, h4, h5, -⟩ := (UFOMove_reaches_finish trackEnv (by decide)).2 3 2
      (trackWorld 1 (84 * 65536) 0 4194305) 0 ⟨0, 10⟩ ⟨2, 12⟩ trackLoopState rfl rfl
      trackLoopState_run (by decide) rfl (by decide) (by decide)
    exact ⟨rfl, rfl, w1, h1, h2, h4, h5 0 (by decide) rfl rfl⟩
  · obtain ⟨w1, h1, h2, -, h4, h5, -⟩ := (UFOMove_reaches_finish trackEnv (by decide)).2 1 0
      (trackWorld 1 (84 * 65536) 2 4194305) 0 ⟨2, 12⟩ ⟨2, 12⟩ _ rfl rfl
      (fun _ => rfl) (by decide) rfl (by decide) (by decide)
    exact ⟨w1, h1, h2, h4, h5 0 (by decide) rfl rfl⟩

/-! ### Termination of the move loop -/

theorem UFOMove_loop_done (env : Env) (ufo : Nat) (floatHeight : Int) (destWaypoint : waypoint_t)
    (fuel : Nat) (st : UFOMove.Locals) (h : ¬ st.distLeft > 0) :
    UFOMove.loop env ufo floatHeight destWaypoint fuel st = .ok st := by
  cases fuel with
  | zero => simp [UFOMove.loop, h]
  | succ f => simp [UFOMove.loop, h]

theorem UFOMove_loop_terminates_with_path (env : Env) (ufo : Nat) (floatHeight : Int)
    (destWaypoint : waypoint_t) :
    ∀ (fuel : Nat) (st : UFOMove.Locals) (p : path_t), st.pathtofinish = some p →
      p.array.length ≤ fuel + st.pathIndex → 1 ≤ fuel →
      ∃ st1, UFOMove.loop env ufo floatHeight destWaypoint fuel st = .ok st1 := by
  intro fuel
  induction fuel with
  | zero => intro st p _ _ h; omega
  | succ f ih =>
    intro st p hp hlen _
    unfold UFOMove.loop
    simp only
    split_ifs with h1 h2 h3
    · exact ⟨_, UFOMove_loop_done env ufo _ _ f _ (by simp)⟩
    · exact ⟨_, rfl⟩
    · simp only [hp]
      split
      · exact ⟨_, rfl⟩
      · rename_i next hget
        have hlt : st.pathIndex + 1 < p.array.length := by
          rcases Nat.lt_or_ge (st.pathIndex + 1) p.array.length with h | h
          · exact h
          · rw [List.get?_eq_none.mpr h] at hget; cases hget
        exact ih _ p rfl (by simp only; omega) (by omega)
    · exact ⟨_, rfl⟩

theorem UFOMove_loop_terminates (env : Env) (ufo : Nat) (floatHeight : Int)
    (destWaypoint : waypoint_t) (fuel : Nat) (st : UFOMove.Locals)
    (hnone : st.pathtofinish = none) (hidx : st.pathIndex = 0)
    (hlen : ∀ p, env.K_PathfindToWaypoint st.curWaypoint destWaypoint false false = some p →
      p.array.length ≤ fuel)
    (hfuel : 1 ≤ fuel) :
    ∃ st1, UFOMove.loop env ufo floatHeight destWaypoint fuel st = .ok st1 := by
  obtain ⟨f, rfl⟩ : ∃ f, fuel = f + 1 := ⟨fuel - 1, by omega⟩
  unfold UFOMove.loop
  simp only
  split_ifs with h1 h2 h3
  · exact ⟨_, UFOMove_loop_done env ufo _ _ f _ (by simp)⟩
  · exact ⟨_, rfl⟩
  · simp only [hnone]
    cases hfound : env.K_PathfindToWaypoint st.curWaypoint destWaypoint false false with
    | none => exact ⟨_, rfl⟩
    | some p =>
      simp only
      split
      · exact ⟨_, rfl⟩
      · rename_i next hget
        have hlt : st.pathIndex + 1 < p.array.length := by
          rcases Nat.lt_or_ge (st.pathIndex + 1) p.array.length with h | h
          · exact h
          · rw [List.get?_eq_none.mpr h] at hget; cases hget
        have := hlen p hfound
        exact UFOMove_loop_terminates_with_path env ufo _ _ f _ p rfl
          (by simp only; omega) (by omega)
  · exact ⟨_, rfl⟩

/-- Every iteration of the move loop consumes all the remaining step, or leaves the loop,
or advances the path index by one to an index below the node count of the path. -/
theorem UFOMove_loop_progress (env : Env) (ufo : Nat) (floatHeight : Int)
    (destWaypoint : waypoint_t) (fuel : Nat) (st : UFOMove.Locals) (h : st.distLeft > 0) :
    (∃ st1, UFOMove.loop env ufo floatHeight destWaypoint (fuel + 1) st
        = UFOMove.loop env ufo floatHeight destWaypoint fuel st1 ∧ st1.distLeft = 0) ∨
    (∃ st1, UFOMove.loop env ufo floatHeight destWaypoint (fuel + 1) st = .ok st1) ∨
    (∃ st1 p, UFOMove.loop env ufo floatHeight destWaypoint (fuel + 1) st
        = UFOMove.loop env ufo floatHeight destWaypoint fuel st1 ∧
      st1.pathtofinish = some p ∧ st1.pathIndex = st.pathIndex + 1 ∧
      st1.pathIndex < p.array.length) := by
  conv =>
    enter [1, 1, st1, 1, 1]
    unfold UFOMove.loop
  conv =>
    enter [2, 1, 1, st1, 1]
    unfold UFOMove.loop
  conv =>
    enter [2, 2, 1, st1, 1, p, 1, 1]
    unfold UFOMove.loop
  simp only [h, if_true]
  split_ifs with h2 h3
  · exact Or.inl ⟨_, rfl, rfl⟩
  · exact Or.inr (Or.inl ⟨_, rfl⟩)
  · split
    · exact Or.inr (Or.inl ⟨_, rfl⟩)
    · rename_i path hfound
      split
      · exact Or.inr (Or.inl ⟨_, rfl⟩)
      · rename_i next hget
        refine Or.inr (Or.inr ⟨_, path, rfl, rfl, rfl, ?_⟩)
        simp only
        rcases Nat.lt_or_ge (st.pathIndex + 1) path.array.length with hl | hl
        · exact hl
        · rw [List.get?_eq_none.mpr hl] at hget; cases hget

/-- C15: when the path that the pathfinder returns from the current waypoint to the finish
has at most `N` nodes, `N + 1` units of fuel, one per iteration, are enough for the move
loop, and so for `UFOMove`, to return: the loop makes at most `N + 1` iterations. Every
iteration with step left consumes all of it, or leaves the loop, or advances the path
index by one to an index below the node count of the path. -/
theorem UFOMove_loop_bound (env : Env) (N : Nat) :
    (∀ (ufo : Nat) (floatHeight : Int) (destWaypoint : waypoint_t) (st : UFOMove.Locals),
      st.pathtofinish = none → st.pathIndex = 0 →
      (∀ p, env.K_PathfindToWaypoint st.curWaypoint destWaypoint false false = some p →
        p.array.length ≤ N) →
      ∃ st1, UFOMove.loop env ufo floatHeight destWaypoint (N + 1) st = .ok st1) ∧
    (∀ (w : World) (ufo : Nat),
      (∀ cur dest p, K_GetSpecialUFOWaypoint env w (some ufo) = some cur →
        env.K_GetFinishLineWaypoint = some dest →
        env.K_PathfindToWaypoint cur dest false false = some p → p.array.length ≤ N) →
      ∃ w1, UFOMove env (N + 1) w ufo = .ok w1) ∧
    (∀ (ufo : Nat) (floatHeight : Int) (destWaypoint : waypoint_t) (fuel : Nat)
      (st : UFOMove.Locals), st.distLeft > 0 →
      (∃ st1, UFOMove.loop env ufo floatHeight destWaypoint (fuel + 1) st
          = UFOMove.loop env ufo floatHeight destWaypoint fuel st1 ∧ st1.distLeft = 0) ∨
      (∃ st1, UFOMove.loop env ufo floatHeight destWaypoint (fuel + 1) st = .ok st1) ∨
      (∃ st1 p, UFOMove.loop env ufo floatHeight destWaypoint (fuel + 1) st
          = UFOMove.loop env ufo floatHeight destWaypoint fuel st1 ∧
        st1.pathtofinish = some p ∧ st1.pathIndex = st.pathIndex + 1 ∧
        st1.pathIndex < p.array.length)) := by
  refine ⟨?_, ?_, ?_⟩
  · intro ufo floatHeight destWaypoint st hnone hidx hlen
    exact UFOMove_loop_terminates env ufo floatHeight destWaypoint (N + 1) st hnone hidx
      (fun p hp => Nat.le_succ_of_le (hlen p hp)) (by omega)
  · intro w ufo hlen
    unfold UFOMove
    simp only
    split
    · rename_i cur dest hc hd
      obtain ⟨st1, h1⟩ := UFOMove_loop_terminates env ufo (24 * (w.mobjs ufo).scale) dest (N + 1)
        { w := w
          distLeft := env.FixedMul (w.mobjs ufo).watertop env.mapobjectscale
          newX := (w.mobjs ufo).x
          newY := (w.mobjs ufo).y
          newZ := (w.mobjs ufo).z
          curWaypoint := cur
          pathtofinish := none
          pathIndex := 0
          reachedEnd := false } rfl rfl
        (fun p hp => Nat.le_succ_of_le (hlen cur dest p hc hd hp)) (by omega)
      rw [h1]
      simp only
      split_ifs <;> exact ⟨_, rfl⟩
    · exact ⟨_, rfl⟩
  · intro ufo floatHeight destWaypoint fuel st h
    exact UFOMove_loop_progress env ufo floatHeight destWaypoint fuel st h

/-- Witness for C15: on the three-node track every path has at most 3 nodes, and a move
of the UFO from the first waypoint with a step of 84 units returns within 4 iterations. -/
theorem UFOMove_loop_bound_witness :
    ∃ w1, UFOMove trackEnv 4 (trackWorld 25 (84 * 65536) 0 4) 0 = .ok w1 :=
  (UFOMove_loop_bound trackEnv 3).2.1 (trackWorld 25 (84 * 65536) 0 4) 0
    (fun cur dest p _ _ hp => by
      have hp1 : p = ⟨trackWaypoints.drop cur.id, 1000⟩ := by
        simpa [trackEnv] using hp.symm
      subst hp1
      simp only [List.length_drop, trackWaypoints, List.length_cons, List.length_nil]
      omega)

/-! ### Flags after the pinch transition -/

theorem field_setMobj {α : Type} (f : mobj_t → α) (w : World) (p : Nat) (m : mobj_t) (q : Nat)
    (h : f m = f (w.mobjs p)) : f ((w.setMobj p m).mobjs q) = f (w.mobjs q) := by
  rw [setMobj_mobjs]
  split_ifs with hq
  · subst hq; exact h
  · rfl

theorem UFOMove_loop_flags (env : Env) (ufo : Nat) (floatHeight : Int)
    (destWaypoint : waypoint_t) :
    ∀ (fuel : Nat) (st st1 : UFOMove.Locals),
      UFOMove.loop env ufo floatHeight destWaypoint fuel st = .ok st1 →
      ∀ q, (st1.w.mobjs q).flags = (st.w.mobjs q).flags := by
  intro fuel
  induction fuel with
  | zero =>
    intro st st1 h q
    unfold UFOMove.loop at h
    split_ifs at h
    cases h
    rfl
  | succ fuel ih =>
    intro st st1 h q
    unfold UFOMove.loop at h
    simp only at h
    split_ifs at h
    · exact ih _ _ h q
    · cases h; rfl
    · split at h
      · cases h; rfl
      · split at h
        · cases h; rfl
        · rw [ih _ _ h q]
          exact field_setMobj mobj_t.flags _ _ _ _ rfl
    · cases h; rfl

theorem K_GetSpecialUFOWaypoint_some (env : Env) (w : World) (ufo : Nat) (wp : waypoint_t)
    (h : K_GetSpecialUFOWaypoint env w (some ufo) = some wp) : (w.mobjs ufo).extravalue1 ≥ 0 := by
  by_contra hneg
  rw [K_GetSpecialUFOWaypoint_negative env w ufo (by omega)] at h
  cases h

/-- A move leaves the flags of the UFO as they were, or it reached the end: then the
waypoint index is -1 and the flags lost `MF_SPECIAL` and `MF_PICKUPFROMBELOW`. A move
from index -1 leaves the index at -1. -/
theorem UFOMove_flags (env : Env) (fuel : Nat) (w w1 : World) (ufo : Nat)
    (h : UFOMove env fuel w ufo = .ok w1) :
    ((w1.mobjs ufo).flags = (w.mobjs ufo).flags ∧
        ((w.mobjs ufo).extravalue1 = -1 → (w1.mobjs ufo).extravalue1 = -1)) ∨
      ((w1.mobjs ufo).flags
          = clearFlags (w.mobjs ufo).flags (env.MF_SPECIAL ||| env.MF_PICKUPFROMBELOW) ∧
        (w1.mobjs ufo).extravalue1 = -1) := by
  unfold UFOMove at h
  simp only at h
  split at h
  · rename_i cur dest hc hd
    have hpos := K_GetSpecialUFOWaypoint_some env w ufo cur hc
    split at h
    · cases h
    · rename_i st hloop
      have hl := UFOMove_loop_flags env ufo _ _ fuel _ st hloop ufo
      simp only at hl
      split_ifs at h
      · cases h
        right
        simp only [UFOMove.finish, disablePlayers_mobjs, setMobj_mobjs_same, UFOMoveTo, hl,
          and_self]
      · cases h
        left
        refine ⟨?_, fun hm => by omega⟩
        simp only [UFOMoveTo, setMobj_mobjs_same, hl]
  · cases h
    left
    simp

theorem thinker_tail_fields (env : Env) (w : World) (ufo q : Nat) :
    ((UFOUpdateSpeed env (UFOUpdateDistanceToFinish env (UFOUpdateAngle env w ufo) ufo)
        ufo).mobjs q).flags = (w.mobjs q).flags ∧
      ((UFOUpdateSpeed env (UFOUpdateDistanceToFinish env (UFOUpdateAngle env w ufo) ufo)
        ufo).mobjs q).extravalue1 = (w.mobjs q).extravalue1 := by
  have hd : ∀ (v : World), ((UFOUpdateDistanceToFinish env v ufo).mobjs q).flags = (v.mobjs q).flags
      ∧ ((UFOUpdateDistanceToFinish env v ufo).mobjs q).extravalue1 = (v.mobjs q).extravalue1 := by
    intro v
    unfold UFOUpdateDistanceToFinish
    split
    · split
      · exact ⟨rfl, rfl⟩
      · exact ⟨field_setMobj mobj_t.flags _ _ _ _ rfl,
          field_setMobj mobj_t.extravalue1 _ _ _ _ rfl⟩
    · exact ⟨rfl, rfl⟩
  constructor
  · unfold UFOUpdateSpeed
    rw [field_setMobj mobj_t.flags _ _ _ _ (by rfl), (hd _).1]
    unfold UFOUpdateAngle
    exact field_setMobj mobj_t.flags _ _ _ _ rfl
  · unfold UFOUpdateSpeed
    rw [field_setMobj mobj_t.extravalue1 _ _ _ _ (by rfl), (hd _).2]
    unfold UFOUpdateAngle
    exact field_setMobj mobj_t.extravalue1 _ _ _ _ rfl

/-- A thinker tic changes the flags and the waypoint index of the UFO as its move does. -/
theorem Obj_SpecialUFOThinker_flags (env : Env) (fuel : Nat) (w w1 : World) (ufo : Nat)
    (h : Obj_SpecialUFOThinker env fuel w ufo = .ok w1) :
    ((w1.mobjs ufo).flags = (w.mobjs ufo).flags ∧
        ((w.mobjs ufo).extravalue1 = -1 → (w1.mobjs ufo).extravalue1 = -1)) ∨
      ((w1.mobjs ufo).flags
          = clearFlags (w.mobjs ufo).flags (env.MF_SPECIAL ||| env.MF_PICKUPFROMBELOW) ∧
        (w1.mobjs ufo).extravalue1 = -1) := by
  unfold Obj_SpecialUFOThinker at h
  split at h
  · cases h
  · rename_i wm hmove
    have hm := UFOMove_flags env fuel w wm ufo hmove
    obtain ⟨ht1, ht2⟩ := thinker_tail_fields env wm ufo ufo
    have hfin : (w1.mobjs ufo).flags = (wm.mobjs ufo).flags ∧
        (w1.mobjs ufo).extravalue1 = (wm.mobjs ufo).extravalue1 := by
      simp only at h
      split_ifs at h
      · cases h
        simp only [setMobj_mobjs_same, UFOEmeraldVFX, ht1, ht2, and_self]
      · cases h
        simp only [setMobj_mobjs_same, ht1, ht2, and_self]
    rw [hfin.1, hfin.2]
    exact hm

theorem clearFlags_and_zero (f m s : Nat) (h : f &&& s = 0) : clearFlags f m &&& s = 0 := by
  apply Nat.eq_of_testBit_eq
  intro i
  have hbit := congrArg (fun x => Nat.testBit x i) h
  simp only [Nat.testBit_and, Nat.zero_testBit] at hbit
  simp only [clearFlags, Nat.testBit_and, Nat.zero_testBit]
  revert hbit
  generalize f.testBit i = fb
  generalize s.testBit i = sb
  generalize (4294967295 ^^^ m).testBit i = mb
  cases fb <;> cases sb <;> cases mb <;> decide

/-- What a damage event that returned did, for a UFO above pinch health. -/
theorem damage_result (env : Env) (fuel : Nat) (w : World) (ufo : Nat)
    (inflictor source : Option Nat) (damageType : Nat) (b : Bool) (w1 : World)
    (hh : (w.mobjs ufo).health > 1)
    (h : Obj_SpecialUFODamage env fuel w ufo inflictor source damageType = .ok (b, w1)) :
    ∃ dmg : Nat, GetUFODamage env w inflictor damageType = .ok dmg ∧
      ((b = false ∧ dmg = 0 ∧ w1 = w) ∨
      (b = true ∧ 0 < dmg ∧ (dmg : Int) ≥ (w.mobjs ufo).health - 1 ∧
        (w1.mobjs ufo).health = 1 ∧
        ∃ f, (w1.mobjs ufo).flags
          = clearFlags f env.MF_SHOOTABLE ||| (env.MF_SPECIAL ||| env.MF_PICKUPFROMBELOW)) ∨
      (b = true ∧ 0 < dmg ∧ (dmg : Int) < (w.mobjs ufo).health - 1 ∧
        (w1.mobjs ufo).health = (w.mobjs ufo).health - dmg ∧
        (w1.mobjs ufo).flags = (w.mobjs ufo).flags)) := by
  unfold Obj_SpecialUFODamage at h
  have hne : ¬ (w.mobjs ufo).health ≤ 1 := by omega
  simp only [UFOEmeraldChase, hne, decide_False, Bool.false_eq_true, if_false] at h
  split at h
  · cases h
  · rename_i damage hd
    refine ⟨damage, hd, ?_⟩
    split_ifs at h with hz
    · cases h
      exact Or.inl ⟨rfl, by omega, rfl⟩
    · split at h
      · cases h
      · rename_i w0 hs
        have hm := sourceSkin_mobjs env w w0 source hs
        obtain ⟨hb, hpinch, hhit⟩ := accept_result env fuel w0 ufo inflictor damage b w1 h
        rw [hm] at hpinch hhit
        by_cases hge : (damage : Int) ≥ (w.mobjs ufo).health - 1
        · obtain ⟨h1, h2, -⟩ := hpinch hge
          exact Or.inr (Or.inl ⟨hb, by omega, hge, h1, h2⟩)
        · obtain ⟨h1, h2, -⟩ := hhit (by omega)
          exact Or.inr (Or.inr ⟨hb, by omega, by omega, h1, h2⟩)

/-- The flags left by the pinch transition stay as they are, up to the bits that reaching
the finish clears, along every run of events. -/
theorem runEvents_after_pinch (env : Env) (ufo : Nat)
    (hfit : env.MF_PICKUPFROMBELOW < 4294967296) :
    ∀ (evs : List UFOEvent) (w w1 : World), runEvents env ufo evs w = .ok w1 →
      (w.mobjs ufo).health ≤ 1 → (w.mobjs ufo).flags &&& env.MF_SHOOTABLE = 0 →
      ((w.mobjs ufo).flags &&& env.MF_PICKUPFROMBELOW = env.MF_PICKUPFROMBELOW ∨
        ((w.mobjs ufo).extravalue1 = -1 ∧ (w.mobjs ufo).flags &&& env.MF_PICKUPFROMBELOW = 0)) →
      (w1.mobjs ufo).health ≤ 1 ∧ (w1.mobjs ufo).flags &&& env.MF_SHOOTABLE = 0 ∧
      ((w1.mobjs ufo).flags &&& env.MF_PICKUPFROMBELOW = env.MF_PICKUPFROMBELOW ∨
        ((w1.mobjs ufo).extravalue1 = -1 ∧
          (w1.mobjs ufo).flags &&& env.MF_PICKUPFROMBELOW = 0)) := by
  intro evs
  induction evs with
  | nil =>
    intro w w1 h hh hs hp
    cases h
    exact ⟨hh, hs, hp⟩
  | cons ev rest ih =>
    intro w w1 h hh hs hp
    simp only [runEvents] at h
    split at h
    · cases h
    · rename_i wa hev
      cases ev with
      | damage fuel inflictor source damageType =>
        have hrej : Obj_SpecialUFODamage env fuel w ufo inflictor source damageType
            = .ok (false, w) := by
          simp [Obj_SpecialUFODamage, UFOEmeraldChase, hh]
        simp only [UFOEvent.run, hrej] at hev
        cases hev
        exact ih _ _ h hh hs hp
      | think fuel =>
        simp only [UFOEvent.run] at hev
        have hhealth := Obj_SpecialUFOThinker_health env fuel w wa ufo hev ufo
        apply ih _ _ h (by omega)
        · rcases Obj_SpecialUFOThinker_flags env fuel w wa ufo hev with ⟨hf, -⟩ | ⟨hf, -⟩
          · rw [hf]; exact hs
          · rw [hf]; exact clearFlags_and_zero _ _ _ hs
        · rcases Obj_SpecialUFOThinker_flags env fuel w wa ufo hev with ⟨hf, he⟩ | ⟨hf, he⟩
          · rw [hf]
            rcases hp with hp | ⟨hp1, hp2⟩
            · exact Or.inl hp
            · exact Or.inr ⟨he hp1, hp2⟩
          · right
            refine ⟨he, ?_⟩
            rw [hf]
            exact clearFlags_and _ _ _ hfit (and_or_self_right _ _)

/-- C11 as stated fails: on the track the UFO has health 21 and heads for the finish
waypoint. The thrown orbinaut performs the pinch transition, after which
`MF_PICKUPFROMBELOW` is set; the next thinker tic reaches the finish, and the UFO no
longer carries `MF_PICKUPFROMBELOW`. -/
theorem runEvents_finish_drops_pickup :
    (runEvents trackEnv 0 [UFOEvent.damage 3 (some 4) (some 3) 0]
        (trackWorld 21 (84 * 65536) 2 4)).toOption.map
      (fun w => ((w.mobjs 0).health, (w.mobjs 0).flags &&& trackEnv.MF_PICKUPFROMBELOW))
      = some (1, trackEnv.MF_PICKUPFROMBELOW) ∧
    (runEvents trackEnv 0 [UFOEvent.damage 3 (some 4) (some 3) 0, UFOEvent.think 1]
        (trackWorld 21 (84 * 65536) 2 4)).toOption.map
      (fun w => ((w.mobjs 0).health, (w.mobjs 0).flags &&& trackEnv.MF_PICKUPFROMBELOW,
        (w.mobjs 0).extravalue1))
      = some (1, 0, -1) ∧
    trackEnv.MF_PICKUPFROMBELOW ≠ 0 :=
  ⟨rfl, rfl, by decide⟩

/-- C11 amended: a damage event on a UFO above pinch health returned true and left the
health at most 1, which is the pinch transition. In every state reached from there by
thinker tics and further damage events the UFO does not carry `MF_SHOOTABLE`, and it
carries `MF_PICKUPFROMBELOW` unless its waypoint index is -1 and the flag is clear, which
is the state a move that reached the finish leaves; in particular the flag is carried
whenever the waypoint index is not -1. -/
theorem flags_after_pinch (env : Env) (hflags : env.flagsDistinct)
    (hfit : env.MF_PICKUPFROMBELOW < 4294967296) (ufo fuel : Nat) (w0 w w1 : World)
    (inflictor source : Option Nat) (damageType : Nat) (evs : List UFOEvent)
    (hh : (w0.mobjs ufo).health > 1)
    (hr : Obj_SpecialUFODamage env fuel w0 ufo inflictor source damageType = .ok (true, w))
    (hp : (w.mobjs ufo).health ≤ 1)
    (hrun : runEvents env ufo evs w = .ok w1) :
    (w1.mobjs ufo).flags &&& env.MF_SHOOTABLE = 0 ∧
      ((w1.mobjs ufo).flags &&& env.MF_PICKUPFROMBELOW = env.MF_PICKUPFROMBELOW ∨
        ((w1.mobjs ufo).extravalue1 = -1 ∧
          (w1.mobjs ufo).flags &&& env.MF_PICKUPFROMBELOW = 0)) ∧
      ((w1.mobjs ufo).extravalue1 ≠ -1 →
        (w1.mobjs ufo).flags &&& env.MF_PICKUPFROMBELOW = env.MF_PICKUPFROMBELOW) := by
  obtain ⟨dmg, -, hcase⟩ := damage_result env fuel w0 ufo inflictor source damageType true w hh hr
  have hstart : (w.mobjs ufo).flags &&& env.MF_SHOOTABLE = 0 ∧
      (w.mobjs ufo).flags &&& env.MF_PICKUPFROMBELOW = env.MF_PICKUPFROMBELOW := by
    rcases hcase with ⟨hb, -⟩ | ⟨-, -, -, -, f, hf⟩ | ⟨-, -, hlt, hhealth, -⟩
    · cases hb
    · obtain ⟨p1, -, p3⟩ := pinch_flags f env.MF_SHOOTABLE env.MF_SPECIAL
        env.MF_PICKUPFROMBELOW hflags.1 hflags.2
      rw [hf]
      exact ⟨p1, p3⟩
    · rw [hhealth] at hp
      omega
  obtain ⟨-, h2, h3⟩ := runEvents_after_pinch env ufo hfit evs w w1 hrun hp hstart.1
    (Or.inl hstart.2)
  refine ⟨h2, h3, fun hne => ?_⟩
  rcases h3 with h3 | ⟨h3, -⟩
  · exact h3
  · exact absurd h3 hne

/-- Witness for C11 amended: the pinch transition of the counterexample followed by a
thinker tic that reaches the finish; `MF_SHOOTABLE` stays clear. -/
theorem flags_after_pinch_witness :
    ∃ w1, runEvents trackEnv 0 [UFOEvent.think 1] pinchedTrackWorld = .ok w1 ∧
      (w1.mobjs 0).flags &&& trackEnv.MF_SHOOTABLE = 0 := by
  have hok : (runEvents trackEnv 0 [UFOEvent.think 1] pinchedTrackWorld).toOption.isSome
      = true := rfl
  cases hrun : runEvents trackEnv 0 [UFOEvent.think 1] pinchedTrackWorld with
  | error e =>
    rw [hrun] at hok
    cases hok
  | ok w1 =>
    exact ⟨w1, rfl, (flags_after_pinch trackEnv (by decide) (by decide) 0 3
      (trackWorld 21 (84 * 65536) 2 4) pinchedTrackWorld w1 (some 4) (some 3) 0
      [UFOEvent.think 1] (by decide) rfl (by decide) hrun).1⟩

/-! ### The player scan -/

theorem scanStep_eq (env : Env) (w : World) (acc : Nat × Int) (i : Nat) :
    UFOUpdateSpeed.scanStep env w acc i
      = if UFOUpdateSpeed.playerValid w i = true ∧ (w.players i).distancetofinish < acc.1 then
          ((w.players i).distancetofinish, UFOUpdateSpeed.playerSpeed env (w.players i))
        else acc := by
  unfold UFOUpdateSpeed.scanStep UFOUpdateSpeed.playerValid UFOUpdateSpeed.playerSpeed
  cases h1 : w.playeringame i with
  | false => simp [h1]
  | true =>
    cases h2 : (w.players i).spectator with
    | true => simp [h1, h2]
    | false =>
      cases h3 : (w.players i).mo with
      | none => simp [h1, h2, h3]
      | some mo =>
        cases h4 : (w.mobjs mo).removed with
        | true => simp [h1, h2, h3, h4]
        | false => simp [h1, h2, h3, h4]

/-- The accumulator of the player loop after the players below `n`. -/
theorem scan_prefix (env : Env) (w : World) :
    ∀ n : Nat,
      (∀ i, i < n → UFOUpdateSpeed.playerValid w i = true →
        ((List.range n).foldl (UFOUpdateSpeed.scanStep env w) (UINT32_MAX, 0)).1
          ≤ (w.players i).distancetofinish) ∧
      (((List.range n).foldl (UFOUpdateSpeed.scanStep env w) (UINT32_MAX, 0)) = (UINT32_MAX, 0)
        ∨ ∃ i, i < n ∧ UFOUpdateSpeed.playerValid w i = true ∧
          (w.players i).distancetofinish
            = ((List.range n).foldl (UFOUpdateSpeed.scanStep env w) (UINT32_MAX, 0)).1 ∧
          (w.players i).distancetofinish < UINT32_MAX ∧
          ((List.range n).foldl (UFOUpdateSpeed.scanStep env w) (UINT32_MAX, 0)).2
            = UFOUpdateSpeed.playerSpeed env (w.players i) ∧
          ∀ j, j < i → UFOUpdateSpeed.playerValid w j = true →
            (w.players i).distancetofinish < (w.players j).distancetofinish) := by
  intro n
  induction n with
  | zero =>
    refine ⟨fun i hi => absurd hi (Nat.not_lt_zero i), Or.inl ?_⟩
    simp
  | succ n ih =>
    obtain ⟨hle, hatt⟩ := ih
    rw [List.range_succ, List.foldl_append, List.foldl_cons, List.foldl_nil, scanStep_eq]
    generalize (List.range n).foldl (UFOUpdateSpeed.scanStep env w) (UINT32_MAX, 0) = acc
      at hle hatt ⊢
    split_ifs with hc
    · obtain ⟨hv, hlt⟩ := hc
      refine ⟨fun i hi hvi => ?_, Or.inr ⟨n, Nat.lt_succ_self n, hv, rfl, ?_, rfl, ?_⟩⟩
      · rcases Nat.lt_succ_iff_lt_or_eq.mp hi with hi | hi
        · exact le_of_lt (lt_of_lt_of_le hlt (hle i hi hvi))
        · subst hi; exact Nat.le_refl _
      · rcases hatt with hatt | ⟨i, -, -, hi3, hi4, -⟩
        · rw [hatt] at hlt; exact hlt
        · omega
      · intro j hj hvj
        exact lt_of_lt_of_le hlt (hle j hj hvj)
    · refine ⟨fun i hi hvi => ?_, ?_⟩
      · rcases Nat.lt_succ_iff_lt_or_eq.mp hi with hi | hi
        · exact hle i hi hvi
        · subst hi
          have : ¬ (w.players i).distancetofinish < acc.1 := fun h => hc ⟨hvi, h⟩
          omega
      · rcases hatt with hatt | ⟨i, hi1, hi2, hi3, hi4, hi5, hi6⟩
        · exact Or.inl hatt
        · exact Or.inr ⟨i, Nat.lt_succ_of_lt hi1, hi2, hi3, hi4, hi5, hi6⟩

theorem scan_congr (env : Env) (w w1 : World) (hm : w1.mobjs = w.mobjs)
    (hg : w1.playeringame = w.playeringame)
    (hp : ∀ i, w1.players i = w.players i ∨ w.playeringame i = false ∨
      ((w.players i).spectator = true ∧ (w1.players i).spectator = true)) :
    UFOUpdateSpeed.scan env w1 = UFOUpdateSpeed.scan env w := by
  have hstep : ∀ acc i, UFOUpdateSpeed.scanStep env w1 acc i
      = UFOUpdateSpeed.scanStep env w acc i := by
    intro acc i
    unfold UFOUpdateSpeed.scanStep
    rw [hg, hm]
    rcases hp i with h | h | ⟨h, h1⟩
    · rw [h]
    · simp [h]
    · simp [h, h1]
  unfold UFOUpdateSpeed.scan
  congr 1
  funext acc i
  exact hstep acc i

/-- C18: `bestDist` is at most the distance of every player below `MAXPLAYERS` that is in
game, not a spectator and has a live object, and it is either the start value
`UINT32_MAX` (with `bestSpeed = 0`) or the distance of such a player; in that case
`bestSpeed` is the speed taken from the lowest-indexed such player at that distance: its
momentum length clamped to its kart speed, divided by `mapobjectscale`, times
`UFO_SPEEDFACTOR`. Players that are not in game or are spectators do not influence the
scan or the wanted speed, and when no player qualifies the wanted speed is `BASE x G`. -/
theorem UFOUpdateSpeed_scan_best (env : Env) (w : World) (ufo : Nat) :
    (∀ i, i < env.MAXPLAYERS → UFOUpdateSpeed.playerValid w i = true →
      (UFOUpdateSpeed.scan env w).1 ≤ (w.players i).distancetofinish) ∧
    (UFOUpdateSpeed.scan env w = (UINT32_MAX, 0)
      ∨ ∃ i, i < env.MAXPLAYERS ∧ UFOUpdateSpeed.playerValid w i = true ∧
        (w.players i).distancetofinish = (UFOUpdateSpeed.scan env w).1 ∧
        (w.players i).distancetofinish < UINT32_MAX ∧
        (UFOUpdateSpeed.scan env w).2
          = env.FixedMul
              (env.FixedDiv
                (min (env.R_PointToDist2 0 0 (w.players i).rmomx (w.players i).rmomy)
                  (env.K_GetKartSpeed (w.players i) false false))
                env.mapobjectscale)
              (FRACUNIT env * 3 / 4) ∧
        ∀ j, j < i → UFOUpdateSpeed.playerValid w j = true →
          (w.players i).distancetofinish < (w.players j).distancetofinish) ∧
    (∀ w1 : World, w1.mobjs = w.mobjs → w1.playeringame = w.playeringame →
      (∀ i, w1.players i = w.players i ∨ w.playeringame i = false ∨
        ((w.players i).spectator = true ∧ (w1.players i).spectator = true)) →
      UFOUpdateSpeed.scan env w1 = UFOUpdateSpeed.scan env w ∧
        UFOUpdateSpeed.wantedSpeed env w1 ufo = UFOUpdateSpeed.wantedSpeed env w ufo) ∧
    ((∀ i, i < env.MAXPLAYERS → UFOUpdateSpeed.playerValid w i = false) →
      UFOUpdateSpeed.wantedSpeed env w ufo = UFOUpdateSpeed.baseSpeed env) := by
  obtain ⟨h1, h2⟩ := scan_prefix env w env.MAXPLAYERS
  refine ⟨h1, h2, ?_, ?_⟩
  · intro w1 hm hg hp
    have hs := scan_congr env w w1 hm hg hp
    refine ⟨hs, ?_⟩
    simp only [UFOUpdateSpeed.wantedSpeed, UFOUpdateSpeed.distDelta, UFOUpdateSpeed.wantedDist,
      hs, hm]
  · intro hnone
    rcases h2 with h2 | ⟨i, hi, hv, -⟩
    · have h3 : (UFOUpdateSpeed.scan env w).1 = UINT32_MAX := by
        unfold UFOUpdateSpeed.scan
        rw [h2]
      simp only [UFOUpdateSpeed.wantedSpeed, h3, if_true]
    · rw [hnone i hi] at hv
      cases hv

/-- Witness for C18, scenario S1: the scan finds player 0 at distance 10000, whose speed
of 60 units gives `bestSpeed` 45 units. -/
theorem UFOUpdateSpeed_scan_best_witness :
    UFOUpdateSpeed.scan sampleEnv (sampleWorld 25 (45 * 65536) 9232 10000 (60 * 65536) 0)
      = (10000, 45 * 65536) := by
  rcases (UFOUpdateSpeed_scan_best sampleEnv
    (sampleWorld 25 (45 * 65536) 9232 10000 (60 * 65536) 0) 0).2.1 with h | _
  · exact absurd h (by decide)
  · decide

/-! ### Collision -/

/-- C19 as stated fails: the player of the sample world is not boost-ramming (sneaker
timer 0) and its object is at height 200, entirely above the UFO, whose top is at 100.
`Obj_PlayerUFOCollide` returns at the overhead test: no call of `K_KartBouncing` is made. -/
theorem Obj_PlayerUFOCollide_overhead_no_bounce :
    ((collideWorld (200 * 65536) 0).players 0).sneakertimer = 0 ∧
    ((collideWorld (200 * 65536) 0).mobjs 3).z
      > ((collideWorld (200 * 65536) 0).mobjs 0).z + ((collideWorld (200 * 65536) 0).mobjs 0).height ∧
    (Obj_PlayerUFOCollide sampleEnv sampleCollideEnv 3 (collideWorld (200 * 65536) 0) 0
        3).toOption.map (fun r => r.2) = some [] ∧
    EngineCall.K_KartBouncing 3 0 ∉ ([] : List EngineCall) :=
  ⟨rfl, by decide, rfl, by decide⟩

/-- C19 amended: in a contact in which the player is not boost-ramming (sneaker timer not
positive, or in pain, or flashing), `K_KartBouncing(player, ufo)` is called exactly when
the player is neither entirely above nor entirely below the UFO; it is then the last call,
preceded by the stumble when the player is in front of the UFO. When the player is
entirely above or entirely below, the function returns without any call. The game state
is unchanged in both cases. -/
theorem Obj_PlayerUFOCollide_not_ramming (env : Env) (cenv : CollideEnv) (fuel : Nat)
    (w : World) (ufo other pl : Nat) (hpl : (w.mobjs other).player = some pl)
    (hnr : (w.players pl).sneakertimer ≤ 0 ∨ cenv.P_PlayerInPain (w.players pl) = true
      ∨ (w.players pl).flashing ≠ 0) :
    (((w.mobjs other).z > (w.mobjs ufo).z + (w.mobjs ufo).height
        ∨ (w.mobjs other).z + (w.mobjs other).height < (w.mobjs ufo).z) →
      Obj_PlayerUFOCollide env cenv fuel w ufo other = .ok (w, [])) ∧
    (¬ (w.mobjs other).z > (w.mobjs ufo).z + (w.mobjs ufo).height →
      ¬ (w.mobjs other).z + (w.mobjs other).height < (w.mobjs ufo).z →
      Obj_PlayerUFOCollide env cenv fuel w ufo other
        = .ok (w,
            if cenv.AngleDelta (env.K_MomentumAngle (w.mobjs ufo))
                (cenv.R_PointToAngle2 (w.mobjs ufo).x (w.mobjs ufo).y (w.mobjs other).x
                  (w.mobjs other).y) < cenv.ANG60 then
              [EngineCall.K_StumblePlayer pl, EngineCall.K_KartBouncing other ufo]
            else [EngineCall.K_KartBouncing other ufo])) := by
  have hram : ¬ ((w.players pl).sneakertimer > 0 ∧ cenv.P_PlayerInPain (w.players pl) = false
      ∧ (w.players pl).flashing = 0) := by
    rintro ⟨h1, h2, h3⟩
    rcases hnr with h | h | h
    · omega
    · rw [h] at h2; cases h2
    · exact h h3
  constructor
  · intro hz
    unfold Obj_PlayerUFOCollide
    simp only [hpl, hram, if_false]
    rcases hz with hz | hz
    · simp only [hz, if_true]
    · split_ifs <;> rfl
  · intro h1 h2
    unfold Obj_PlayerUFOCollide
    simp only [hpl, hram, if_false, h1, h2]
    split_ifs <;> rfl

/-- Witness for C19 amended: the player object at height 50 overlaps the UFO and is
bounced (after the stumble, the contact being head on); at height 200 nothing is called. -/
theorem Obj_PlayerUFOCollide_not_ramming_witness :
    Obj_PlayerUFOCollide sampleEnv sampleCollideEnv 3 (collideWorld (50 * 65536) 0) 0 3
        = .ok (collideWorld (50 * 65536) 0,
            [EngineCall.K_StumblePlayer 0, EngineCall.K_KartBouncing 3 0]) ∧
      Obj_PlayerUFOCollide sampleEnv sampleCollideEnv 3 (collideWorld (200 * 65536) 0) 0 3
        = .ok (collideWorld (200 * 65536) 0, []) :=
  ⟨((Obj_PlayerUFOCollide_not_ramming sampleEnv sampleCollideEnv 3 (collideWorld (50 * 65536) 0)
      0 3 0 rfl (Or.inl (by decide))).2 (by decide) (by decide)).trans rfl,
    (Obj_PlayerUFOCollide_not_ramming sampleEnv sampleCollideEnv 3 (collideWorld (200 * 65536) 0)
      0 3 0 rfl (Or.inl (by decide))).1 (Or.inl (by decide))⟩

/-! ### Dismantling the pieces -/

theorem UFOKillPiece_killed (env : Env) (w : World) (p : Nat)
    (hv : UFOPieceValid w (some p) = true) :
    ((UFOKillPiece env w (some p)).mobjs p).health = 0 ∧
      ((UFOKillPiece env w (some p)).mobjs p).tics
        = (if (w.mobjs p).extravalue1 = UFO_PIECE_TYPE_STEM then 1 else env.TICRATE) ∧
      ((UFOKillPiece env w (some p)).mobjs p).flags
        = clearFlags (w.mobjs p).flags env.MF_NOGRAVITY ∧
      ∀ q, q ≠ p → (UFOKillPiece env w (some p)).mobjs q = w.mobjs q := by
  unfold UFOKillPiece
  simp only [hv]
  by_cases hs : (w.mobjs p).extravalue1 = UFO_PIECE_TYPE_STEM
  · simp only [hs, if_true]
    exact ⟨by simp, by simp, by simp, fun q hq => setMobj_mobjs_ne _ _ _ _ hq⟩
  · simp only [hs, if_false]
    exact ⟨by simp, by simp, by simp, fun q hq => setMobj_mobjs_ne _ _ _ _ hq⟩

/-- After the kill loop every piece of the chain is as `UFOKillPiece` leaves it (health 0,
expiry set, `MF_NOGRAVITY` cleared, links kept) and every object off the chain is as it
was. -/
theorem UFOKillPieces_loop_dismantles (env : Env) :
    ∀ (ch : List Nat) (fuel : Nat) (piece : Option Nat) (w : World),
      isPieceChain w piece ch = true → ch.length < fuel →
      ∃ w1, UFOKillPieces.loop env fuel piece w = .ok w1 ∧
        (∀ q, q ∈ ch → (w1.mobjs q).health = 0 ∧
          (w1.mobjs q).tics
            = (if (w.mobjs q).extravalue1 = UFO_PIECE_TYPE_STEM then 1 else env.TICRATE) ∧
          (w1.mobjs q).flags = clearFlags (w.mobjs q).flags env.MF_NOGRAVITY) ∧
        (∀ q, q ∉ ch → w1.mobjs q = w.mobjs q) := by
  intro ch
  induction ch with
  | nil =>
    intro fuel piece w h hf
    obtain ⟨f, rfl⟩ : ∃ f, fuel = f + 1 := ⟨fuel - 1, by simp at hf; omega⟩
    rw [isPieceChain_nil] at h
    refine ⟨w, ?_, fun q hq => absurd hq (List.not_mem_nil q), fun _ _ => rfl⟩
    unfold UFOKillPieces.loop
    split
    · rename_i hv; rw [h] at hv; cases hv
    · rfl
  | cons p rest ih =>
    intro fuel piece w h hf
    obtain ⟨f, rfl⟩ : ∃ f, fuel = f + 1 := ⟨fuel - 1, by simp at hf; omega⟩
    have hnd := isPieceChain_nodup w _ _ h
    rw [isPieceChain_cons] at h
    obtain ⟨rfl, hv, hr⟩ := h
    have hpn : p ∉ rest := (List.nodup_cons.mp hnd).1
    obtain ⟨hk1, hk2, hk3, hother⟩ := UFOKillPiece_killed env w p hv
    have hnext : ((UFOKillPiece env w (some p)).mobjs p).hnext = (w.mobjs p).hnext :=
      (sansKill_fields _ _ (UFOKillPiece_frame env w (some p) p)).2.1
    have hr1 : isPieceChain (UFOKillPiece env w (some p)) (w.mobjs p).hnext rest = true := by
      have key : ∀ (l : List Nat) (x : Option Nat), p ∉ l → isPieceChain w x l = true →
          isPieceChain (UFOKillPiece env w (some p)) x l = true := by
        intro l
        induction l with
        | nil =>
          intro x _ hx
          rw [isPieceChain_nil] at hx ⊢
          cases hc : UFOPieceValid (UFOKillPiece env w (some p)) x with
          | false => rfl
          | true => rw [UFOKillPiece_valid env w (some p) x hc] at hx; cases hx
        | cons a l ihl =>
          intro x hpl hx
          rw [isPieceChain_cons] at hx ⊢
          obtain ⟨rfl, hva, hra⟩ := hx
          have hap : a ≠ p := fun e => hpl (e ▸ List.mem_cons_self _ _)
          refine ⟨rfl, ?_, ?_⟩
          · simpa [UFOPieceValid, hother a hap] using hva
          · rw [hother a hap]
            exact ihl _ (fun hm => hpl (List.mem_cons_of_mem _ hm)) hra
      exact key rest _ hpn hr
    obtain ⟨w1, hloop, hk, hfr⟩ := ih f _ _ hr1 (by simp at hf; omega)
    refine ⟨w1, ?_, ?_, ?_⟩
    · unfold UFOKillPieces.loop
      simp only [hv, hnext]
      exact hloop
    · intro q hq
      rcases List.mem_cons.mp hq with rfl | hq
      · rw [hfr q hpn]
        exact ⟨hk1, hk2, hk3⟩
      · have hqp : q ≠ p := fun e => hpn (e ▸ hq)
        have := hk q hq
        rw [hother q hqp] at this
        exact this
    · intro q hq
      have hqp : q ≠ p := fun e => hq (e ▸ List.mem_cons_self _ _)
      have hqr : q ∉ rest := fun hm => hq (List.mem_cons_of_mem _ hm)
      rw [hfr q hqr, hother q hqp]

theorem clearFlags_and_self (f m : Nat) (hm : m < 4294967296) : clearFlags f m &&& m = 0 := by
  apply clearFlags_and f m m hm
  apply Nat.eq_of_testBit_eq
  intro i
  simp only [Nat.testBit_and]
  cases m.testBit i <;> rfl

/-- C14: the pieces of the UFO are the chain `ch` of valid pieces that starts at its head
slot. `UFOKillPieces` returns; after it every piece of the chain has health 0, `tics` 1
when it is the stem and `TICRATE` otherwise, and `MF_NOGRAVITY` clear; the head slot of the
UFO and the `hnext` and `hprev` links of every object are as before the call. -/
theorem UFOKillPieces_dismantles (env : Env) (hfit : env.MF_NOGRAVITY < 4294967296) (w : World)
    (ufo fuel : Nat) (ch : List Nat)
    (hch : isPieceChain w (w.mobjs ufo).hnext ch = true) (hfuel : ch.length < fuel) :
    ∃ w1, UFOKillPieces env fuel w ufo = .ok w1 ∧
      (∀ q, q ∈ ch → (w1.mobjs q).health = 0 ∧
        (w1.mobjs q).tics
          = (if (w.mobjs q).extravalue1 = UFO_PIECE_TYPE_STEM then 1 else env.TICRATE) ∧
        (w1.mobjs q).flags &&& env.MF_NOGRAVITY = 0) ∧
      (w1.mobjs ufo).hnext = (w.mobjs ufo).hnext ∧
      (∀ q, (w1.mobjs q).hnext = (w.mobjs q).hnext ∧ (w1.mobjs q).hprev = (w.mobjs q).hprev) := by
  obtain ⟨w1, hloop, hk, -⟩ := UFOKillPieces_loop_dismantles env ch fuel _ w hch hfuel
  obtain ⟨hfr, -⟩ := UFOKillPieces_loop_frame env fuel _ w w1 hloop
  refine ⟨w1, hloop, fun q hq => ?_, (sansKill_fields _ _ (hfr ufo)).2.1,
    fun q => ⟨(sansKill_fields _ _ (hfr q)).2.1, (sansKill_fields _ _ (hfr q)).2.2.1⟩⟩
  obtain ⟨h1, h2, h3⟩ := hk q hq
  refine ⟨h1, h2, ?_⟩
  rw [h3]
  exact clearFlags_and_self _ _ hfit

/-- Witness for C14: the chain H, A, B, C of scenario S6; after the call the arm B has
health 0 and `tics = TICRATE`, the stem C has `tics = 1`, and the links are as before. -/
theorem UFOKillPieces_dismantles_witness :
    ∃ w1, UFOKillPieces sampleEnv 5 chainWorld 0 = .ok w1 ∧
      (w1.mobjs 3).health = 0 ∧ (w1.mobjs 3).tics = 35 ∧ (w1.mobjs 4).tics = 1 ∧
      (w1.mobjs 3).hnext = some 4 := by
  obtain ⟨w1, h1, h2, -, h4⟩ := UFOKillPieces_dismantles sampleEnv (by decide) chainWorld 0 5
    [1, 2, 3, 4] (by decide) (by decide)
  exact ⟨w1, h1, (h2 3 (by decide)).1, (h2 3 (by decide)).2.1, (h2 4 (by decide)).2.1,
    (h4 3).1⟩

/-! ### Unlinking a piece -/

theorem setNext_hnext (w : World) (p q : Nat) (v : Option Nat) :
    ((w.setNext p v).mobjs q).hnext = if q = p then v else (w.mobjs q).hnext := by
  by_cases h : q = p
  · subst h; simp [World.setNext]
  · simp [World.setNext, setMobj_mobjs_ne _ _ _ _ h, h]

theorem setNext_hprev (w : World) (p q : Nat) (v : Option Nat) :
    ((w.setNext p v).mobjs q).hprev = (w.mobjs q).hprev := by
  by_cases h : q = p
  · subst h; simp [World.setNext]
  · simp [World.setNext, setMobj_mobjs_ne _ _ _ _ h]

theorem setNext_removed (w : World) (p q : Nat) (v : Option Nat) :
    ((w.setNext p v).mobjs q).removed = (w.mobjs q).removed := by
  by_cases h : q = p
  · subst h; simp [World.setNext]
  · simp [World.setNext, setMobj_mobjs_ne _ _ _ _ h]

theorem setNext_target (w : World) (p q : Nat) (v : Option Nat) :
    ((w.setNext p v).mobjs q).target = (w.mobjs q).target := by
  by_cases h : q = p
  · subst h; simp [World.setNext]
  · simp [World.setNext, setMobj_mobjs_ne _ _ _ _ h]

theorem setPrev_hprev (w : World) (p q : Nat) (v : Option Nat) :
    ((w.setPrev p v).mobjs q).hprev = if q = p then v else (w.mobjs q).hprev := by
  by_cases h : q = p
  · subst h; simp [World.setPrev]
  · simp [World.setPrev, setMobj_mobjs_ne _ _ _ _ h, h]

theorem setPrev_hnext (w : World) (p q : Nat) (v : Option Nat) :
    ((w.setPrev p v).mobjs q).hnext = (w.mobjs q).hnext := by
  by_cases h : q = p
  · subst h; simp [World.setPrev]
  · simp [World.setPrev, setMobj_mobjs_ne _ _ _ _ h]

theorem setPrev_removed (w : World) (p q : Nat) (v : Option Nat) :
    ((w.setPrev p v).mobjs q).removed = (w.mobjs q).removed := by
  by_cases h : q = p
  · subst h; simp [World.setPrev]
  · simp [World.setPrev, setMobj_mobjs_ne _ _ _ _ h]

theorem setPrev_target (w : World) (p q : Nat) (v : Option Nat) :
    ((w.setPrev p v).mobjs q).target = (w.mobjs q).target := by
  by_cases h : q = p
  · subst h; simp [World.setPrev]
  · simp [World.setPrev, setMobj_mobjs_ne _ _ _ _ h]

theorem liveOrNull_congr (w w1 : World) (h : ∀ q, (w1.mobjs q).removed = (w.mobjs q).removed)
    (p : Option Nat) : liveOrNull w1 p = liveOrNull w p := by
  cases p with
  | none => rfl
  | some a => simp [liveOrNull, h a]

theorem liveOrNull_setNext (w : World) (p : Nat) (v x : Option Nat) :
    liveOrNull (w.setNext p v) x = liveOrNull w x :=
  liveOrNull_congr _ _ (fun q => setNext_removed w p q v) x

theorem liveOrNull_setPrev (w : World) (p : Nat) (v x : Option Nat) :
    liveOrNull (w.setPrev p v) x = liveOrNull w x :=
  liveOrNull_congr _ _ (fun q => setPrev_removed w p q v) x

theorem liveOrNull_live (w : World) (p : Option Nat)
    (h : ∀ a, p = some a → (w.mobjs a).removed = false) : liveOrNull w p = p := by
  cases p with
  | none => rfl
  | some a => simp [liveOrNull, h a rfl]

/-- `Obj_UFOPieceRemoved` changes no `removed` flag and no owner. -/
theorem Obj_UFOPieceRemoved_frame (w : World) (P q : Nat) :
    ((Obj_UFOPieceRemoved w P).mobjs q).removed = (w.mobjs q).removed ∧
      ((Obj_UFOPieceRemoved w P).mobjs q).target = (w.mobjs q).target := by
  unfold Obj_UFOPieceRemoved
  simp only [setNext_removed, setPrev_removed, setNext_target, setPrev_target]
  repeat' split
  all_goals simp only [setNext_removed, setPrev_removed, setNext_target, setPrev_target,
    and_self]

/-- The links after `Obj_UFOPieceRemoved`, object by object, when the piece `P` has the
live owner `ufo` and its neighbours are live or null and distinct. -/
theorem Obj_UFOPieceRemoved_links (w : World) (P ufo : Nat) (prev next : Option Nat)
    (ht : (w.mobjs P).target = some ufo) (hn : (w.mobjs P).hnext = next)
    (hp : (w.mobjs P).hprev = prev) (hul : (w.mobjs ufo).removed = false)
    (hpl : ∀ a, prev = some a → (w.mobjs a).removed = false ∧ a ≠ P ∧ a ≠ ufo)
    (hnl : ∀ b, next = some b → (w.mobjs b).removed = false ∧ b ≠ P ∧ b ≠ ufo)
    (hP : P ≠ ufo) (q : Nat) :
    ((Obj_UFOPieceRemoved w P).mobjs q).hnext =
        (if q = P then none
         else if prev = some q then next
         else if q = ufo ∧ (w.mobjs ufo).hnext = some P then next
         else (w.mobjs q).hnext) ∧
      ((Obj_UFOPieceRemoved w P).mobjs q).hprev =
        (if q = P then none
         else if next = some q then prev
         else (w.mobjs q).hprev) := by
  have hsym : (some P = (w.mobjs ufo).hnext) ↔ ((w.mobjs ufo).hnext = some P) :=
    ⟨fun e => e.symm, fun e => e.symm⟩
  cases prev with
  | none =>
    cases next with
    | none =>
      unfold Obj_UFOPieceRemoved
      simp only [ht, hn, hp, liveOrNull, hul, if_true, hsym]
      by_cases hh : (w.mobjs ufo).hnext = some P
      · simp only [hh, if_true, setNext_hnext, setPrev_hnext, setNext_hprev, setPrev_hprev]
        by_cases hq : q = P
        · simp [hq]
        · by_cases hu : q = ufo
          · simp [hq, hu, hh]
          · simp [hq, hu]
      · simp only [hh, if_false, setNext_hnext, setPrev_hnext, setNext_hprev, setPrev_hprev]
        by_cases hq : q = P
        · simp [hq]
        · simp [hq]
    | some b =>
      obtain ⟨hb1, hb2, hb3⟩ := hnl b rfl
      unfold Obj_UFOPieceRemoved
      simp only [ht, hn, hp, liveOrNull, hul, hb1, if_true, hsym, setPrev_hnext, setPrev_removed]
      by_cases hh : (w.mobjs ufo).hnext = some P
      · simp only [hh, if_true, setNext_hnext, setPrev_hnext, setNext_hprev, setPrev_hprev]
        by_cases hq : q = P
        · simp [hq]
        · by_cases hu : q = ufo
          · subst hu; simp [hq, hh, Ne.symm hb3, hb3]
          · by_cases hqb : q = b
            · subst hqb; simp [hq, hu]
            · simp [hq, hu, hqb, Ne.symm hqb]
      · simp only [hh, if_false, setNext_hnext, setPrev_hnext, setNext_hprev, setPrev_hprev]
        by_cases hq : q = P
        · simp [hq]
        · by_cases hqb : q = b
          · subst hqb; simp [hq]
          · simp [hq, hqb, Ne.symm hqb]
  | some a =>
    obtain ⟨ha1, ha2, ha3⟩ := hpl a rfl
    cases next with
    | none =>
      unfold Obj_UFOPieceRemoved
      simp only [ht, hn, hp, liveOrNull, hul, ha1, if_true, hsym, setNext_hnext, setNext_removed,
        Ne.symm ha3, if_false]
      by_cases hh : (w.mobjs ufo).hnext = some P
      · simp only [hh, if_true, setNext_hnext, setPrev_hnext, setNext_hprev, setPrev_hprev]
        by_cases hq : q = P
        · simp [hq]
        · by_cases hu : q = ufo
          · subst hu; simp [hq, hh, Ne.symm ha3, ha3]
          · by_cases hqa : q = a
            · subst hqa; simp [hq, hu]
            · simp [hq, hu, hqa, Ne.symm hqa]
      · simp only [hh, if_false, setNext_hnext, setPrev_hnext, setNext_hprev, setPrev_hprev]
        by_cases hq : q = P
        · simp [hq]
        · by_cases hqa : q = a
          · subst hqa; simp [hq]
          · simp [hq, hqa, Ne.symm hqa]
    | some b =>
      obtain ⟨hb1, hb2, hb3⟩ := hnl b rfl
      unfold Obj_UFOPieceRemoved
      simp only [ht, hn, hp, liveOrNull, hul, ha1, hb1, if_true, hsym, setNext_hnext,
        setPrev_hnext, setNext_removed, setPrev_removed, Ne.symm ha3, if_false]
      by_cases hh : (w.mobjs ufo).hnext = some P
      · simp only [hh, if_true, setNext_hnext, setPrev_hnext, setNext_hprev, setPrev_hprev]
        by_cases hq : q = P
        · simp [hq]
        · by_cases hu : q = ufo
          · subst hu; simp [hq, hh, Ne.symm ha3, ha3, Ne.symm hb3, hb3]
          · by_cases hqa : q = a
            · subst hqa; simp only [hq, hu, if_true, if_false, false_and, true_and]
              by_cases e : q = b
              · subst e; simp
              · simp [e, Ne.symm e]
            · by_cases hqb : q = b
              · subst hqb; simp [hq, hu, hqa, Ne.symm hqa]
              · simp [hq, hu, hqa, Ne.symm hqa, hqb, Ne.symm hqb]
      · simp only [hh, if_false, setNext_hnext, setPrev_hnext, setNext_hprev, setPrev_hprev]
        by_cases hq : q = P
        · simp [hq]
        · by_cases hqa : q = a
          · subst hqa; simp only [hq, if_true, if_false, false_and, true_and]
            by_cases e : q = b
            · subst e; simp
            · simp [e, Ne.symm e]
          · by_cases hqb : q = b
            · subst hqb; simp [hq, hqa, Ne.symm hqa]
            · simp [hq, hqa, Ne.symm hqa, hqb, Ne.symm hqb]

/-! ### Well-formed piece lists -/

theorem pieceListWellFormed_iff (w : World) (ufo : Nat) (ch : List Nat) :
    pieceListWellFormed w ufo ch ↔
      (w.mobjs ufo).removed = false ∧ ufo ∉ ch ∧ ch.Nodup ∧ (w.mobjs ufo).hnext = ch[0]? ∧
        ∀ j q, ch[j]? = some q →
          (w.mobjs q).removed = false ∧ (w.mobjs q).target = some ufo ∧
          (w.mobjs q).hnext = ch[j + 1]? ∧
          (w.mobjs q).hprev = (if j = 0 then none else ch[j - 1]?) := by
  unfold pieceListWellFormed
  rw [List.head?_eq_getElem?]
  constructor
  · rintro ⟨h1, h2, h3, h4, h5⟩
    refine ⟨h1, h2, h3, h4, ?_⟩
    intro j q hq
    obtain ⟨hj, rfl⟩ := List.getElem?_eq_some.mp hq
    simpa using h5 ⟨j, hj⟩
  · rintro ⟨h1, h2, h3, h4, h5⟩
    refine ⟨h1, h2, h3, h4, ?_⟩
    intro i
    simpa using h5 i.val (ch.get i) (by simp)

theorem nodup_index_inj (ch : List Nat) (h : ch.Nodup) (i j q : Nat)
    (hi : ch[i]? = some q) (hj : ch[j]? = some q) : i = j := by
  obtain ⟨hi1, hi2⟩ := List.getElem?_eq_some.mp hi
  obtain ⟨hj1, hj2⟩ := List.getElem?_eq_some.mp hj
  exact (h.getElem_inj_iff).mp (hi2.trans hj2.symm)

theorem mem_of_index (ch : List Nat) (i q : Nat) (hi : ch[i]? = some q) : q ∈ ch :=
  List.mem_iff_getElem?.mpr ⟨i, hi⟩

/-- The links after unlinking the piece at position `k` of a well-formed piece list. -/
theorem pieceListWellFormed_unlink_links (w : World) (ufo : Nat) (ch : List Nat)
    (h : pieceListWellFormed w ufo ch) (k P : Nat) (hk : ch[k]? = some P) (q : Nat) :
    ((Obj_UFOPieceRemoved w P).mobjs q).hnext =
        (if q = P then none
         else if (if k = 0 then none else ch[k - 1]?) = some q then ch[k + 1]?
         else if q = ufo ∧ k = 0 then ch[k + 1]?
         else (w.mobjs q).hnext) ∧
      ((Obj_UFOPieceRemoved w P).mobjs q).hprev =
        (if q = P then none
         else if ch[k + 1]? = some q then (if k = 0 then none else ch[k - 1]?)
         else (w.mobjs q).hprev) := by
  obtain ⟨h1, h2, h3, h4, h5⟩ := (pieceListWellFormed_iff w ufo ch).mp h
  obtain ⟨-, hPt, hPn, hPp⟩ := h5 k P hk
  have hPu : P ≠ ufo := fun e => h2 (e ▸ mem_of_index ch k P hk)
  have hhead : ((w.mobjs ufo).hnext = some P) ↔ k = 0 := by
    rw [h4]
    constructor
    · intro e; exact (nodup_index_inj ch h3 0 k P e hk).symm
    · intro e; subst e; exact hk
  have key := Obj_UFOPieceRemoved_links w P ufo (if k = 0 then none else ch[k - 1]?) ch[k + 1]?
    hPt hPn hPp h1
    (fun a ha => by
      by_cases hk0 : k = 0
      · simp [hk0] at ha
      · simp only [hk0, if_false] at ha
        refine ⟨(h5 _ a ha).1, fun e => ?_, fun e => h2 (e ▸ mem_of_index ch _ a ha)⟩
        have := nodup_index_inj ch h3 _ _ P (e ▸ ha) hk
        omega)
    (fun b hb => by
      refine ⟨(h5 _ b hb).1, fun e => ?_, fun e => h2 (e ▸ mem_of_index ch _ b hb)⟩
      have := nodup_index_inj ch h3 _ _ P (e ▸ hb) hk
      omega)
    hPu q
  simp only [hhead] at key
  exact key

/-- Unlinking the piece at position `k` of a well-formed piece list leaves the well-formed
piece list without that position. -/
theorem pieceListWellFormed_unlink (w : World) (ufo : Nat) (ch : List Nat)
    (h : pieceListWellFormed w ufo ch) (k P : Nat) (hk : ch[k]? = some P) :
    pieceListWellFormed (Obj_UFOPieceRemoved w P) ufo (ch.eraseIdx k) := by
  have hl := pieceListWellFormed_unlink_links w ufo ch h k P hk
  obtain ⟨h1, h2, h3, h4, h5⟩ := (pieceListWellFormed_iff w ufo ch).mp h
  have hPu : P ≠ ufo := fun e => h2 (e ▸ mem_of_index ch k P hk)
  rw [pieceListWellFormed_iff]
  refine ⟨?_, ?_, ?_, ?_, ?_⟩
  · rw [(Obj_UFOPieceRemoved_frame w P ufo).1]; exact h1
  · exact fun hm => h2 ((List.eraseIdx_sublist ch k).subset hm)
  · exact h3.sublist (List.eraseIdx_sublist ch k)
  · rw [(hl ufo).1, List.getElem?_eraseIdx]
    have hnp : ∀ i, ch[i]? ≠ some ufo := fun i e => h2 (mem_of_index ch i ufo e)
    by_cases hk0 : k = 0
    · subst hk0
      simp [Ne.symm hPu]
    · have : 0 < k := Nat.pos_of_ne_zero hk0
      simp [Ne.symm hPu, hk0, hnp, this, h4]
  · intro j q hq
    rw [List.getElem?_eraseIdx] at hq
    have hqu : q ≠ ufo := by
      intro e
      split_ifs at hq
      · exact h2 (e ▸ mem_of_index ch _ q hq)
      · exact h2 (e ▸ mem_of_index ch _ q hq)
    refine ⟨?_, ?_, ?_, ?_⟩
    · rw [(Obj_UFOPieceRemoved_frame w P q).1]
      split_ifs at hq
      · exact (h5 _ q hq).1
      · exact (h5 _ q hq).1
    · rw [(Obj_UFOPieceRemoved_frame w P q).2]
      split_ifs at hq
      · exact (h5 _ q hq).2.1
      · exact (h5 _ q hq).2.1
    · rw [(hl q).1, List.getElem?_eraseIdx]
      by_cases hjk : j < k
      · simp only [hjk, if_true] at hq
        have hqP : q ≠ P := fun e => by
          have := nodup_index_inj ch h3 _ _ P (e ▸ hq) hk
          omega
        have hk0 : k ≠ 0 := by omega
        simp only [hqP, hk0, if_false, hqu, false_and]
        by_cases hj1 : j + 1 < k
        · have hne : ch[k - 1]? ≠ some q := fun e => by
            have := nodup_index_inj ch h3 _ _ q e hq
            omega
          simp only [hne, hj1, if_false, if_true]
          exact (h5 _ q hq).2.2.1
        · have hjeq : k - 1 = j := by omega
          simp only [hjeq, hq, hj1, if_true, if_false]
          have : j + 1 = k := by omega
          rw [this]
      · simp only [hjk, if_false] at hq
        have hqP : q ≠ P := fun e => by
          have := nodup_index_inj ch h3 _ _ P (e ▸ hq) hk
          omega
        have hj1 : ¬ j + 1 < k := by omega
        have hne : (if k = 0 then none else ch[k - 1]?) ≠ some q := by
          intro e
          by_cases hk0 : k = 0
          · simp [hk0] at e
          · simp only [hk0, if_false] at e
            have := nodup_index_inj ch h3 _ _ q e hq
            omega
        simp only [hqP, hne, hqu, hj1, if_false, false_and]
        exact (h5 _ q hq).2.2.1
    · rw [(hl q).2]
      by_cases hjk : j < k
      · simp only [hjk, if_true] at hq
        have hqP : q ≠ P := fun e => by
          have := nodup_index_inj ch h3 _ _ P (e ▸ hq) hk
          omega
        have hne : ch[k + 1]? ≠ some q := fun e => by
          have := nodup_index_inj ch h3 _ _ q e hq
          omega
        simp only [hqP, hne, if_false]
        rw [(h5 _ q hq).2.2.2]
        by_cases hj0 : j = 0
        · simp [hj0]
        · have : j - 1 < k := by omega
          simp [hj0, List.getElem?_eraseIdx, this]
      · simp only [hjk, if_false] at hq
        have hqP : q ≠ P := fun e => by
          have := nodup_index_inj ch h3 _ _ P (e ▸ hq) hk
          omega
        by_cases hje : j = k
        · subst hje
          simp only [hqP, hq, if_true, if_false]
          by_cases hj0 : j = 0
          · simp [hj0]
          · have : j - 1 < j := by omega
            simp [hj0, List.getElem?_eraseIdx, this]
        · have hne : ch[k + 1]? ≠ some q := fun e => by
            have := nodup_index_inj ch h3 _ _ q e hq
            omega
          have hj0 : j ≠ 0 := by omega
          have hlt : ¬ j - 1 < k := by omega
          have hjj : j - 1 + 1 = j := by omega
          simp only [hqP, hne, if_false, hj0, List.getElem?_eraseIdx, hlt, hjj]
          rw [(h5 _ q hq).2.2.2]
          simp

theorem pieceListWellFormed_erase (w : World) (ufo : Nat) (ch : List Nat)
    (h : pieceListWellFormed w ufo ch) (P : Nat) (hP : P ∈ ch) :
    pieceListWellFormed (Obj_UFOPieceRemoved w P) ufo (ch.erase P) := by
  obtain ⟨k, hk⟩ := List.mem_iff_getElem?.mp hP
  obtain ⟨hk1, rfl⟩ := List.getElem?_eq_some.mp hk
  rw [List.Nodup.erase_getElem h.2.2.1 k hk1]
  exact pieceListWellFormed_unlink w ufo ch h k _ hk

/-- C12: the piece list of the UFO is the well-formed list `ch` and `P` is one of its
pieces. After `Obj_UFOPieceRemoved` on `P`, the former previous piece (when there is one)
has the former next of `P` as its next, the former next piece (when there is one) has the
former previous of `P` as its previous, the head slot of the UFO is the former next of `P`
when `P` was the head and is unchanged otherwise, both links of `P` are null, and the piece
list of the UFO is well formed and is `ch` with `P` taken out, the other pieces in their
order. -/
theorem Obj_UFOPieceRemoved_unlinks (w : World) (ufo : Nat) (ch : List Nat) (P : Nat)
    (hwf : pieceListWellFormed w ufo ch) (hP : P ∈ ch) :
    (∀ a, (w.mobjs P).hprev = some a →
        ((Obj_UFOPieceRemoved w P).mobjs a).hnext = (w.mobjs P).hnext) ∧
      (∀ b, (w.mobjs P).hnext = some b →
        ((Obj_UFOPieceRemoved w P).mobjs b).hprev = (w.mobjs P).hprev) ∧
      ((Obj_UFOPieceRemoved w P).mobjs ufo).hnext =
        (if (w.mobjs ufo).hnext = some P then (w.mobjs P).hnext else (w.mobjs ufo).hnext) ∧
      ((Obj_UFOPieceRemoved w P).mobjs P).hprev = none ∧
      ((Obj_UFOPieceRemoved w P).mobjs P).hnext = none ∧
      pieceListWellFormed (Obj_UFOPieceRemoved w P) ufo (ch.erase P) ∧
      (ch.erase P).Sublist ch := by
  obtain ⟨k, hk⟩ := List.mem_iff_getElem?.mp hP
  have hl := pieceListWellFormed_unlink_links w ufo ch hwf k P hk
  obtain ⟨h1, h2, h3, h4, h5⟩ := (pieceListWellFormed_iff w ufo ch).mp hwf
  obtain ⟨-, -, hPn, hPp⟩ := h5 k P hk
  have hPu : P ≠ ufo := fun e => h2 (e ▸ mem_of_index ch k P hk)
  have hnp : ∀ i, ch[i]? ≠ some ufo := fun i e => h2 (mem_of_index ch i ufo e)
  refine ⟨?_, ?_, ?_, ?_, ?_, pieceListWellFormed_erase w ufo ch hwf P hP,
    List.erase_sublist P ch⟩
  · intro a ha
    rw [hPp] at ha
    have haP : a ≠ P := fun e => by
      by_cases hk0 : k = 0
      · simp [hk0] at ha
      · simp only [hk0, if_false] at ha
        have := nodup_index_inj ch h3 _ _ P (e ▸ ha) hk
        omega
    rw [(hl a).1, hPn]
    simp only [haP, ha, if_true, if_false]
  · intro b hb
    rw [hPn] at hb
    have hbP : b ≠ P := fun e => by
      have := nodup_index_inj ch h3 _ _ P (e ▸ hb) hk
      omega
    rw [(hl b).2, hPp]
    simp only [hbP, hb, if_true, if_false]
  · rw [(hl ufo).1, hPn, h4]
    by_cases hk0 : k = 0
    · subst hk0
      simp [Ne.symm hPu, hk]
    · have hne : ch[0]? ≠ some P := fun e => hk0 (nodup_index_inj ch h3 0 k P e hk).symm
      simp [Ne.symm hPu, hk0, hnp, hne, h4]
  · rw [(hl P).2]; simp
  · rw [(hl P).1]; simp

/-- Witness for C12, scenario S6: in the chain H, A, B, C (addresses 1, 2, 3, 4) unlinking
B gives `A.next = C`, `C.prev = A`, `B.prev = B.next = null`, and the head slot stays H. -/
theorem Obj_UFOPieceRemoved_unlinks_witness :
    ((Obj_UFOPieceRemoved chainWorld 3).mobjs 2).hnext = some 4 ∧
      ((Obj_UFOPieceRemoved chainWorld 3).mobjs 4).hprev = some 2 ∧
      ((Obj_UFOPieceRemoved chainWorld 3).mobjs 3).hprev = none ∧
      ((Obj_UFOPieceRemoved chainWorld 3).mobjs 3).hnext = none ∧
      ((Obj_UFOPieceRemoved chainWorld 3).mobjs 0).hnext = some 1 ∧
      pieceListWellFormed (Obj_UFOPieceRemoved chainWorld 3) 0 [1, 2, 4] := by
  obtain ⟨h1, h2, h3, h4, h5, h6, -⟩ :=
    Obj_UFOPieceRemoved_unlinks chainWorld 0 [1, 2, 3, 4] 3 (by decide) (by decide)
  exact ⟨h1 2 rfl, h2 4 rfl, h4, h5, h3, h6⟩

/-! ### Sequences of removals -/

theorem pieceListWellFormed_congr (w w1 : World) (ufo : Nat) (ch : List Nat)
    (hr : ∀ q, (w1.mobjs q).removed = (w.mobjs q).removed)
    (ht : ∀ q, (w1.mobjs q).target = (w.mobjs q).target)
    (hn : ∀ q, (w1.mobjs q).hnext = (w.mobjs q).hnext)
    (hp : ∀ q, (w1.mobjs q).hprev = (w.mobjs q).hprev)
    (h : pieceListWellFormed w ufo ch) : pieceListWellFormed w1 ufo ch := by
  unfold pieceListWellFormed at h ⊢
  simp only [hr, ht, hn, hp]
  exact h

/-- A piece that was unlinked from the list of `ufo`: it is not the UFO, it is still owned
by it, and both its links are null. -/
theorem Obj_UFOPieceRemoved_detached (w : World) (ufo : Nat) (ch : List Nat)
    (h : pieceListWellFormed w ufo ch) (g : Nat) (hg : g ∉ ch) (hgu : g ≠ ufo)
    (hgt : (w.mobjs g).target = some ufo) (hgn : (w.mobjs g).hnext = none)
    (hgp : (w.mobjs g).hprev = none) (q : Nat) :
    ((Obj_UFOPieceRemoved w g).mobjs q).hnext = (w.mobjs q).hnext ∧
      ((Obj_UFOPieceRemoved w g).mobjs q).hprev = (w.mobjs q).hprev := by
  obtain ⟨h1, h2, h3, h4, h5⟩ := (pieceListWellFormed_iff w ufo ch).mp h
  have key := Obj_UFOPieceRemoved_links w g ufo none none hgt hgn hgp h1
    (fun a ha => by cases ha) (fun b hb => by cases hb) hgu q
  have hhead : (w.mobjs ufo).hnext ≠ some g := by
    rw [h4]
    exact fun e => hg (mem_of_index ch 0 g e)
  rw [key.1, key.2]
  by_cases hq : q = g
  · subst hq; simp [hgn, hgp]
  · simp [hq, hhead]

/-- The state kept along a sequence of removals: the list `ch` is the well-formed piece
list, and every piece of `gone` is detached. -/
theorem removals_invariant (ufo : Nat) :
    ∀ (rs : List Nat) (w : World) (ch gone : List Nat),
      pieceListWellFormed w ufo ch →
      (∀ g, g ∈ gone → g ∉ ch ∧ g ≠ ufo ∧ (w.mobjs g).target = some ufo ∧
        (w.mobjs g).hnext = none ∧ (w.mobjs g).hprev = none) →
      (∀ r, r ∈ rs → r ∈ ch ∨ r ∈ gone) →
      pieceListWellFormed (rs.foldl Obj_UFOPieceRemoved w) ufo (ch.filter (fun q => q ∉ rs)) := by
  intro rs
  induction rs with
  | nil =>
    intro w ch gone h _ _
    simpa using h
  | cons r rs ih =>
    intro w ch gone h hgone hrs
    rw [List.foldl_cons]
    obtain ⟨h1, h2, h3, h4, h5⟩ := (pieceListWellFormed_iff w ufo ch).mp h
    by_cases hr : r ∈ ch
    · have hwf := pieceListWellFormed_erase w ufo ch h r hr
      obtain ⟨k, hk⟩ := List.mem_iff_getElem?.mp hr
      have hl := pieceListWellFormed_unlink_links w ufo ch h k r hk
      have hru : r ≠ ufo := fun e => h2 (e ▸ hr)
      have hind : ∀ i q, ch[i]? = some q → q ∈ ch := fun i q e => mem_of_index ch i q e
      have := ih (Obj_UFOPieceRemoved w r) (ch.erase r) (r :: gone) hwf
        (fun g hg => by
          rcases List.mem_cons.mp hg with rfl | hg
          · refine ⟨h3.not_mem_erase, hru, ?_, ?_, ?_⟩
            · rw [(Obj_UFOPieceRemoved_frame w g g).2]; exact (h5 k g hk).2.1
            · rw [(hl g).1]; simp
            · rw [(hl g).2]; simp
          · obtain ⟨g1, g2, g3, g4, g5⟩ := hgone g hg
            have hgr : g ≠ r := fun e => g1 (e ▸ hr)
            have hnp : ∀ i, ch[i]? ≠ some g := fun i e => g1 (hind i g e)
            refine ⟨fun hm => g1 (List.mem_of_mem_erase hm), g2, ?_, ?_, ?_⟩
            · rw [(Obj_UFOPieceRemoved_frame w r g).2]; exact g3
            · rw [(hl g).1]
              by_cases hk0 : k = 0
              · simp [hgr, hk0, g2, g4]
              · simp [hgr, hk0, hnp, g2, g4]
            · rw [(hl g).2]
              simp [hgr, hnp, g5])
        (fun x hx => by
          by_cases hxr : x = r
          · right; rw [hxr]; exact List.mem_cons_self _ _
          · rcases hrs x (List.mem_cons_of_mem _ hx) with hxc | hxg
            · left; exact (h3.mem_erase_iff).mpr ⟨hxr, hxc⟩
            · right; exact List.mem_cons_of_mem _ hxg)
      have heq : (ch.erase r).filter (fun q => q ∉ rs) = ch.filter (fun q => q ∉ r :: rs) := by
        rw [h3.erase_eq_filter, List.filter_filter]
        apply List.filter_congr
        intro x _
        by_cases hxr : x = r <;> by_cases hxs : x ∈ rs <;> simp [hxr, hxs]
      rw [← heq]
      exact this
    · have hrg : r ∈ gone := by
        rcases hrs r (List.mem_cons_self _ _) with hc | hg
        · exact absurd hc hr
        · exact hg
      obtain ⟨g1, g2, g3, g4, g5⟩ := hgone r hrg
      have hd := Obj_UFOPieceRemoved_detached w ufo ch h r g1 g2 g3 g4 g5
      have hfr := Obj_UFOPieceRemoved_frame w r
      have hwf : pieceListWellFormed (Obj_UFOPieceRemoved w r) ufo ch :=
        pieceListWellFormed_congr w _ ufo ch (fun q => (hfr q).1) (fun q => (hfr q).2)
          (fun q => (hd q).1) (fun q => (hd q).2) h
      have := ih (Obj_UFOPieceRemoved w r) ch gone hwf
        (fun g hg => by
          obtain ⟨a1, a2, a3, a4, a5⟩ := hgone g hg
          exact ⟨a1, a2, by rw [(hfr g).2]; exact a3, by rw [(hd g).1]; exact a4,
            by rw [(hd g).2]; exact a5⟩)
        (fun x hx => hrs x (List.mem_cons_of_mem _ hx))
      have heq : ch.filter (fun q => q ∉ rs) = ch.filter (fun q => q ∉ r :: rs) := by
        apply List.filter_congr
        intro x hx
        have hxr : x ≠ r := fun e => hr (e ▸ hx)
        simp [List.mem_cons, hxr]
      rw [← heq]
      exact this

/-- The piece-list invariant in the words of the specification, for a well-formed list:
the previous link of the head is null, and a piece with a non-null next is the previous
of that next. -/
theorem pieceListWellFormed_invariant (w : World) (ufo : Nat) (ch : List Nat)
    (h : pieceListWellFormed w ufo ch) :
    (∀ hd, (w.mobjs ufo).hnext = some hd → (w.mobjs hd).hprev = none) ∧
      (∀ p, p ∈ ch → ∀ q, (w.mobjs p).hnext = some q →
        q ∈ ch ∧ (w.mobjs q).hprev = some p) := by
  obtain ⟨h1, h2, h3, h4, h5⟩ := (pieceListWellFormed_iff w ufo ch).mp h
  constructor
  · intro hd hhd
    rw [h4] at hhd
    simpa using (h5 0 hd hhd).2.2.2
  · intro p hp q hq
    obtain ⟨k, hk⟩ := List.mem_iff_getElem?.mp hp
    rw [(h5 k p hk).2.2.1] at hq
    refine ⟨mem_of_index ch _ q hq, ?_⟩
    rw [(h5 (k + 1) q hq).2.2.2]
    simpa using hk

/-- C13: the piece list of the UFO is the well-formed list `ch` (non-circular, head slot
on its first piece, every piece live, owned by the UFO and linked both ways to its
neighbours) and `rs` is any finite sequence of pieces of `ch`, repetitions allowed. After
`Obj_UFOPieceRemoved` on the pieces of `rs` in turn, the piece list of the UFO is well
formed and holds exactly the pieces of `ch` that are not in `rs`, in their order; it is
non-circular, the previous link of its head is null, and every piece of it with a
non-null next is the previous of that next. -/
theorem Obj_UFOPieceRemoved_preserves_invariant (w : World) (ufo : Nat) (ch rs : List Nat)
    (hwf : pieceListWellFormed w ufo ch) (hrs : ∀ r, r ∈ rs → r ∈ ch) :
    pieceListWellFormed (rs.foldl Obj_UFOPieceRemoved w) ufo (ch.filter (fun q => q ∉ rs)) ∧
      (ch.filter (fun q => q ∉ rs)).Nodup ∧
      (∀ hd, ((rs.foldl Obj_UFOPieceRemoved w).mobjs ufo).hnext = some hd →
        ((rs.foldl Obj_UFOPieceRemoved w).mobjs hd).hprev = none) ∧
      (∀ p, p ∈ ch.filter (fun q => q ∉ rs) → ∀ q,
        ((rs.foldl Obj_UFOPieceRemoved w).mobjs p).hnext = some q →
          q ∈ ch.filter (fun q => q ∉ rs) ∧
          ((rs.foldl Obj_UFOPieceRemoved w).mobjs q).hprev = some p) := by
  have h := removals_invariant ufo rs w ch [] hwf
    (fun g hg => absurd hg (List.not_mem_nil g)) (fun r hr => Or.inl (hrs r hr))
  exact ⟨h, h.2.2.1, pieceListWellFormed_invariant _ ufo _ h⟩

/-- Witness for C13, scenario S6: from the chain H, A, B, C (addresses 1, 2, 3, 4), after
removing B, then H, then B again, the piece list is A, C. -/
theorem Obj_UFOPieceRemoved_preserves_invariant_witness :
    pieceListWellFormed ([3, 1, 3].foldl Obj_UFOPieceRemoved chainWorld) 0 [2, 4] ∧
      (([3, 1, 3].foldl Obj_UFOPieceRemoved chainWorld).mobjs 0).hnext = some 2 ∧
      (([3, 1, 3].foldl Obj_UFOPieceRemoved chainWorld).mobjs 2).hprev = none ∧
      (([3, 1, 3].foldl Obj_UFOPieceRemoved chainWorld).mobjs 4).hprev = some 2 := by
  obtain ⟨h1, -, h3, h4⟩ :=
    Obj_UFOPieceRemoved_preserves_invariant chainWorld 0 [1, 2, 3, 4] [3, 1, 3] (by decide)
      (by decide)
  exact ⟨h1, rfl, h3 2 rfl, (h4 2 (by decide) 4 rfl).2⟩

/-! ### The hum index -/

theorem maxhum_eq : maxhum = 15 := rfl

theorem humIndex_range (healthlevel : Int) :
    0 ≤ UFOUpdateSound.humIndex healthlevel ∧ UFOUpdateSound.humIndex healthlevel ≤ maxhum - 1 := by
  unfold UFOUpdateSound.humIndex
  rw [maxhum_eq]
  omega

theorem humIndex_antitone (a b : Int) (h : a ≤ b) :
    UFOUpdateSound.humIndex b ≤ UFOUpdateSound.humIndex a := by
  unfold UFOUpdateSound.humIndex
  rw [maxhum_eq]
  omega

theorem hums_get (index : Int) (h0 : 0 ≤ index) (h1 : index ≤ maxhum - 1) :
    hums.get? index.toNat = some (index.toNat + 1) := by
  rw [maxhum_eq] at h1
  obtain ⟨n, rfl⟩ := Int.eq_ofNat_of_zero_le h0
  simp only [Int.toNat_ofNat]
  have hn : n ≤ 14 := by omega
  interval_cases n <;> rfl

theorem healthlevel_mono (env : Env) (w1 w2 : World) (ufo1 ufo2 : Nat)
    (h1 : 0 ≤ (w1.mobjs ufo1).health) (h : (w1.mobjs ufo1).health ≤ (w2.mobjs ufo2).health) :
    UFOUpdateSound.healthlevel env w1 ufo1 ≤ UFOUpdateSound.healthlevel env w2 ufo2 := by
  unfold UFOUpdateSound.healthlevel
  simp only [maxhum_eq]
  have hd : (0 : Int) < max env.spawnhealth 1 := by omega
  rw [Int.tdiv_eq_ediv (by omega) (le_of_lt hd), Int.tdiv_eq_ediv (by omega) (le_of_lt hd)]
  exact Int.ediv_le_ediv hd (by omega)

/-- C21: for every value of `healthlevel` the index `maxhum - clamp(healthlevel, 1, maxhum)`
lies in `0 .. maxhum - 1`, so for every UFO with health above 1 and every spawn health
`UFOUpdateSound` reads `hums` in bounds: it starts the hum at that index when none is
playing and does nothing otherwise. The index does not increase with the health: of two
UFOs with health above 1, the one with the lower health gets an index at least as high.
The product `maxhum * health` is the exact integer, which is the 32-bit one for every
health up to 143165576. -/
theorem UFOUpdateSound_hum_index (env : Env) :
    (∀ healthlevel : Int, 0 ≤ UFOUpdateSound.humIndex healthlevel ∧
      UFOUpdateSound.humIndex healthlevel ≤ maxhum - 1 ∧
      (UFOUpdateSound.humIndex healthlevel).toNat < hums.length) ∧
    (∀ (w : World) (ufo : Nat) (humPlaying : Bool), (w.mobjs ufo).health > 1 →
      0 < env.spawnhealth →
      UFOUpdateSound.healthlevel env w ufo
        = maxhum * (w.mobjs ufo).health / env.spawnhealth ∧
      ∃ sfx, hums.get? (UFOUpdateSound.humIndex (UFOUpdateSound.healthlevel env w ufo)).toNat
          = some sfx ∧
        UFOUpdateSound env humPlaying w ufo
          = if humPlaying = true then HumRequest.silent else HumRequest.start sfx) ∧
    (∀ (w1 w2 : World) (ufo1 ufo2 : Nat), (w1.mobjs ufo1).health > 1 →
      (w1.mobjs ufo1).health ≤ (w2.mobjs ufo2).health →
      UFOUpdateSound.humIndex (UFOUpdateSound.healthlevel env w2 ufo2)
        ≤ UFOUpdateSound.humIndex (UFOUpdateSound.healthlevel env w1 ufo1)) ∧
    (∀ health : Int, 1 < health → health ≤ 143165576 →
      toINT32 (maxhum * health) = maxhum * health) := by
  refine ⟨fun lvl => ?_, fun w ufo humPlaying hh hs => ?_, fun w1 w2 ufo1 ufo2 h1 h => ?_,
    fun health h1 h2 => ?_⟩
  · obtain ⟨h0, h1⟩ := humIndex_range lvl
    refine ⟨h0, h1, ?_⟩
    rw [maxhum_eq] at h1
    have : hums.length = 16 := rfl
    omega
  · obtain ⟨h0, h1⟩ := humIndex_range (UFOUpdateSound.healthlevel env w ufo)
    have hget := hums_get _ h0 h1
    refine ⟨?_, _, hget, ?_⟩
    · unfold UFOUpdateSound.healthlevel
      simp only [maxhum_eq]
      have hm : max env.spawnhealth 1 = env.spawnhealth := by omega
      rw [hm, Int.tdiv_eq_ediv (by omega) (le_of_lt hs)]
    · have hc : UFOEmeraldChase w ufo = false := by
        simp [UFOEmeraldChase]; omega
      unfold UFOUpdateSound
      cases humPlaying with
      | true => simp
      | false => simp only [hc, true_and, if_true, h0, hget]; simp
  · exact humIndex_antitone _ _ (healthlevel_mono env w1 w2 ufo1 ufo2 (by omega) h)
  · unfold toINT32
    rw [maxhum_eq]
    omega

/-- Witness for C21: with spawn health 101, the UFO at health 25 gets level 3 and starts
`hums[12]`, the sound `sfx_claw13`; at health 101 it gets index 0, which is not higher. -/
theorem UFOUpdateSound_hum_index_witness :
    UFOUpdateSound sampleEnv false (sampleWorld 25 (84 * 65536) 0 0 0 0) 0 = HumRequest.start 13 ∧
      UFOUpdateSound.humIndex
          (UFOUpdateSound.healthlevel sampleEnv (sampleWorld 101 (84 * 65536) 0 0 0 0) 0)
        ≤ UFOUpdateSound.humIndex
          (UFOUpdateSound.healthlevel sampleEnv (sampleWorld 25 (84 * 65536) 0 0 0 0) 0) := by
  obtain ⟨-, h2, h3, -⟩ := UFOUpdateSound_hum_index sampleEnv
  obtain ⟨-, sfx, hs, hr⟩ := h2 (sampleWorld 25 (84 * 65536) 0 0 0 0) 0 false (by decide)
    (by decide)
  refine ⟨?_, h3 (sampleWorld 25 (84 * 65536) 0 0 0 0) (sampleWorld 101 (84 * 65536) 0 0 0 0)
    0 0 (by decide) (by decide)⟩
  have h13 : hums.get? (UFOUpdateSound.humIndex
      (UFOUpdateSound.healthlevel sampleEnv (sampleWorld 25 (84 * 65536) 0 0 0 0) 0)).toNat
      = some 13 := by decide
  rw [h13] at hs
  cases hs
  exact hr

/-! ### The damage is never zero -/

theorem fromDamageType_pos (env : Env) (damageType : Nat) :
    0 < GetUFODamage.fromDamageType env damageType := by
  unfold GetUFODamage.fromDamageType
  simp only
  split_ifs <;> decide

theorem player_damage_pos (n : Nat) (h : n < 256) : 0 < (15 * max 1 n) % 256 := by
  omega

/-- When `GetUFODamage` returns, the damage is positive, `numsneakers` being an 8-bit
counter. -/
theorem GetUFODamage_pos (env : Env) (w : World)
    (h8 : ∀ pl, (w.players pl).numsneakers < 256) (inflictor : Option Nat)
    (damageType d : Nat) (h : GetUFODamage env w inflictor damageType = .ok d) : 0 < d := by
  cases inflictor with
  | none =>
    simp only [GetUFODamage] at h
    cases h
    exact fromDamageType_pos env damageType
  | some i =>
    by_cases hr : (w.mobjs i).removed = true
    · simp only [GetUFODamage, hr, if_true] at h
      cases h
      exact fromDamageType_pos env damageType
    · by_cases ht : (w.mobjs i).type = mobjtype_t.MT_PLAYER
      · cases hp : (w.mobjs i).player with
        | none =>
          simp only [GetUFODamage, hr, ht, hp, if_false] at h
          cases h
        | some pl =>
          rw [GetUFODamage_player env w i pl damageType (by simpa using hr) ht hp] at h
          cases h
          exact player_damage_pos _ (h8 pl)
      · have hr1 : (w.mobjs i).removed = false := by simpa using hr
        simp only [GetUFODamage, hr1, Bool.false_eq_true, if_false] at h
        cases htype : (w.mobjs i).type <;> simp only [htype] at h ht <;> first
          | (cases h; decide)
          | (cases h; exact fromDamageType_pos env damageType)
          | (split_ifs at h <;> cases h <;> decide)
          | exact absurd trivial ht

/-- `GetUFODamage` returns unless the inflictor is a live `MT_PLAYER` object with a null
`player`, which it dereferences. -/
theorem GetUFODamage_returns (env : Env) (w : World) (inflictor : Option Nat)
    (damageType : Nat)
    (hp : ∀ i, inflictor = some i → (w.mobjs i).removed = false →
      (w.mobjs i).type = mobjtype_t.MT_PLAYER → (w.mobjs i).player ≠ none) :
    ∃ d, GetUFODamage env w inflictor damageType = .ok d := by
  cases inflictor with
  | none => exact ⟨_, rfl⟩
  | some i =>
    by_cases hr : (w.mobjs i).removed = true
    · refine ⟨GetUFODamage.fromDamageType env damageType, ?_⟩
      simp only [GetUFODamage, hr, if_true]
    · by_cases ht : (w.mobjs i).type = mobjtype_t.MT_PLAYER
      · cases hpl : (w.mobjs i).player with
        | none => exact absurd hpl (hp i rfl (by simpa using hr) ht)
        | some pl => exact ⟨_, GetUFODamage_player env w i pl damageType (by simpa using hr) ht hpl⟩
      · have hr1 : (w.mobjs i).removed = false := by simpa using hr
        simp only [GetUFODamage, hr1, Bool.false_eq_true, if_false]
        cases htype : (w.mobjs i).type <;> simp only [htype] at ht ⊢ <;> first
          | exact ⟨_, rfl⟩
          | (split_ifs <;> exact ⟨_, rfl⟩)
          | exact absurd trivial ht

/-- C22: `numsneakers` is an 8-bit counter. Whenever `GetUFODamage` returns, for any
inflictor and damage kind, the damage is positive; for a live player inflictor it is
`15 x max(1, numsneakers)` reduced modulo 256, which is never 0. So a call of
`Obj_SpecialUFODamage` that returns has returned true exactly when the health of the UFO
was above 1 on entry, and with health above 1 it does return true (the source being
present, a player inflictor having its player, and the piece chain being finite). -/
theorem Obj_SpecialUFODamage_true_iff (env : Env) (w : World)
    (h8 : ∀ pl, (w.players pl).numsneakers < 256) :
    (∀ (inflictor : Option Nat) (damageType d : Nat),
      GetUFODamage env w inflictor damageType = .ok d → 0 < d) ∧
    (∀ (i pl damageType : Nat), (w.mobjs i).removed = false →
      (w.mobjs i).type = mobjtype_t.MT_PLAYER → (w.mobjs i).player = some pl →
      GetUFODamage env w (some i) damageType
          = .ok ((15 * max 1 (w.players pl).numsneakers) % 256) ∧
        0 < (15 * max 1 (w.players pl).numsneakers) % 256) ∧
    (∀ (fuel ufo : Nat) (inflictor source : Option Nat) (damageType : Nat) (b : Bool)
        (w1 : World),
      Obj_SpecialUFODamage env fuel w ufo inflictor source damageType = .ok (b, w1) →
      (b = true ↔ (w.mobjs ufo).health > 1)) ∧
    (∀ (ufo : Nat) (inflictor : Option Nat) (s damageType n fuel : Nat),
      (w.mobjs ufo).health > 1 →
      (∀ i, inflictor = some i → (w.mobjs i).removed = false →
        (w.mobjs i).type = mobjtype_t.MT_PLAYER → (w.mobjs i).player ≠ none) →
      pieceChainEnds w n (w.mobjs ufo).hnext = true → n < fuel →
      ∃ w1, Obj_SpecialUFODamage env fuel w ufo inflictor (some s) damageType = .ok (true, w1)) := by
  refine ⟨fun inflictor damageType d h => GetUFODamage_pos env w h8 inflictor damageType d h,
    fun i pl damageType hr ht hp =>
      ⟨GetUFODamage_player env w i pl damageType hr ht hp, player_damage_pos _ (h8 pl)⟩,
    fun fuel ufo inflictor source damageType b w1 h => ?_,
    fun ufo inflictor s damageType n fuel hh hp hchain hfuel => ?_⟩
  · by_cases hh : (w.mobjs ufo).health > 1
    · obtain ⟨dmg, hd, hcase⟩ :=
        damage_result env fuel w ufo inflictor source damageType b w1 hh h
      have hpos := GetUFODamage_pos env w h8 inflictor damageType dmg hd
      rcases hcase with ⟨-, h0, -⟩ | ⟨hb, -⟩ | ⟨hb, -⟩
      · omega
      · exact ⟨fun _ => hh, fun _ => hb⟩
      · exact ⟨fun _ => hh, fun _ => hb⟩
    · have hle : (w.mobjs ufo).health ≤ 1 := by omega
      simp only [Obj_SpecialUFODamage, UFOEmeraldChase, hle, decide_True, if_true] at h
      cases h
      exact ⟨fun hb => (by cases hb), fun hgt => absurd hgt hh⟩
  · obtain ⟨d, hd⟩ := GetUFODamage_returns env w inflictor damageType hp
    have hpos := GetUFODamage_pos env w h8 inflictor damageType d hd
    obtain ⟨w1, hr, -⟩ :=
      damage_accepted env w ufo inflictor s damageType d n fuel hh hd hpos hchain hfuel
    exact ⟨w1, hr⟩

/-- Witness for C22: player 0 of the sample world used 200 sneakers; the damage of the
contact is `3000 mod 256 = 184`, and the hit on the UFO at health 25 returns true. -/
theorem Obj_SpecialUFODamage_true_iff_witness :
    GetUFODamage sampleEnv (sampleWorld 25 (84 * 65536) 0 0 0 200) (some 3) 0 = .ok 184 ∧
      ∃ w1, Obj_SpecialUFODamage sampleEnv 3 (sampleWorld 25 (84 * 65536) 0 0 0 200) 0 (some 3)
        (some 3) 0 = .ok (true, w1) := by
  have h := Obj_SpecialUFODamage_true_iff sampleEnv (sampleWorld 25 (84 * 65536) 0 0 0 200)
    (fun pl => by
      simp only [sampleWorld]
      split_ifs <;> decide)
  refine ⟨(h.2.1 3 0 0 rfl rfl rfl).1, ?_⟩
  exact h.2.2.2 0 (some 3) 3 0 2 3 (by decide)
    (fun i hi _ _ => by cases hi; exact fun hn => by cases hn) (by decide) (by decide)

/-! ### The speed stays above the base speed -/

theorem UFOMove_loop_watertop (env : Env) (ufo : Nat) (floatHeight : Int)
    (destWaypoint : waypoint_t) :
    ∀ (fuel : Nat) (st st1 : UFOMove.Locals),
      UFOMove.loop env ufo floatHeight destWaypoint fuel st = .ok st1 →
      ∀ q, (st1.w.mobjs q).watertop = (st.w.mobjs q).watertop := by
  intro fuel
  induction fuel with
  | zero =>
    intro st st1 h q
    unfold UFOMove.loop at h
    split_ifs at h
    cases h
    rfl
  | succ fuel ih =>
    intro st st1 h q
    unfold UFOMove.loop at h
    simp only at h
    split_ifs at h
    · exact ih _ _ h q
    · cases h; rfl
    · split at h
      · cases h; rfl
      · split at h
        · cases h; rfl
        · rw [ih _ _ h q]
          exact field_setMobj mobj_t.watertop _ _ _ _ (by rfl)
    · cases h; rfl

/-- A move leaves the speed of every object as it was. -/
theorem UFOMove_watertop (env : Env) (fuel : Nat) (w w1 : World) (ufo : Nat)
    (h : UFOMove env fuel w ufo = .ok w1) (q : Nat) :
    (w1.mobjs q).watertop = (w.mobjs q).watertop := by
  unfold UFOMove at h
  simp only at h
  split at h
  · split at h
    · cases h
    · rename_i st hloop
      have hl := UFOMove_loop_watertop env ufo _ _ fuel _ st hloop q
      simp only at hl
      split_ifs at h
      · cases h
        simp only [UFOMove.finish, disablePlayers_mobjs]
        refine (field_setMobj mobj_t.watertop _ _ _ _ (by rfl)).trans ?_
        unfold UFOMoveTo
        refine (field_setMobj mobj_t.watertop _ _ _ _ (by rfl)).trans ?_
        exact hl
      · cases h
        unfold UFOMoveTo
        refine (field_setMobj mobj_t.watertop _ _ _ _ (by rfl)).trans ?_
        exact hl
  · cases h
    exact field_setMobj mobj_t.watertop _ _ _ _ (by rfl)

theorem UFOUpdateDistanceToFinish_watertop (env : Env) (w : World) (ufo q : Nat) :
    ((UFOUpdateDistanceToFinish env w ufo).mobjs q).watertop = (w.mobjs q).watertop := by
  unfold UFOUpdateDistanceToFinish
  split
  · split
    · rfl
    · exact field_setMobj mobj_t.watertop _ _ _ _ (by rfl)
  · rfl

/-- The speed of the UFO after a thinker tic is one slew step from its speed before. -/
theorem Obj_SpecialUFOThinker_watertop (env : Env) (fuel : Nat) (w w1 : World) (ufo : Nat)
    (h : Obj_SpecialUFOThinker env fuel w ufo = .ok w1) :
    ∃ v : World, (w1.mobjs ufo).watertop
      = UFOUpdateSpeed.slew env (w.mobjs ufo).watertop (UFOUpdateSpeed.wantedSpeed env v ufo) := by
  unfold Obj_SpecialUFOThinker at h
  split at h
  · cases h
  · rename_i wm hmove
    have hm := UFOMove_watertop env fuel w wm ufo hmove ufo
    have h3 : ((UFOUpdateDistanceToFinish env (UFOUpdateAngle env wm ufo) ufo).mobjs ufo).watertop
        = (w.mobjs ufo).watertop := by
      rw [UFOUpdateDistanceToFinish_watertop]
      unfold UFOUpdateAngle
      refine (field_setMobj mobj_t.watertop _ _ _ _ (by rfl)).trans ?_
      exact hm
    refine ⟨UFOUpdateDistanceToFinish env (UFOUpdateAngle env wm ufo) ufo, ?_⟩
    have h4 : ((UFOUpdateSpeed env (UFOUpdateDistanceToFinish env (UFOUpdateAngle env wm ufo) ufo)
        ufo).mobjs ufo).watertop
        = UFOUpdateSpeed.slew env (w.mobjs ufo).watertop
          (UFOUpdateSpeed.wantedSpeed env
            (UFOUpdateDistanceToFinish env (UFOUpdateAngle env wm ufo) ufo) ufo) := by
      rw [← h3]
      simp [UFOUpdateSpeed]
    simp only at h
    split_ifs at h
    · cases h
      refine (field_setMobj mobj_t.watertop _ _ _ _ (by rfl)).trans ?_
      unfold UFOEmeraldVFX
      refine (field_setMobj mobj_t.watertop _ _ _ _ (by rfl)).trans ?_
      exact h4
    · cases h
      refine (field_setMobj mobj_t.watertop _ _ _ _ (by rfl)).trans ?_
      exact h4

theorem wantedSpeed_ge_base (env : Env) (w : World) (ufo : Nat)
    (h0 : 0 ≤ UFOUpdateSpeed.baseSpeed env) :
    UFOUpdateSpeed.baseSpeed env ≤ UFOUpdateSpeed.wantedSpeed env w ufo := by
  unfold UFOUpdateSpeed.wantedSpeed
  simp only
  split_ifs
  · exact le_refl _
  · exact le_trans (by omega) (le_max_right _ _)
  · exact le_max_right _ _
  · exact le_refl _

theorem slew_ge (env : Env) (base speed wanted : Int) (hs : base ≤ speed) (hw : base ≤ wanted) :
    base ≤ UFOUpdateSpeed.slew env speed wanted := by
  have hpos := FRACUNIT_half_nonneg env
  unfold UFOUpdateSpeed.slew UFO_SPEEDUP UFO_SLOWDOWN
  simp only
  split_ifs with h1 h2 h3 h4
  · exact hw
  · omega
  · exact hw
  · rw [abs_of_neg (by omega)] at h4
    omega
  · exact hs

/-- The speed of the UFO after a damage event that returned: as before, or one or two
damage bonuses higher. -/
theorem Obj_SpecialUFODamage_watertop (env : Env) (fuel : Nat) (w : World) (ufo : Nat)
    (inflictor source : Option Nat) (damageType : Nat) (b : Bool) (w1 : World)
    (h : Obj_SpecialUFODamage env fuel w ufo inflictor source damageType = .ok (b, w1)) :
    (w1.mobjs ufo).watertop = (w.mobjs ufo).watertop ∨
      (w1.mobjs ufo).watertop = (w.mobjs ufo).watertop
        + env.FixedMul (UFO_DAMAGED_SPEED env) env.gameSpeedScalar ∨
      (w1.mobjs ufo).watertop = (w.mobjs ufo).watertop
        + 2 * env.FixedMul (UFO_DAMAGED_SPEED env) env.gameSpeedScalar := by
  unfold Obj_SpecialUFODamage at h
  split_ifs at h
  · cases h; exact Or.inl rfl
  · split at h
    · cases h
    · split_ifs at h
      · cases h; exact Or.inl rfl
      · split at h
        · cases h
        · rename_i damage hd hpos x w0 hs
          have hm := sourceSkin_mobjs env w w0 source hs
          obtain ⟨-, hp, hn⟩ := accept_result env fuel w0 ufo inflictor damage b w1 h
          rw [hm] at hp hn
          by_cases hc : (damage : Int) ≥ (w.mobjs ufo).health - 1
          · exact Or.inr (Or.inr (hp hc).2.2.2)
          · exact Or.inr (Or.inl (hn (by omega)).2.2.2.1)

theorem exact_product_nonneg (env : Env) (a : Int) (ha : 0 ≤ a)
    (hG : 0 ≤ env.gameSpeedScalar) : 0 ≤ a * env.gameSpeedScalar / 2 ^ env.FRACBITS :=
  Int.ediv_nonneg (mul_nonneg ha hG) (by positivity)

/-- C23: the game-speed scalar `G` is not negative and `FixedMul` is the exact fixed-point
product (no overflow) on `UFO_BASE_SPEED`, `UFO_DAMAGED_SPEED` and `UFO_START_SPEED` with
`G`. Then the speed given at spawn by `InitSpecialUFO` is at least the base speed
`FixedMul(UFO_BASE_SPEED, G)`; a speed that is at least the base speed before
`UFOUpdateSpeed`, or before a call of `Obj_SpecialUFODamage` that returns, is so after it,
for every state of the players and distances; and so it is after every run of thinker tics
and damage events. Speeds are exact integers. -/
theorem UFO_speed_at_least_base (env : Env) (hG : 0 ≤ env.gameSpeedScalar)
    (hbase : env.FixedMul (UFO_BASE_SPEED env) env.gameSpeedScalar
      = UFO_BASE_SPEED env * env.gameSpeedScalar / 2 ^ env.FRACBITS)
    (hdmg : env.FixedMul (UFO_DAMAGED_SPEED env) env.gameSpeedScalar
      = UFO_DAMAGED_SPEED env * env.gameSpeedScalar / 2 ^ env.FRACBITS)
    (hstart : env.FixedMul (UFO_START_SPEED env) env.gameSpeedScalar
      = UFO_START_SPEED env * env.gameSpeedScalar / 2 ^ env.FRACBITS) :
    UFOUpdateSpeed.baseSpeed env ≤ InitSpecialUFO.speed env ∧
    (∀ (w : World) (ufo : Nat), UFOUpdateSpeed.baseSpeed env ≤ (w.mobjs ufo).watertop →
      UFOUpdateSpeed.baseSpeed env ≤ ((UFOUpdateSpeed env w ufo).mobjs ufo).watertop) ∧
    (∀ (fuel : Nat) (w : World) (ufo : Nat) (inflictor source : Option Nat) (damageType : Nat)
        (b : Bool) (w1 : World),
      UFOUpdateSpeed.baseSpeed env ≤ (w.mobjs ufo).watertop →
      Obj_SpecialUFODamage env fuel w ufo inflictor source damageType = .ok (b, w1) →
      UFOUpdateSpeed.baseSpeed env ≤ (w1.mobjs ufo).watertop) ∧
    (∀ (ufo : Nat) (evs : List UFOEvent) (w w1 : World),
      UFOUpdateSpeed.baseSpeed env ≤ (w.mobjs ufo).watertop →
      runEvents env ufo evs w = .ok w1 →
      UFOUpdateSpeed.baseSpeed env ≤ (w1.mobjs ufo).watertop) := by
  have hF : (0 : Int) < FRACUNIT env := by
    unfold FRACUNIT
    positivity
  have hb0 : 0 ≤ UFOUpdateSpeed.baseSpeed env := by
    unfold UFOUpdateSpeed.baseSpeed
    rw [hbase]
    exact exact_product_nonneg env _ (by unfold UFO_BASE_SPEED; omega) hG
  have hd0 : 0 ≤ env.FixedMul (UFO_DAMAGED_SPEED env) env.gameSpeedScalar := by
    rw [hdmg]
    exact exact_product_nonneg env _ (by unfold UFO_DAMAGED_SPEED UFO_BASE_SPEED; omega) hG
  have hupd : ∀ (w : World) (ufo : Nat), UFOUpdateSpeed.baseSpeed env ≤ (w.mobjs ufo).watertop →
      UFOUpdateSpeed.baseSpeed env ≤ ((UFOUpdateSpeed env w ufo).mobjs ufo).watertop := by
    intro w ufo hs
    have hnew : ((UFOUpdateSpeed env w ufo).mobjs ufo).watertop
        = UFOUpdateSpeed.slew env (w.mobjs ufo).watertop (UFOUpdateSpeed.wantedSpeed env w ufo) := by
      simp [UFOUpdateSpeed]
    rw [hnew]
    exact slew_ge env _ _ _ hs (wantedSpeed_ge_base env w ufo hb0)
  have hdam : ∀ (fuel : Nat) (w : World) (ufo : Nat) (inflictor source : Option Nat)
      (damageType : Nat) (b : Bool) (w1 : World),
      UFOUpdateSpeed.baseSpeed env ≤ (w.mobjs ufo).watertop →
      Obj_SpecialUFODamage env fuel w ufo inflictor source damageType = .ok (b, w1) →
      UFOUpdateSpeed.baseSpeed env ≤ (w1.mobjs ufo).watertop := by
    intro fuel w ufo inflictor source damageType b w1 hs h
    rcases Obj_SpecialUFODamage_watertop env fuel w ufo inflictor source damageType b w1 h
      with e | e | e <;> rw [e] <;> omega
  refine ⟨?_, hupd, hdam, ?_⟩
  · unfold UFOUpdateSpeed.baseSpeed InitSpecialUFO.speed
    rw [hbase, hstart]
    apply Int.ediv_le_ediv (by positivity)
    apply mul_le_mul_of_nonneg_right _ hG
    unfold UFO_START_SPEED UFO_BASE_SPEED
    omega
  · intro ufo evs
    induction evs with
    | nil =>
      intro w w1 hs h
      cases h
      exact hs
    | cons ev rest ih =>
      intro w w1 hs h
      simp only [runEvents] at h
      split at h
      · cases h
      · rename_i wa hev
        refine ih wa w1 ?_ h
        cases ev with
        | damage fuel inflictor source damageType =>
          simp only [UFOEvent.run] at hev
          split at hev
          · cases hev
          · rename_i r hr
            cases hev
            exact hdam fuel w ufo inflictor source damageType r.1 r.2 hs hr
        | think fuel =>
          simp only [UFOEvent.run] at hev
          obtain ⟨v, hv⟩ := Obj_SpecialUFOThinker_watertop env fuel w wa ufo hev
          rw [hv]
          exact slew_ge env _ _ _ hs (wantedSpeed_ge_base env v ufo hb0)

/-- Witness for C23, with `G = 1`: the spawn speed is 84 units, above the base speed of 42;
in scenario S1 the speed 45 is slewed to 44.5, and after an accepted hit and a thinker tic
from the spawn speed it is still above 42. -/
theorem UFO_speed_at_least_base_witness :
    UFOUpdateSpeed.baseSpeed sampleEnv = 42 * 65536 ∧
      InitSpecialUFO.speed sampleEnv = 84 * 65536 ∧
      UFOUpdateSpeed.baseSpeed sampleEnv
        ≤ ((UFOUpdateSpeed sampleEnv
            (sampleWorld 25 (45 * 65536) 9232 10000 (60 * 65536) 0) 0).mobjs 0).watertop ∧
      ∃ w1, runEvents sampleEnv 0 [UFOEvent.damage 3 (some 4) (some 3) 0, UFOEvent.think 1]
          (sampleWorld 25 (84 * 65536) 5000 10000 (60 * 65536) 0) = .ok w1 ∧
        UFOUpdateSpeed.baseSpeed sampleEnv ≤ (w1.mobjs 0).watertop := by
  have h := UFO_speed_at_least_base sampleEnv (by decide) (by decide) (by decide) (by decide)
  refine ⟨by decide, by decide, h.2.1 _ 0 (by decide), ?_⟩
  have hok : (runEvents sampleEnv 0 [UFOEvent.damage 3 (some 4) (some 3) 0, UFOEvent.think 1]
      (sampleWorld 25 (84 * 65536) 5000 10000 (60 * 65536) 0)).toOption.isSome = true := rfl
  cases hrun : runEvents sampleEnv 0 [UFOEvent.damage 3 (some 4) (some 3) 0, UFOEvent.think 1]
      (sampleWorld 25 (84 * 65536) 5000 10000 (60 * 65536) 0) with
  | error e =>
    rw [hrun] at hok
    cases hok
  | ok w1 => exact ⟨w1, rfl, h.2.2.2 0 _ _ w1 (by decide) hrun⟩

end RingRacers
